import Mathlib

/-! Wall confinement of `hoomd/hpmc/ExternalFieldWall.h`.

A shallow embedding of the wall types (`SphereWall`, `CylinderWall`, `PlaneWall`), of the
`test_confined` overloads and of the methods of `ExternalFieldWall` (`boltzmann`, `accept`,
`countOverlaps`, `scaleWalls`, the wall management and the log quantities), followed by theorems
about them.

The floating point types `Scalar` and `OverlapReal` are modelled by one linearly ordered field `α`
(instantiated with `ℝ` in the theorems), and the library functions `sqrt` and `pow` are passed to
every function that calls them (instantiated with `Real.sqrt` and `Real.rpow` in the theorems).
-/

namespace hpmc

/-! ## Vector math (`hoomd/VectorMath.h`) -/

/-- Three-component vector `vec3<Real>`. -/
structure vec3 (α : Type) where
  x : α
  y : α
  z : α
deriving DecidableEq, Repr

/-- Quaternion `quat<Real>`: scalar part `s`, vector part `v`. -/
structure quat (α : Type) where
  s : α
  v : vec3 α
deriving DecidableEq, Repr

section VectorMath
variable {α : Type} [LinearOrderedField α]

/-- Component-wise sum, `operator+` on `vec3`. -/
def vec3.add (a b : vec3 α) : vec3 α := ⟨a.x + b.x, a.y + b.y, a.z + b.z⟩

/-- Component-wise difference, `operator-` on `vec3`. -/
def vec3.sub (a b : vec3 α) : vec3 α := ⟨a.x - b.x, a.y - b.y, a.z - b.z⟩

/-- Multiplication by a scalar, `operator*` of a scalar and a `vec3`. -/
def vec3.smul (c : α) (a : vec3 α) : vec3 α := ⟨c * a.x, c * a.y, c * a.z⟩

/-- Division by a scalar, `operator/=` on `vec3`. -/
def vec3.sdiv (a : vec3 α) (c : α) : vec3 α := ⟨a.x / c, a.y / c, a.z / c⟩

/-- Negation, unary `operator-` on `vec3`. -/
def vec3.neg (a : vec3 α) : vec3 α := ⟨-a.x, -a.y, -a.z⟩

/-- Dot product of two vectors. -/
def dot (a b : vec3 α) : α := a.x * b.x + a.y * b.y + a.z * b.z

/-- Cross product of two vectors. -/
def cross (a b : vec3 α) : vec3 α :=
  ⟨a.y * b.z - a.z * b.y, a.z * b.x - a.x * b.z, a.x * b.y - a.y * b.x⟩

/-- Modelled from the spec: `rotate(quat, vec3)` of `hoomd/VectorMath.h`, which is not among the
sources; the spec names it only as "vector/quaternion math (3D vectors, rotations)". This is the
rotation of `b` by the quaternion `a`, the vector part of `a * b * conj(a)`, in the expanded form
`(a.s² - a.v·a.v) b + 2 a.s (a.v × b) + 2 (a.v·b) a.v`. -/
def rotate (a : quat α) (b : vec3 α) : vec3 α :=
  ((vec3.smul (a.s * a.s - dot a.v a.v) b).add (vec3.smul (2 * a.s) (cross a.v b))).add
    (vec3.smul (2 * dot a.v b) a.v)

/-- The default quaternion `quat<Real>()`, which is `(1, (0, 0, 0))`. -/
def quat.default : quat α := ⟨1, ⟨0, 0, 0⟩⟩

end VectorMath

/-! ## Box (`hoomd/BoxDim.h`) -/

/-- The periodic box `BoxDim`. Its header is not among the sources, so the one method the
confinement tests call, `minImage`, is a field of the record: every theorem holds for every
function put there. `L` holds the edge lengths and `xy`, `xz`, `yz` the tilt factors. -/
structure BoxDim (α : Type) where
  L : vec3 α
  xy : α
  xz : α
  yz : α
  minImage : vec3 α → vec3 α

/-! ## Shapes -/

/-- The vertex record `detail::poly3d_verts<max_verts>`: coordinate arrays of capacity
`max_verts`, the number `N` of vertices in use, the circumsphere `diameter`, the `sweep_radius`
and the `ignore` flag. The vertex count stays within the capacity of the arrays (the invariant
of the data model), so that every read `x[v]` with `v < N` is a read inside the array. -/
structure poly3d_verts (α : Type) (max_verts : Nat) where
  x : Fin max_verts → α
  y : Fin max_verts → α
  z : Fin max_verts → α
  N : Nat
  diameter : α
  sweep_radius : α
  ignore : Nat
  N_le : N ≤ max_verts

/-- The vertex `(x[v], y[v], z[v])` of a vertex record, for an index `v < N`. -/
def poly3d_verts.vertex {α : Type} {max_verts : Nat} (verts : poly3d_verts α max_verts)
    (v : Nat) (h : v < verts.N) : vec3 α :=
  ⟨verts.x ⟨v, lt_of_lt_of_le h verts.N_le⟩, verts.y ⟨v, lt_of_lt_of_le h verts.N_le⟩,
    verts.z ⟨v, lt_of_lt_of_le h verts.N_le⟩⟩

/-- The shape `ShapeSphere`. Its header is not among the sources; the confinement tests only call
`getCircumsphereDiameter()`, whose value is the field `circumsphereDiameter`. -/
structure ShapeSphere (α : Type) where
  orientation : quat α
  circumsphereDiameter : α

/-- The accessor `ShapeSphere::getCircumsphereDiameter()`. -/
def ShapeSphere.getCircumsphereDiameter {α : Type} (shape : ShapeSphere α) : α :=
  shape.circumsphereDiameter

/-- The shape `ShapeConvexPolyhedron<max_verts>`: an orientation and a vertex record. -/
structure ShapeConvexPolyhedron (α : Type) (max_verts : Nat) where
  orientation : quat α
  verts : poly3d_verts α max_verts

/-- The accessor `ShapeConvexPolyhedron::getCircumsphereDiameter()`, which returns
`verts.diameter`. -/
def ShapeConvexPolyhedron.getCircumsphereDiameter {α : Type} {max_verts : Nat}
    (shape : ShapeConvexPolyhedron α max_verts) : α :=
  shape.verts.diameter

/-- The shape `ShapeSpheropolyhedron<max_verts>` as the confinement tests build it: an
orientation and a vertex record. -/
structure ShapeSpheropolyhedron (α : Type) (max_verts : Nat) where
  orientation : quat α
  verts : poly3d_verts α max_verts

/-- The function `cast_poly3d_verts<old_max_verts, new_max_verts>`: the same record in arrays of
a larger capacity, the entries from `N` on set to zero. The argument `h` is the requirement the
source states with `#error "must cast to a larger number of vertices"`. -/
def cast_poly3d_verts {α : Type} [Zero α] {old_max_verts new_max_verts : Nat}
    (h : old_max_verts ≤ new_max_verts) (old_verts : poly3d_verts α old_max_verts) :
    poly3d_verts α new_max_verts where
  N := old_verts.N
  diameter := old_verts.diameter
  sweep_radius := old_verts.sweep_radius
  ignore := old_verts.ignore
  x := fun i => if hi : i.val < old_verts.N then
    old_verts.x ⟨i.val, lt_of_lt_of_le hi old_verts.N_le⟩ else 0
  y := fun i => if hi : i.val < old_verts.N then
    old_verts.y ⟨i.val, lt_of_lt_of_le hi old_verts.N_le⟩ else 0
  z := fun i => if hi : i.val < old_verts.N then
    old_verts.z ⟨i.val, lt_of_lt_of_le hi old_verts.N_le⟩ else 0
  N_le := le_trans old_verts.N_le h

/-! ## Walls -/

/-- The wall `SphereWall`: squared radius, inside flag, origin and a one-vertex record. The
shared pointer `verts` is copied with the wall, so the record is a plain field. -/
structure SphereWall (α : Type) where
  rsq : α
  inside : Bool
  origin : vec3 α
  verts : poly3d_verts α 1

/-- The wall `CylinderWall`: squared radius, inside flag, origin, axis and a two-vertex
record. -/
structure CylinderWall (α : Type) where
  rsq : α
  inside : Bool
  origin : vec3 α
  orientation : vec3 α
  verts : poly3d_verts α 2

/-- The wall `PlaneWall`: normal, origin, inside flag (not used) and the offset `d` of the plane
`a x + b y + c z + d = 0`. -/
structure PlaneWall (α : Type) where
  normal : vec3 α
  origin : vec3 α
  inside : Bool
  d : α

section Walls
variable {α : Type} [LinearOrderedField α]

/-- The constructor `SphereWall(r, orig, ins)`. The record allocated by
`new detail::poly3d_verts<1>` is the argument `verts0`; the constructor then sets `N`, `diameter`,
`sweep_radius` and `ignore`. -/
def SphereWall.new (r : α) (orig : vec3 α) (ins : Bool) (verts0 : poly3d_verts α 1) :
    SphereWall α where
  rsq := r * r
  inside := ins
  origin := orig
  verts := { verts0 with
    N := 0, diameter := r + r, sweep_radius := r, ignore := 0, N_le := Nat.zero_le 1 }

/-- The constructor `CylinderWall(r, orig, orient, ins)`: the axis is normalised; the vertices
and the diameter of the record `verts0` allocated by `new detail::poly3d_verts<2>` are set
later. -/
def CylinderWall.new (sqrt : α → α) (r : α) (orig orient : vec3 α) (ins : Bool)
    (verts0 : poly3d_verts α 2) : CylinderWall α where
  rsq := r * r
  inside := ins
  origin := orig
  orientation := orient.sdiv (sqrt (dot orient orient))
  verts := { verts0 with N := 2, sweep_radius := r, ignore := 0, N_le := le_refl 2 }

/-- The constructor `PlaneWall(nvec, pt, ins)`: the normal is normalised and
`d = -dot(normal, origin)`. -/
def PlaneWall.new (sqrt : α → α) (nvec pt : vec3 α) (ins : Bool) : PlaneWall α where
  normal := nvec.sdiv (sqrt (dot nvec nvec))
  origin := pt
  inside := ins
  d := -dot (nvec.sdiv (sqrt (dot nvec nvec))) pt

/-- The method `SphereWall::scale(alpha)`. -/
def SphereWall.scale (wall : SphereWall α) (alpha : α) : SphereWall α :=
  { wall with
    rsq := wall.rsq * (alpha * alpha)
    origin := vec3.smul alpha wall.origin
    verts := { wall.verts with
      diameter := wall.verts.diameter * alpha
      sweep_radius := wall.verts.sweep_radius * alpha } }

/-- The method `CylinderWall::scale(alpha)`. -/
def CylinderWall.scale (wall : CylinderWall α) (alpha : α) : CylinderWall α :=
  { wall with
    rsq := wall.rsq * (alpha * alpha)
    origin := vec3.smul alpha wall.origin
    verts := { wall.verts with sweep_radius := wall.verts.sweep_radius * alpha } }

/-- The method `PlaneWall::scale(alpha)`. -/
def PlaneWall.scale (wall : PlaneWall α) (alpha : α) : PlaneWall α :=
  { wall with origin := vec3.smul alpha wall.origin, d := wall.d * alpha }

end Walls

/-! ## The confinement tests `test_confined` -/

/-- The loop `for (v = 0; v < N && accept; v++) accept = body(v);` of the vertex checks, entered
at index `v` with the current value of `accept`; the result is the final value of `accept`. -/
def for_verts (N : Nat) (body : (v : Nat) → v < N → Bool) (v : Nat) (accept : Bool) : Bool :=
  if h : v < N then
    if accept then for_verts N body (v + 1) (body v h) else accept
  else accept
termination_by N - v

section TestConfined
variable {α : Type} [LinearOrderedField α]

/-- The generic template `test_confined<WallShape, ParticleShape>`, which every pair without a
specialisation falls back to. -/
def test_confined {WallShape ParticleShape : Type} (_wall : WallShape) (_shape : ParticleShape)
    (_position _box_origin : vec3 α) (_box : BoxDim α) : Bool :=
  false

/-- The specialisation `test_confined<SphereWall, ShapeSphere>`. -/
def test_confined_SphereWall_ShapeSphere (sqrt : α → α) (wall : SphereWall α)
    (shape : ShapeSphere α) (position box_origin : vec3 α) (box : BoxDim α) : Bool :=
  let t := position.sub box_origin
  let t : vec3 α := ⟨t.x - wall.origin.x, t.y - wall.origin.y, t.z - wall.origin.z⟩
  let shifted_pos := box.minImage t
  let rxyz_sq := shifted_pos.x * shifted_pos.x + shifted_pos.y * shifted_pos.y
    + shifted_pos.z * shifted_pos.z
  let max_dist := sqrt rxyz_sq + shape.getCircumsphereDiameter / 2
  let max_dist :=
    if !wall.inside then
      let max_dist := sqrt rxyz_sq - shape.getCircumsphereDiameter / 2
      if max_dist < 0 then 0 else max_dist
    else max_dist
  if wall.inside then decide (wall.rsq > max_dist * max_dist)
  else decide (wall.rsq < max_dist * max_dist)

/-- The overload `test_confined(SphereWall, ShapeConvexPolyhedron<max_verts>)`. The overlap
test `test_overlap` of two spheropolyhedra is not among the sources and is an argument: it gets
the separation, the two shapes and the value of `err`, and returns its result with the new value
of `err`. The argument `hcap` is what `cast_poly3d_verts<1, max_verts>` requires. -/
def test_confined_SphereWall_ShapeConvexPolyhedron {max_verts : Nat} (sqrt : α → α)
    (test_overlap : vec3 α → ShapeSpheropolyhedron α max_verts →
      ShapeSpheropolyhedron α max_verts → Nat → Bool × Nat)
    (hcap : 1 ≤ max_verts)
    (wall : SphereWall α) (shape : ShapeConvexPolyhedron α max_verts)
    (position box_origin : vec3 α) (box : BoxDim α) : Bool :=
  let accept := true
  let t := position.sub box_origin
  let t : vec3 α := ⟨t.x - wall.origin.x, t.y - wall.origin.y, t.z - wall.origin.z⟩
  let shifted_pos := box.minImage t
  let rxyz_sq := shifted_pos.x * shifted_pos.x + shifted_pos.y * shifted_pos.y
    + shifted_pos.z * shifted_pos.z
  let max_dist := sqrt rxyz_sq + shape.getCircumsphereDiameter / 2
  let max_dist :=
    if !wall.inside then
      let max_dist := sqrt rxyz_sq - shape.getCircumsphereDiameter / 2
      if max_dist < 0 then 0 else max_dist
    else max_dist
  let check_verts : Bool :=
    if wall.inside then decide (wall.rsq ≤ max_dist * max_dist)
    else decide (wall.rsq ≥ max_dist * max_dist)
  if check_verts then
    if wall.inside then
      for_verts shape.verts.N (fun v hv =>
        let pos := shape.verts.vertex v hv
        let rotated_pos := rotate shape.orientation pos
        let rotated_pos := rotated_pos.add shifted_pos
        let rxyz_sq := rotated_pos.x * rotated_pos.x + rotated_pos.y * rotated_pos.y
          + rotated_pos.z * rotated_pos.z
        if wall.inside then decide (wall.rsq > rxyz_sq) else decide (wall.rsq < rxyz_sq))
        0 accept
    else
      let q : quat α := quat.default
      let err := 0
      let wall_shape : ShapeSpheropolyhedron α max_verts := ⟨q, cast_poly3d_verts hcap wall.verts⟩
      let part_shape : ShapeSpheropolyhedron α max_verts := ⟨shape.orientation, shape.verts⟩
      !(test_overlap shifted_pos wall_shape part_shape err).1
  else accept

/-- The specialisation `test_confined<CylinderWall, ShapeSphere>`. -/
def test_confined_CylinderWall_ShapeSphere (sqrt : α → α) (wall : CylinderWall α)
    (shape : ShapeSphere α) (position box_origin : vec3 α) (box : BoxDim α) : Bool :=
  let t := position.sub box_origin
  let t : vec3 α := ⟨t.x - wall.origin.x, t.y - wall.origin.y, t.z - wall.origin.z⟩
  let shifted_pos := box.minImage t
  let dist_vec := cross shifted_pos wall.orientation
  let max_dist := sqrt (dot dist_vec dist_vec)
  let max_dist :=
    if wall.inside then max_dist + shape.getCircumsphereDiameter / 2
    else
      let max_dist := max_dist - shape.getCircumsphereDiameter / 2
      if max_dist < 0 then 0 else max_dist
  if wall.inside then decide (wall.rsq > max_dist * max_dist)
  else decide (wall.rsq < max_dist * max_dist)

/-- The overload `test_confined(CylinderWall, ShapeConvexPolyhedron<max_verts>)`, with
`test_overlap` an argument as for the sphere wall. The argument `hcap` is what
`cast_poly3d_verts<2, max_verts>` requires. The `assert` on the sweep radius of the shape is
compiled out and has no counterpart here. -/
def test_confined_CylinderWall_ShapeConvexPolyhedron {max_verts : Nat} (sqrt : α → α)
    (test_overlap : vec3 α → ShapeSpheropolyhedron α max_verts →
      ShapeSpheropolyhedron α max_verts → Nat → Bool × Nat)
    (hcap : 2 ≤ max_verts)
    (wall : CylinderWall α) (shape : ShapeConvexPolyhedron α max_verts)
    (position box_origin : vec3 α) (box : BoxDim α) : Bool :=
  let accept := true
  let t := position.sub box_origin
  let t : vec3 α := ⟨t.x - wall.origin.x, t.y - wall.origin.y, t.z - wall.origin.z⟩
  let shifted_pos := box.minImage t
  let dist_vec := cross shifted_pos wall.orientation
  let max_dist := sqrt (dot dist_vec dist_vec)
  let max_dist :=
    if wall.inside then max_dist + shape.getCircumsphereDiameter / 2
    else
      let max_dist := max_dist - shape.getCircumsphereDiameter / 2
      if max_dist < 0 then 0 else max_dist
  let check_verts : Bool :=
    if wall.inside then decide (wall.rsq ≤ max_dist * max_dist)
    else decide (wall.rsq ≥ max_dist * max_dist)
  if check_verts then
    if wall.inside then
      for_verts shape.verts.N (fun v hv =>
        let pos := shape.verts.vertex v hv
        let rotated_pos := rotate shape.orientation pos
        let rotated_pos := rotated_pos.add shifted_pos
        let dist_vec := cross rotated_pos wall.orientation
        let max_dist := sqrt (dot dist_vec dist_vec)
        if wall.inside then decide (wall.rsq > max_dist * max_dist)
        else decide (wall.rsq < max_dist * max_dist))
        0 accept
    else
      let proj := vec3.smul (dot shifted_pos wall.orientation) wall.orientation
      let r_ab := shifted_pos.sub proj
      let err := 0
      let wall_shape : ShapeSpheropolyhedron α max_verts :=
        ⟨quat.default, cast_poly3d_verts hcap wall.verts⟩
      let part_shape : ShapeSpheropolyhedron α max_verts := ⟨shape.orientation, shape.verts⟩
      !(test_overlap r_ab wall_shape part_shape err).1
  else accept

/-- The specialisation `test_confined<PlaneWall, ShapeSphere>`. -/
def test_confined_PlaneWall_ShapeSphere (wall : PlaneWall α) (shape : ShapeSphere α)
    (position box_origin : vec3 α) (box : BoxDim α) : Bool :=
  let t := position.sub box_origin
  let shifted_pos := box.minImage t
  let max_dist := dot wall.normal shifted_pos + wall.d
  if max_dist < 0 then false else decide (0 < max_dist - shape.getCircumsphereDiameter / 2)

/-- The overload `test_confined(PlaneWall, ShapeConvexPolyhedron<max_verts>)`. -/
def test_confined_PlaneWall_ShapeConvexPolyhedron {max_verts : Nat} (wall : PlaneWall α)
    (shape : ShapeConvexPolyhedron α max_verts) (position box_origin : vec3 α)
    (box : BoxDim α) : Bool :=
  let t := position.sub box_origin
  let shifted_pos := box.minImage t
  let max_dist := dot wall.normal shifted_pos + wall.d
  let accept : Bool := decide (0 < max_dist)
  if accept && decide (max_dist ≤ shape.getCircumsphereDiameter / 2) then
    for_verts shape.verts.N (fun v hv =>
      let pos := shape.verts.vertex v hv
      let rotated_pos := rotate shape.orientation pos
      let rotated_pos := rotated_pos.add shifted_pos
      let max_dist := dot wall.normal rotated_pos + wall.d
      decide (0 < max_dist))
      0 accept
  else accept

end TestConfined

/-! ## The field `ExternalFieldWall<Shape>` -/

/-- The overloads of `test_confined` and the accessor that the class template
`ExternalFieldWall<Shape>` resolves for its shape type `Shape`. -/
structure ShapeOverloads (α : Type) (Shape : Type) where
  getCircumsphereDiameter : Shape → α
  test_confined_sphere : SphereWall α → Shape → vec3 α → vec3 α → BoxDim α → Bool
  test_confined_cylinder : CylinderWall α → Shape → vec3 α → vec3 α → BoxDim α → Bool
  test_confined_plane : PlaneWall α → Shape → vec3 α → vec3 α → BoxDim α → Bool

/-- One local particle as `countOverlaps` reads it: entry `i` of the position array (the
position and, in its `w` component, the type id) and entry `i` of the orientation array. -/
structure Particle (α : Type) where
  position : vec3 α
  typ : Nat
  orientation : quat α

/-- The part of the particle data `m_pdata` that the field reads: the global box, the origin
and the local particles (`getN()` is the length of the list). -/
structure ParticleData (α : Type) where
  globalBox : BoxDim α
  origin : vec3 α
  particles : List (Particle α)

/-- The data members of `ExternalFieldWall<Shape>`, with the particle data it points to. -/
structure ExternalFieldWall (α : Type) where
  m_pdata : ParticleData α
  m_Spheres : List (SphereWall α)
  m_Cylinders : List (CylinderWall α)
  m_Planes : List (PlaneWall α)
  m_SphereLogQuantities : List String
  m_CylinderLogQuantities : List String
  m_Volume : α
  m_box : BoxDim α

section Field
variable {α : Type} [LinearOrderedField α] {Shape : Type}

/-- The overloads for `Shape = ShapeSphere`. -/
def ShapeSphere.overloads (sqrt : α → α) : ShapeOverloads α (ShapeSphere α) where
  getCircumsphereDiameter := ShapeSphere.getCircumsphereDiameter
  test_confined_sphere := test_confined_SphereWall_ShapeSphere sqrt
  test_confined_cylinder := test_confined_CylinderWall_ShapeSphere sqrt
  test_confined_plane := test_confined_PlaneWall_ShapeSphere

/-- The overloads for `Shape = ShapeConvexPolyhedron<max_verts>`. -/
def ShapeConvexPolyhedron.overloads {max_verts : Nat} (sqrt : α → α)
    (test_overlap : vec3 α → ShapeSpheropolyhedron α max_verts →
      ShapeSpheropolyhedron α max_verts → Nat → Bool × Nat)
    (hcap : 2 ≤ max_verts) : ShapeOverloads α (ShapeConvexPolyhedron α max_verts) where
  getCircumsphereDiameter := ShapeConvexPolyhedron.getCircumsphereDiameter
  test_confined_sphere :=
    test_confined_SphereWall_ShapeConvexPolyhedron sqrt test_overlap (le_trans (by decide) hcap)
  test_confined_cylinder := test_confined_CylinderWall_ShapeConvexPolyhedron sqrt test_overlap hcap
  test_confined_plane := test_confined_PlaneWall_ShapeConvexPolyhedron

/-- The overloads for a shape type without any specialisation: the generic template. -/
def generic_overloads (getCircumsphereDiameter : Shape → α) : ShapeOverloads α Shape where
  getCircumsphereDiameter := getCircumsphereDiameter
  test_confined_sphere := test_confined
  test_confined_cylinder := test_confined
  test_confined_plane := test_confined

/-- The method `set_cylinder_wall_verts(wall, shape)`: the two vertices of the wall are put at
`-D * orientation` and `D * orientation` for the circumsphere diameter `D` of the shape, and the
diameter of the record at `2 * (D + sweep_radius)`. -/
def set_cylinder_wall_verts (ops : ShapeOverloads α Shape) (wall : CylinderWall α)
    (shape : Shape) : CylinderWall α :=
  let v0 := vec3.smul (ops.getCircumsphereDiameter shape) wall.orientation
  { wall with
    verts := { wall.verts with
      x := Function.update (Function.update wall.verts.x 0 (-v0.x)) 1 v0.x
      y := Function.update (Function.update wall.verts.y 0 (-v0.y)) 1 v0.y
      z := Function.update (Function.update wall.verts.z 0 (-v0.z)) 1 v0.z
      diameter := 2 * (ops.getCircumsphereDiameter shape + wall.verts.sweep_radius) } }

/-- The first loop of `boltzmann`, over the sphere walls from the current one on: `false` when
the loop leaves the function with `return Scalar(0.0)`, `true` when it runs to its end. -/
def boltzmann_spheres (ops : ShapeOverloads α Shape) (shape_new : Shape)
    (position_new origin : vec3 α) (box : BoxDim α) : List (SphereWall α) → Bool
  | [] => true
  | wall :: rest =>
    if !ops.test_confined_sphere wall shape_new position_new origin box then false
    else boltzmann_spheres ops shape_new position_new origin box rest

/-- The second loop of `boltzmann`, over the cylinder walls from the current one on: each wall
gets its vertices set and is then tested. The result is `false` when the loop leaves the function
with `return Scalar(0.0)`, together with the walls as the loop leaves them. -/
def boltzmann_cylinders (ops : ShapeOverloads α Shape) (shape_new : Shape)
    (position_new origin : vec3 α) (box : BoxDim α) :
    List (CylinderWall α) → Bool × List (CylinderWall α)
  | [] => (true, [])
  | wall :: rest =>
    let wall := set_cylinder_wall_verts ops wall shape_new
    if !ops.test_confined_cylinder wall shape_new position_new origin box then
      (false, wall :: rest)
    else
      let r := boltzmann_cylinders ops shape_new position_new origin box rest
      (r.1, wall :: r.2)

/-- The third loop of `boltzmann`, over the plane walls from the current one on. -/
def boltzmann_planes (ops : ShapeOverloads α Shape) (shape_new : Shape)
    (position_new origin : vec3 α) (box : BoxDim α) : List (PlaneWall α) → Bool
  | [] => true
  | wall :: rest =>
    if !ops.test_confined_plane wall shape_new position_new origin box then false
    else boltzmann_planes ops shape_new position_new origin box rest

/-- The method `ExternalFieldWall<Shape>::boltzmann`: the returned weight and the field after
the call (the cylinder walls visited have their vertices set). -/
def ExternalFieldWall.boltzmann (ops : ShapeOverloads α Shape) (self : ExternalFieldWall α)
    (_index : Nat) (_position_old : vec3 α) (_shape_old : Shape) (position_new : vec3 α)
    (shape_new : Shape) : α × ExternalFieldWall α :=
  let box := self.m_pdata.globalBox
  let origin := self.m_pdata.origin
  if !boltzmann_spheres ops shape_new position_new origin box self.m_Spheres then (0, self)
  else
    let r := boltzmann_cylinders ops shape_new position_new origin box self.m_Cylinders
    let self := { self with m_Cylinders := r.2 }
    if !r.1 then (0, self)
    else if !boltzmann_planes ops shape_new position_new origin box self.m_Planes then (0, self)
    else (1, self)

/-- The method `ExternalFieldWall<Shape>::accept`: the weight is compared with 1 within the
tolerance `SMALL`, a macro of `HOOMDMath.h` that is not among the sources and is an argument.
The random number generator `Saru&` is not used. The field after the call is returned with the
result. -/
def ExternalFieldWall.accept {Saru : Type} (SMALL : α) (ops : ShapeOverloads α Shape)
    (self : ExternalFieldWall α) (index : Nat) (position_old : vec3 α) (shape_old : Shape)
    (position_new : vec3 α) (shape_new : Shape) (_rng : Saru) : Bool × ExternalFieldWall α :=
  let r := self.boltzmann ops index position_old shape_old position_new shape_new
  (decide (|r.1 - 1| < SMALL), r.2)

/-- The conversion `int(x)` of a `Scalar`: truncation towards zero. -/
def scalar_to_int [FloorRing α] (x : α) : Int :=
  if 0 ≤ x then ⌊x⌋ else ⌈x⌉

/-- The conversion `(unsigned int) n` of an `int` to a 32-bit unsigned integer. -/
def int_to_unsigned (n : Int) : Nat :=
  (n % 2 ^ 32).toNat

/-- The loop of `countOverlaps` over the local particles from particle `i` on, with the current
field and the current value of `numOverlaps` (an `unsigned int`, so sums are taken modulo
`2 ^ 32`). The shape of a particle is built by `shape_of` from its orientation and its type id:
this stands for `Shape(quat(orientation_i), h_params.data[typ_i])`, with the parameters of the
integrator `m_mc`, which is not among the sources. -/
def countOverlaps_loop [FloorRing α] (ops : ShapeOverloads α Shape)
    (shape_of : quat α → Nat → Shape) (early_exit : Bool) :
    List (Particle α) → Nat → ExternalFieldWall α → Nat → Nat × ExternalFieldWall α
  | [], _, self, numOverlaps => (numOverlaps, self)
  | particle :: rest, i, self, numOverlaps =>
    let pos_i := particle.position
    let shape_i := shape_of particle.orientation particle.typ
    let r := self.boltzmann ops i pos_i shape_i pos_i shape_i
    let numOverlaps := (numOverlaps + int_to_unsigned (1 - scalar_to_int r.1)) % 2 ^ 32
    if early_exit && decide (numOverlaps > 0) then (1, r.2)
    else countOverlaps_loop ops shape_of early_exit rest (i + 1) r.2 numOverlaps

/-- The method `ExternalFieldWall<Shape>::countOverlaps(timestep, early_exit)` in a single
partition (the reduction under `ENABLE_MPI` runs only with a domain decomposition): the returned
count and the field after the call. -/
def ExternalFieldWall.countOverlaps [FloorRing α] (ops : ShapeOverloads α Shape)
    (shape_of : quat α → Nat → Shape) (self : ExternalFieldWall α) (_timestep : Nat)
    (early_exit : Bool) : Nat × ExternalFieldWall α :=
  countOverlaps_loop ops shape_of early_exit self.m_pdata.particles 0 self 0

end Field

/-! ## Rescaling, wall management and log quantities -/

/-- How a call of a method that changes the field ends: it returns with the field in a new
state, it throws `std::runtime_error(what)` with the field in some state, or its behaviour is
undefined (an `erase` at a position that is not in the vector). -/
inductive CallResult (σ : Type) where
  | returned (state : σ)
  | thrown (what : String) (state : σ)
  | undefined

section Management
variable {α : Type} [LinearOrderedField α]

/-- The method `scaleWalls()`. The library function `pow` and the method `BoxDim::getVolume()`,
whose header is not among the sources, are arguments. Every wall is scaled on its own record:
walls whose shared pointers `verts` point to one record (after an assignment of one wall to
another) are outside this model. -/
def ExternalFieldWall.scaleWalls (pow : α → α → α) (getVolume : BoxDim α → α)
    (self : ExternalFieldWall α) : ExternalFieldWall α :=
  let newBox := self.m_pdata.globalBox
  let newVol := getVolume newBox
  let oldVol := getVolume self.m_box
  let alpha := pow (newVol / oldVol) (1 / 3)
  { self with
    m_Volume := self.m_Volume * (newVol / oldVol)
    m_Spheres := self.m_Spheres.map (fun wall => wall.scale alpha)
    m_Cylinders := self.m_Cylinders.map (fun wall => wall.scale alpha)
    m_Planes := self.m_Planes.map (fun wall => wall.scale alpha)
    m_box := newBox }

/-- The method `getSphWallParamName(i)`: the prefix followed by `i` as the stream prints it, in
decimal. -/
def getSphWallParamName (i : Nat) : String :=
  "hpmc_wall_sph_rsq-" ++ toString i

/-- The method `getCylWallParamName(i)`. -/
def getCylWallParamName (i : Nat) : String :=
  "hpmc_wall_cyl_rsq-" ++ toString i

/-- The method `GetSphereWall(index)`. -/
def ExternalFieldWall.GetSphereWall (self : ExternalFieldWall α) (index : Nat) :
    Except String (SphereWall α) :=
  if h : index ≥ self.m_Spheres.length then Except.error "Out of bounds of sphere walls."
  else Except.ok (self.m_Spheres.get ⟨index, Nat.lt_of_not_ge h⟩)

/-- The method `GetCylinderWall(index)`. -/
def ExternalFieldWall.GetCylinderWall (self : ExternalFieldWall α) (index : Nat) :
    Except String (CylinderWall α) :=
  if h : index ≥ self.m_Cylinders.length then Except.error "Out of bounds of cylinder walls."
  else Except.ok (self.m_Cylinders.get ⟨index, Nat.lt_of_not_ge h⟩)

/-- The method `GetPlaneWall(index)`. -/
def ExternalFieldWall.GetPlaneWall (self : ExternalFieldWall α) (index : Nat) :
    Except String (PlaneWall α) :=
  if h : index ≥ self.m_Planes.length then Except.error "Out of bounds of plane walls."
  else Except.ok (self.m_Planes.get ⟨index, Nat.lt_of_not_ge h⟩)

/-- The method `GetSphereWallParameters(index)`. -/
def ExternalFieldWall.GetSphereWallParameters (self : ExternalFieldWall α) (index : Nat) :
    Except String (α × vec3 α × Bool) :=
  match self.GetSphereWall index with
  | Except.error what => Except.error what
  | Except.ok w => Except.ok (w.rsq, w.origin, w.inside)

/-- The method `GetCylinderWallParameters(index)`. -/
def ExternalFieldWall.GetCylinderWallParameters (self : ExternalFieldWall α) (index : Nat) :
    Except String (α × vec3 α × vec3 α × Bool) :=
  match self.GetCylinderWall index with
  | Except.error what => Except.error what
  | Except.ok w => Except.ok (w.rsq, w.origin, w.orientation, w.inside)

/-- The method `GetPlaneWallParameters(index)`. -/
def ExternalFieldWall.GetPlaneWallParameters (self : ExternalFieldWall α) (index : Nat) :
    Except String (vec3 α × vec3 α) :=
  match self.GetPlaneWall index with
  | Except.error what => Except.error what
  | Except.ok w => Except.ok (w.normal, w.origin)

/-- The method `SetSphereWallParameter(index, wall)`. The assignment copies the fields of
`wall`; that it also makes the two walls share one vertex record is outside this model. -/
def ExternalFieldWall.SetSphereWallParameter (self : ExternalFieldWall α) (index : Nat)
    (wall : SphereWall α) : CallResult (ExternalFieldWall α) :=
  if index ≥ self.m_Spheres.length then
    CallResult.thrown "Out of bounds of sphere walls." self
  else CallResult.returned { self with m_Spheres := self.m_Spheres.set index wall }

/-- The method `SetCylinderWallParameter(index, wall)`. -/
def ExternalFieldWall.SetCylinderWallParameter (self : ExternalFieldWall α) (index : Nat)
    (wall : CylinderWall α) : CallResult (ExternalFieldWall α) :=
  if index ≥ self.m_Cylinders.length then
    CallResult.thrown "Out of bounds of cylinder walls." self
  else CallResult.returned { self with m_Cylinders := self.m_Cylinders.set index wall }

/-- The method `SetPlaneWallParameter(index, wall)`. -/
def ExternalFieldWall.SetPlaneWallParameter (self : ExternalFieldWall α) (index : Nat)
    (wall : PlaneWall α) : CallResult (ExternalFieldWall α) :=
  if index ≥ self.m_Planes.length then
    CallResult.thrown "Out of bounds of plane walls." self
  else CallResult.returned { self with m_Planes := self.m_Planes.set index wall }

/-- The method `SetSphereWalls(Spheres)`. -/
def ExternalFieldWall.SetSphereWalls (self : ExternalFieldWall α)
    (Spheres : List (SphereWall α)) : ExternalFieldWall α :=
  { self with m_Spheres := Spheres }

/-- The method `SetCylinderWalls(Cylinders)`. -/
def ExternalFieldWall.SetCylinderWalls (self : ExternalFieldWall α)
    (Cylinders : List (CylinderWall α)) : ExternalFieldWall α :=
  { self with m_Cylinders := Cylinders }

/-- The method `SetPlaneWalls(Planes)`. -/
def ExternalFieldWall.SetPlaneWalls (self : ExternalFieldWall α)
    (Planes : List (PlaneWall α)) : ExternalFieldWall α :=
  { self with m_Planes := Planes }

/-- The method `AddSphereWall(wall)`; `wall_ind` is an `unsigned int`. -/
def ExternalFieldWall.AddSphereWall (self : ExternalFieldWall α) (wall : SphereWall α) :
    ExternalFieldWall α :=
  let m_Spheres := self.m_Spheres ++ [wall]
  let wall_ind := (m_Spheres.length - 1) % 2 ^ 32
  { self with
    m_Spheres := m_Spheres
    m_SphereLogQuantities := self.m_SphereLogQuantities ++ [getSphWallParamName wall_ind] }

/-- The method `AddCylinderWall(wall)`. -/
def ExternalFieldWall.AddCylinderWall (self : ExternalFieldWall α) (wall : CylinderWall α) :
    ExternalFieldWall α :=
  let m_Cylinders := self.m_Cylinders ++ [wall]
  let wall_ind := (m_Cylinders.length - 1) % 2 ^ 32
  { self with
    m_Cylinders := m_Cylinders
    m_CylinderLogQuantities := self.m_CylinderLogQuantities ++ [getCylWallParamName wall_ind] }

/-- The method `AddPlaneWall(wall)`. -/
def ExternalFieldWall.AddPlaneWall (self : ExternalFieldWall α) (wall : PlaneWall α) :
    ExternalFieldWall α :=
  { self with m_Planes := self.m_Planes ++ [wall] }

/-- The method `RemoveSphereWall(index)`: the wall and the label at `index` are erased. There
is no test of `index`: `erase(begin() + index)` is defined only for a position in the vector, so
the call is undefined unless both vectors have an entry at `index`. -/
def ExternalFieldWall.RemoveSphereWall (self : ExternalFieldWall α) (index : Nat) :
    CallResult (ExternalFieldWall α) :=
  if index < self.m_Spheres.length ∧ index < self.m_SphereLogQuantities.length then
    CallResult.returned { self with
      m_Spheres := self.m_Spheres.eraseIdx index
      m_SphereLogQuantities := self.m_SphereLogQuantities.eraseIdx index }
  else CallResult.undefined

/-- The method `RemoveCylinderWall(index)`, like `RemoveSphereWall`. -/
def ExternalFieldWall.RemoveCylinderWall (self : ExternalFieldWall α) (index : Nat) :
    CallResult (ExternalFieldWall α) :=
  if index < self.m_Cylinders.length ∧ index < self.m_CylinderLogQuantities.length then
    CallResult.returned { self with
      m_Cylinders := self.m_Cylinders.eraseIdx index
      m_CylinderLogQuantities := self.m_CylinderLogQuantities.eraseIdx index }
  else CallResult.undefined

/-- The method `RemovePlaneWall(index)`: plane walls have no labels. -/
def ExternalFieldWall.RemovePlaneWall (self : ExternalFieldWall α) (index : Nat) :
    CallResult (ExternalFieldWall α) :=
  if index < self.m_Planes.length then
    CallResult.returned { self with m_Planes := self.m_Planes.eraseIdx index }
  else CallResult.undefined

/-- The method `getProvidedLogQuantities()`. -/
def ExternalFieldWall.getProvidedLogQuantities (self : ExternalFieldWall α) : List String :=
  self.m_SphereLogQuantities ++ self.m_CylinderLogQuantities ++ ["hpmc_wall_volume"]

/-- The first loop of `getLogValue`, over the sphere walls from wall `i` on: the value returned
inside the loop, if any. -/
def getLogValue_spheres (quantity : String) : List (SphereWall α) → Nat → Option α
  | [], _ => none
  | wall :: rest, i =>
    if quantity = getSphWallParamName i then some wall.rsq
    else getLogValue_spheres quantity rest (i + 1)

/-- The second loop of `getLogValue`, over the cylinder walls from wall `i` on. -/
def getLogValue_cylinders (quantity : String) : List (CylinderWall α) → Nat → Option α
  | [], _ => none
  | wall :: rest, i =>
    if quantity = getCylWallParamName i then some wall.rsq
    else getLogValue_cylinders quantity rest (i + 1)

/-- The method `getLogValue(quantity, timestep)`: the value, or the `std::runtime_error` thrown
after the message to the error stream. -/
def ExternalFieldWall.getLogValue (self : ExternalFieldWall α) (quantity : String)
    (_timestep : Nat) : Except String α :=
  match getLogValue_spheres quantity self.m_Spheres 0 with
  | some value => Except.ok value
  | none =>
    match getLogValue_cylinders quantity self.m_Cylinders 0 with
    | some value => Except.ok value
    | none =>
      if quantity = "hpmc_wall_volume" then Except.ok self.m_Volume
      else Except.error "Error getting log value"

/-- The method `setVolume(volume)`. -/
def ExternalFieldWall.setVolume (self : ExternalFieldWall α) (volume : α) :
    ExternalFieldWall α :=
  { self with m_Volume := volume }

/-- The method `getVolume()`. -/
def ExternalFieldWall.getVolume (self : ExternalFieldWall α) : α :=
  self.m_Volume

/-- The methods `getNumSphereWalls()`, `getNumCylinderWalls()` and `getNumPlaneWalls()`, which
return an `unsigned int`. -/
def ExternalFieldWall.getNumSphereWalls (self : ExternalFieldWall α) : Nat :=
  self.m_Spheres.length % 2 ^ 32

/-- See `getNumSphereWalls`. -/
def ExternalFieldWall.getNumCylinderWalls (self : ExternalFieldWall α) : Nat :=
  self.m_Cylinders.length % 2 ^ 32

/-- See `getNumSphereWalls`. -/
def ExternalFieldWall.getNumPlaneWalls (self : ExternalFieldWall α) : Nat :=
  self.m_Planes.length % 2 ^ 32

end Management

/-! ## Box changes -/

/-- The box change that `scaleWalls` answers: the particle data get a new global box (by
`ParticleData::setGlobalBox`, which is not among the sources); the field itself, with its
tracked box `m_box`, is as before until `scaleWalls` runs. -/
def ExternalFieldWall.setGlobalBox {α : Type} (self : ExternalFieldWall α) (box : BoxDim α) :
    ExternalFieldWall α :=
  { self with m_pdata := { self.m_pdata with globalBox := box } }

/-! ## Fields that agree in their confinement parameters -/

/-- Two cylinder walls agree in everything but the vertex coordinates and the diameter of
their vertex records, which `set_cylinder_wall_verts` sets before every test. -/
def CylinderWall.same_parameters {α : Type} (wall1 wall2 : CylinderWall α) : Prop :=
  wall1.rsq = wall2.rsq ∧ wall1.inside = wall2.inside ∧ wall1.origin = wall2.origin ∧
    wall1.orientation = wall2.orientation ∧ wall1.verts.N = wall2.verts.N ∧
    wall1.verts.sweep_radius = wall2.verts.sweep_radius ∧
    wall1.verts.ignore = wall2.verts.ignore

/-- Two fields agree in the global box, the origin, the sphere walls, the plane walls and, up
to the lazily set vertex buffers, the cylinder walls. -/
def ExternalFieldWall.same_parameters {α : Type} (field1 field2 : ExternalFieldWall α) : Prop :=
  field1.m_pdata.globalBox = field2.m_pdata.globalBox ∧
    field1.m_pdata.origin = field2.m_pdata.origin ∧
    field1.m_Spheres = field2.m_Spheres ∧
    field1.m_Planes = field2.m_Planes ∧
    List.Forall₂ CylinderWall.same_parameters field1.m_Cylinders field2.m_Cylinders

/-! ## The exact vertex check of the spec -/

/-- The exact per-vertex check of a convex polyhedron against an inside-constraint sphere wall,
in the words of the spec: every vertex, rotated by the orientation of the shape and translated
to the minimum-imaged position `shifted_pos`, lies strictly inside the wall
(`wall.rsq > |rotate(q, v) + shifted_pos|²`). -/
def exact_vertex_check_SphereWall {α : Type} [LinearOrderedField α] {max_verts : Nat}
    (wall : SphereWall α) (shape : ShapeConvexPolyhedron α max_verts) (shifted_pos : vec3 α) :
    Bool :=
  decide (∀ v : Fin shape.verts.N,
    wall.rsq > dot ((rotate shape.orientation (shape.verts.vertex v.val v.isLt)).add shifted_pos)
      ((rotate shape.orientation (shape.verts.vertex v.val v.isLt)).add shifted_pos))

/-- The exact per-vertex check of a convex polyhedron against an inside-constraint cylinder
wall, in the words of the spec: every vertex, rotated by the orientation of the shape and
translated to the minimum-imaged position `shifted_pos`, lies strictly inside the cylinder
(`wall.rsq > |(rotate(q, v) + shifted_pos) × axis|²`). -/
def exact_vertex_check_CylinderWall {α : Type} [LinearOrderedField α] {max_verts : Nat}
    (wall : CylinderWall α) (shape : ShapeConvexPolyhedron α max_verts) (shifted_pos : vec3 α) :
    Bool :=
  decide (∀ v : Fin shape.verts.N,
    wall.rsq > dot
      (cross ((rotate shape.orientation (shape.verts.vertex v.val v.isLt)).add shifted_pos)
        wall.orientation)
      (cross ((rotate shape.orientation (shape.verts.vertex v.val v.isLt)).add shifted_pos)
        wall.orientation))

/-! ## The lockstep of walls and labels -/

/-- The lockstep of the spec: the sphere label list is as long as the sphere wall list, and the
cylinder label list is as long as the cylinder wall list. -/
def ExternalFieldWall.lockstep {α : Type} (self : ExternalFieldWall α) : Prop :=
  self.m_SphereLogQuantities.length = self.m_Spheres.length ∧
    self.m_CylinderLogQuantities.length = self.m_Cylinders.length

/-! ## Violation of confinement by a particle -/

/-- Local particle `i` violates confinement, in the words of the spec: `boltzmann` of the
particle's own current position and shape is 0. -/
def ExternalFieldWall.violates {α : Type} [LinearOrderedField α] {Shape : Type}
    (ops : ShapeOverloads α Shape) (shape_of : quat α → Nat → Shape)
    (self : ExternalFieldWall α) (i : Nat) (particle : Particle α) : Bool :=
  decide ((self.boltzmann ops i particle.position
    (shape_of particle.orientation particle.typ) particle.position
    (shape_of particle.orientation particle.typ)).1 = 0)

/-! ## Data for the concrete evaluations -/

/-- A box whose minimum image map is the identity (a box larger than every displacement that
is looked at). -/
def open_box (α : Type) [LinearOrderedField α] : BoxDim α where
  L := ⟨1, 1, 1⟩
  xy := 0
  xz := 0
  yz := 0
  minImage := id

/-- A vertex record with no vertex and every entry zero. -/
def empty_verts (α : Type) [LinearOrderedField α] (max_verts : Nat) : poly3d_verts α max_verts where
  x := fun _ => 0
  y := fun _ => 0
  z := fun _ => 0
  N := 0
  diameter := 0
  sweep_radius := 0
  ignore := 0
  N_le := Nat.zero_le max_verts

/-- A sphere of the given diameter in the default orientation. -/
def sphere_of_diameter {α : Type} [LinearOrderedField α] (diameter : α) : ShapeSphere α where
  orientation := quat.default
  circumsphereDiameter := diameter

/-- A convex polyhedron record with the two vertices `(1, 0, 0)` and `(-1, 0, 0)` and
circumsphere diameter 2, in the default orientation. -/
def segment_polyhedron (α : Type) [LinearOrderedField α] : ShapeConvexPolyhedron α 2 where
  orientation := quat.default
  verts :=
    { x := fun i => if i = 0 then 1 else -1
      y := fun _ => 0
      z := fun _ => 0
      N := 2
      diameter := 2
      sweep_radius := 0
      ignore := 0
      N_le := le_refl 2 }

/-- An overlap test that never reports an overlap and leaves `err` as it is. -/
def no_overlap {α : Type} {max_verts : Nat} (_dr : vec3 α)
    (_a _b : ShapeSpheropolyhedron α max_verts) (err : Nat) : Bool × Nat :=
  (false, err)

/-- A field with one inside-constraint sphere wall of radius 5 at the origin, one
inside-constraint cylinder wall of radius 5 along the `z` axis and the plane wall `z > 0`, in a
box whose minimum image map is the identity. -/
def example_field (α : Type) [LinearOrderedField α] (sqrt : α → α) : ExternalFieldWall α where
  m_pdata := ⟨open_box α, ⟨0, 0, 0⟩, []⟩
  m_Spheres := [SphereWall.new 5 ⟨0, 0, 0⟩ true (empty_verts α 1)]
  m_Cylinders := [CylinderWall.new sqrt 5 ⟨0, 0, 0⟩ ⟨0, 0, 1⟩ true (empty_verts α 2)]
  m_Planes := [PlaneWall.new sqrt ⟨0, 0, 1⟩ ⟨0, 0, 0⟩ true]
  m_SphereLogQuantities := ["hpmc_wall_sph_rsq-0"]
  m_CylinderLogQuantities := ["hpmc_wall_cyl_rsq-0"]
  m_Volume := 1
  m_box := open_box α

/-- The field `example_field` after other queries: the vertex buffers of its cylinder wall hold
stale values, and the volume and the tracked box are different. -/
def example_field_stale (α : Type) [LinearOrderedField α] (sqrt : α → α) :
    ExternalFieldWall α where
  m_pdata := ⟨open_box α, ⟨0, 0, 0⟩, []⟩
  m_Spheres := [SphereWall.new 5 ⟨0, 0, 0⟩ true (empty_verts α 1)]
  m_Cylinders :=
    [{ rsq := 5 * 5
       inside := true
       origin := ⟨0, 0, 0⟩
       orientation := (⟨0, 0, 1⟩ : vec3 α).sdiv (sqrt (dot (⟨0, 0, 1⟩ : vec3 α) ⟨0, 0, 1⟩))
       verts :=
        { x := fun _ => 7
          y := fun _ => 8
          z := fun _ => 9
          N := 2
          diameter := 11
          sweep_radius := 5
          ignore := 0
          N_le := le_refl 2 } }]
  m_Planes := [PlaneWall.new sqrt ⟨0, 0, 1⟩ ⟨0, 0, 0⟩ true]
  m_SphereLogQuantities := ["hpmc_wall_sph_rsq-0"]
  m_CylinderLogQuantities := ["hpmc_wall_cyl_rsq-0"]
  m_Volume := 3
  m_box := { open_box α with L := ⟨2, 2, 2⟩ }

/-- A field with the single plane wall `z > 0` and the given local particles, in a box whose
minimum image map is the identity. -/
def plane_field (α : Type) [LinearOrderedField α] (particles : List (Particle α)) :
    ExternalFieldWall α where
  m_pdata := ⟨open_box α, ⟨0, 0, 0⟩, particles⟩
  m_Spheres := []
  m_Cylinders := []
  m_Planes := [⟨⟨0, 0, 1⟩, ⟨0, 0, 0⟩, true, 0⟩]
  m_SphereLogQuantities := []
  m_CylinderLogQuantities := []
  m_Volume := 1
  m_box := open_box α

/-- A particle of type 0 in the default orientation at the given position. -/
def particle_at {α : Type} [LinearOrderedField α] (position : vec3 α) : Particle α where
  position := position
  typ := 0
  orientation := quat.default

/-- Shape parameters that make every particle type a sphere of diameter 2. -/
def spheres_of_diameter_two {α : Type} [LinearOrderedField α] (orientation : quat α)
    (_typ : Nat) : ShapeSphere α where
  orientation := orientation
  circumsphereDiameter := 2

/-- A volume function for the concrete evaluations: the product of the edge lengths. -/
def edge_product {α : Type} [LinearOrderedField α] (box : BoxDim α) : α :=
  box.L.x * box.L.y * box.L.z

/-- A field without walls and without labels, as the constructor leaves it. -/
def empty_field (α : Type) [LinearOrderedField α] : ExternalFieldWall α where
  m_pdata := ⟨open_box α, ⟨0, 0, 0⟩, []⟩
  m_Spheres := []
  m_Cylinders := []
  m_Planes := []
  m_SphereLogQuantities := []
  m_CylinderLogQuantities := []
  m_Volume := 1
  m_box := open_box α

/-- A vertex record of capacity 1 with the single vertex `(3, 4, 5)`. -/
def point_verts (α : Type) [LinearOrderedField α] : poly3d_verts α 1 where
  x := fun _ => 3
  y := fun _ => 4
  z := fun _ => 5
  N := 1
  diameter := 15
  sweep_radius := 0
  ignore := 0
  N_le := le_refl 1

/-- A field with an inside-constraint and an outside-constraint sphere wall of radius 5 at the
origin, in a box whose minimum image map is the identity. -/
def inside_outside_field (α : Type) [LinearOrderedField α] : ExternalFieldWall α where
  m_pdata := ⟨open_box α, ⟨0, 0, 0⟩, []⟩
  m_Spheres := [SphereWall.new 5 ⟨0, 0, 0⟩ true (empty_verts α 1),
    SphereWall.new 5 ⟨0, 0, 0⟩ false (empty_verts α 1)]
  m_Cylinders := []
  m_Planes := []
  m_SphereLogQuantities := ["hpmc_wall_sph_rsq-0", "hpmc_wall_sph_rsq-1"]
  m_CylinderLogQuantities := []
  m_Volume := 1
  m_box := open_box α

/-! ## Auxiliary lemmas -/

/-- Comparing squares of non-negative numbers is comparing the numbers. -/
theorem mul_self_lt_mul_self_iff_of_nonneg {a b : ℝ} (ha : 0 ≤ a) (hb : 0 ≤ b) :
    a * a < b * b ↔ a < b := by
  constructor
  · intro h
    by_contra hcon
    push_neg at hcon
    nlinarith
  · intro h
    nlinarith

/-- The vertex loop accepts exactly when it is entered with `accept` set and the body holds at
every index from the entry index on. -/
theorem for_verts_eq_true_iff (N : Nat) (body : (v : Nat) → v < N → Bool) (v : Nat)
    (accept : Bool) :
    for_verts N body v accept = true ↔
      accept = true ∧ ∀ i (h : i < N), v ≤ i → body i h = true := by
  generalize hk : N - v = k
  induction k generalizing v accept with
  | zero =>
    rw [for_verts]
    have hv : ¬ v < N := by omega
    simp only [hv, dite_false]
    constructor
    · intro h
      exact ⟨h, fun i hi hvi => absurd hi (by omega)⟩
    · intro h
      exact h.1
  | succ k ih =>
    rw [for_verts]
    have hv : v < N := by omega
    simp only [hv, dite_true]
    cases accept with
    | false => simp
    | true =>
      simp only [if_true, true_and]
      rw [ih (v + 1) (body v hv) (by omega)]
      constructor
      · rintro ⟨h0, hrest⟩ i hi hvi
        rcases Nat.eq_or_lt_of_le hvi with heq | hlt
        · subst heq
          exact h0
        · exact hrest i hi hlt
      · intro h
        exact ⟨h v hv (le_refl v), fun i hi hvi => h i hi (by omega)⟩

/-- The sphere against sphere wall test in terms of the distance `d` of the minimum image from
the wall centre. -/
theorem test_confined_SphereWall_ShapeSphere_eq {α : Type} [LinearOrderedField α]
    (sqrt : α → α) (wall : SphereWall α) (shape : ShapeSphere α) (position box_origin : vec3 α)
    (box : BoxDim α) (d : α)
    (hd : d = sqrt (dot (box.minImage ((position.sub box_origin).sub wall.origin))
      (box.minImage ((position.sub box_origin).sub wall.origin)))) :
    test_confined_SphereWall_ShapeSphere sqrt wall shape position box_origin box =
      if wall.inside then
        decide (wall.rsq > (d + shape.getCircumsphereDiameter / 2)
          * (d + shape.getCircumsphereDiameter / 2))
      else
        decide (wall.rsq < (if d - shape.getCircumsphereDiameter / 2 < 0 then 0
            else d - shape.getCircumsphereDiameter / 2)
          * (if d - shape.getCircumsphereDiameter / 2 < 0 then 0
            else d - shape.getCircumsphereDiameter / 2)) := by
  subst hd
  cases hin : wall.inside <;>
    simp [test_confined_SphereWall_ShapeSphere, hin, vec3.sub, dot]

/-- The sphere against cylinder wall test in terms of the distance `rho` of the minimum image
from the axis, as the code computes it. -/
theorem test_confined_CylinderWall_ShapeSphere_eq {α : Type} [LinearOrderedField α]
    (sqrt : α → α) (wall : CylinderWall α) (shape : ShapeSphere α)
    (position box_origin : vec3 α) (box : BoxDim α) (rho : α)
    (hrho : rho = sqrt (dot
      (cross (box.minImage ((position.sub box_origin).sub wall.origin)) wall.orientation)
      (cross (box.minImage ((position.sub box_origin).sub wall.origin)) wall.orientation))) :
    test_confined_CylinderWall_ShapeSphere sqrt wall shape position box_origin box =
      if wall.inside then
        decide (wall.rsq > (rho + shape.getCircumsphereDiameter / 2)
          * (rho + shape.getCircumsphereDiameter / 2))
      else
        decide (wall.rsq < (if rho - shape.getCircumsphereDiameter / 2 < 0 then 0
            else rho - shape.getCircumsphereDiameter / 2)
          * (if rho - shape.getCircumsphereDiameter / 2 < 0 then 0
            else rho - shape.getCircumsphereDiameter / 2)) := by
  subst hrho
  cases hin : wall.inside <;>
    simp [test_confined_CylinderWall_ShapeSphere, hin, vec3.sub]

/-- Lagrange's identity: `|a × b|² = |a|² |b|² - (a·b)²`. -/
theorem dot_cross_self {α : Type} [LinearOrderedField α] (a b : vec3 α) :
    dot (cross a b) (cross a b) = dot a a * dot b b - dot a b * dot a b := by
  simp only [dot, cross]
  ring

/-- Rotation by a quaternion scales the squared norm by the squared squared-norm of the
quaternion; a unit quaternion keeps it. -/
theorem dot_rotate_self {α : Type} [LinearOrderedField α] (q : quat α) (b : vec3 α) :
    dot (rotate q b) (rotate q b) = (q.s * q.s + dot q.v q.v) ^ 2 * dot b b := by
  simp only [rotate, dot, cross, vec3.add, vec3.smul]
  ring

/-- The squared norm of a vector is not negative. -/
theorem dot_self_nonneg {α : Type} [LinearOrderedField α] (a : vec3 α) : 0 ≤ dot a a := by
  simp only [dot]
  nlinarith [mul_self_nonneg a.x, mul_self_nonneg a.y, mul_self_nonneg a.z]

/-- The squared norm of a sum, expanded. -/
theorem dot_add_self {α : Type} [LinearOrderedField α] (a b : vec3 α) :
    dot (a.add b) (a.add b) = dot a a + 2 * dot a b + dot b b := by
  simp only [dot, vec3.add]
  ring

/-- Cauchy-Schwarz: `a·b ≤ |a| |b|`. -/
theorem dot_le_sqrt_mul_sqrt (a b : vec3 ℝ) :
    dot a b ≤ Real.sqrt (dot a a) * Real.sqrt (dot b b) := by
  have hlag := dot_cross_self a b
  have hcross := dot_self_nonneg (cross a b)
  have hA := Real.mul_self_sqrt (dot_self_nonneg a)
  have hB := Real.mul_self_sqrt (dot_self_nonneg b)
  have hA0 := Real.sqrt_nonneg (dot a a)
  have hB0 := Real.sqrt_nonneg (dot b b)
  by_contra hcon
  push_neg at hcon
  have hpos : 0 ≤ Real.sqrt (dot a a) * Real.sqrt (dot b b) := mul_nonneg hA0 hB0
  have hsq : (Real.sqrt (dot a a) * Real.sqrt (dot b b))
      * (Real.sqrt (dot a a) * Real.sqrt (dot b b)) = dot a a * dot b b := by
    calc (Real.sqrt (dot a a) * Real.sqrt (dot b b))
          * (Real.sqrt (dot a a) * Real.sqrt (dot b b))
        = (Real.sqrt (dot a a) * Real.sqrt (dot a a))
          * (Real.sqrt (dot b b) * Real.sqrt (dot b b)) := by ring
      _ = dot a a * dot b b := by rw [hA, hB]
  nlinarith

/-- Triangle inequality in squared form: `|a + b|² ≤ (|a| + |b|)²`. -/
theorem dot_add_self_le (a b : vec3 ℝ) :
    dot (a.add b) (a.add b)
      ≤ (Real.sqrt (dot a a) + Real.sqrt (dot b b))
        * (Real.sqrt (dot a a) + Real.sqrt (dot b b)) := by
  have hA := Real.mul_self_sqrt (dot_self_nonneg a)
  have hB := Real.mul_self_sqrt (dot_self_nonneg b)
  have hcs := dot_le_sqrt_mul_sqrt a b
  rw [dot_add_self]
  nlinarith

/-- The loop over the sphere walls runs to its end exactly when every wall confines the
shape. -/
theorem boltzmann_spheres_eq_true_iff {α : Type} [LinearOrderedField α] {Shape : Type}
    (ops : ShapeOverloads α Shape) (shape_new : Shape) (position_new origin : vec3 α)
    (box : BoxDim α) (walls : List (SphereWall α)) :
    boltzmann_spheres ops shape_new position_new origin box walls = true ↔
      ∀ wall ∈ walls, ops.test_confined_sphere wall shape_new position_new origin box = true := by
  induction walls with
  | nil => simp [boltzmann_spheres]
  | cons wall rest ih =>
    cases h : ops.test_confined_sphere wall shape_new position_new origin box <;>
      simp [boltzmann_spheres, h, ih]

/-- The loop over the cylinder walls runs to its end exactly when every wall, with its vertices
set for the shape, confines the shape. -/
theorem boltzmann_cylinders_eq_true_iff {α : Type} [LinearOrderedField α] {Shape : Type}
    (ops : ShapeOverloads α Shape) (shape_new : Shape) (position_new origin : vec3 α)
    (box : BoxDim α) (walls : List (CylinderWall α)) :
    (boltzmann_cylinders ops shape_new position_new origin box walls).1 = true ↔
      ∀ wall ∈ walls, ops.test_confined_cylinder (set_cylinder_wall_verts ops wall shape_new)
        shape_new position_new origin box = true := by
  induction walls with
  | nil => simp [boltzmann_cylinders]
  | cons wall rest ih =>
    cases h : ops.test_confined_cylinder (set_cylinder_wall_verts ops wall shape_new)
        shape_new position_new origin box <;>
      simp [boltzmann_cylinders, h, ih]

/-- The loop over the plane walls runs to its end exactly when every wall confines the
shape. -/
theorem boltzmann_planes_eq_true_iff {α : Type} [LinearOrderedField α] {Shape : Type}
    (ops : ShapeOverloads α Shape) (shape_new : Shape) (position_new origin : vec3 α)
    (box : BoxDim α) (walls : List (PlaneWall α)) :
    boltzmann_planes ops shape_new position_new origin box walls = true ↔
      ∀ wall ∈ walls, ops.test_confined_plane wall shape_new position_new origin box = true := by
  induction walls with
  | nil => simp [boltzmann_planes]
  | cons wall rest ih =>
    cases h : ops.test_confined_plane wall shape_new position_new origin box <;>
      simp [boltzmann_planes, h, ih]

/-- The weight `boltzmann` returns, in terms of its three loops. -/
theorem boltzmann_fst {α : Type} [LinearOrderedField α] {Shape : Type}
    (ops : ShapeOverloads α Shape) (self : ExternalFieldWall α) (index : Nat)
    (position_old : vec3 α) (shape_old : Shape) (position_new : vec3 α) (shape_new : Shape) :
    (self.boltzmann ops index position_old shape_old position_new shape_new).1 =
      if boltzmann_spheres ops shape_new position_new self.m_pdata.origin
            self.m_pdata.globalBox self.m_Spheres = true ∧
          (boltzmann_cylinders ops shape_new position_new self.m_pdata.origin
            self.m_pdata.globalBox self.m_Cylinders).1 = true ∧
          boltzmann_planes ops shape_new position_new self.m_pdata.origin
            self.m_pdata.globalBox self.m_Planes = true
      then 1 else 0 := by
  simp only [ExternalFieldWall.boltzmann]
  cases boltzmann_spheres ops shape_new position_new self.m_pdata.origin
      self.m_pdata.globalBox self.m_Spheres <;>
    cases (boltzmann_cylinders ops shape_new position_new self.m_pdata.origin
      self.m_pdata.globalBox self.m_Cylinders).1 <;>
    cases boltzmann_planes ops shape_new position_new self.m_pdata.origin
      self.m_pdata.globalBox self.m_Planes <;>
    simp

/-! ## Theorems -/

/-- C1: over the reals, for an inside-constraint sphere wall of radius `R ≥ 0` and a sphere of
circumsphere radius `r = diameter / 2 ≥ 0`, `test_confined<SphereWall, ShapeSphere>` returns true
if and only if `d + r < R` strictly, where `d` is the norm of the minimum image of
`position - box_origin - wall.origin`; in particular `d + r = R` is rejected. -/
theorem test_confined_SphereWall_ShapeSphere_inside_iff
    (wall : SphereWall ℝ) (shape : ShapeSphere ℝ) (position box_origin : vec3 ℝ)
    (box : BoxDim ℝ) (R : ℝ) (hR : 0 ≤ R) (hrsq : wall.rsq = R * R)
    (hin : wall.inside = true) (hr : 0 ≤ shape.getCircumsphereDiameter / 2) :
    (test_confined_SphereWall_ShapeSphere Real.sqrt wall shape position box_origin box = true ↔
      Real.sqrt (dot (box.minImage ((position.sub box_origin).sub wall.origin))
          (box.minImage ((position.sub box_origin).sub wall.origin)))
        + shape.getCircumsphereDiameter / 2 < R) ∧
    (Real.sqrt (dot (box.minImage ((position.sub box_origin).sub wall.origin))
          (box.minImage ((position.sub box_origin).sub wall.origin)))
        + shape.getCircumsphereDiameter / 2 = R →
      test_confined_SphereWall_ShapeSphere Real.sqrt wall shape position box_origin box
        = false) := by
  have key : test_confined_SphereWall_ShapeSphere Real.sqrt wall shape position box_origin box
      = true ↔
      Real.sqrt (dot (box.minImage ((position.sub box_origin).sub wall.origin))
          (box.minImage ((position.sub box_origin).sub wall.origin)))
        + shape.getCircumsphereDiameter / 2 < R := by
    simp only [test_confined_SphereWall_ShapeSphere, hin, hrsq, vec3.sub, dot, Bool.not_true,
      if_true, gt_iff_lt, decide_eq_true_eq]
    simp only [Bool.false_eq_true, if_false]
    exact mul_self_lt_mul_self_iff_of_nonneg (add_nonneg (Real.sqrt_nonneg _) hr) hR
  refine ⟨key, fun heq => ?_⟩
  rw [← Bool.not_eq_true, key]
  exact not_lt.mpr (le_of_eq heq.symm)

/-- C1, the scenario of the spec: wall of radius 5 at the origin, sphere of diameter 2; at the
origin the sphere is accepted, at `(4.5, 0, 0)` it is rejected. -/
theorem test_confined_SphereWall_ShapeSphere_inside_iff_witness :
    test_confined_SphereWall_ShapeSphere Real.sqrt
        (SphereWall.new 5 ⟨0, 0, 0⟩ true (empty_verts ℝ 1)) (sphere_of_diameter 2)
        ⟨0, 0, 0⟩ ⟨0, 0, 0⟩ (open_box ℝ) = true ∧
      test_confined_SphereWall_ShapeSphere Real.sqrt
        (SphereWall.new 5 ⟨0, 0, 0⟩ true (empty_verts ℝ 1)) (sphere_of_diameter 2)
        ⟨4.5, 0, 0⟩ ⟨0, 0, 0⟩ (open_box ℝ) = false := by
  have h0 := test_confined_SphereWall_ShapeSphere_inside_iff
    (SphereWall.new 5 ⟨0, 0, 0⟩ true (empty_verts ℝ 1)) (sphere_of_diameter 2)
    ⟨0, 0, 0⟩ ⟨0, 0, 0⟩ (open_box ℝ) 5 (by norm_num) rfl rfl
    (by norm_num [ShapeSphere.getCircumsphereDiameter, sphere_of_diameter])
  have h1 := test_confined_SphereWall_ShapeSphere_inside_iff
    (SphereWall.new 5 ⟨0, 0, 0⟩ true (empty_verts ℝ 1)) (sphere_of_diameter 2)
    ⟨4.5, 0, 0⟩ ⟨0, 0, 0⟩ (open_box ℝ) 5 (by norm_num) rfl rfl
    (by norm_num [ShapeSphere.getCircumsphereDiameter, sphere_of_diameter])
  constructor
  · rw [h0.1]
    norm_num [open_box, SphereWall.new, vec3.sub, dot, ShapeSphere.getCircumsphereDiameter,
      sphere_of_diameter]
  · rw [← Bool.not_eq_true, h1.1]
    have hs : Real.sqrt (4.5 * 4.5) = 4.5 := Real.sqrt_mul_self (by norm_num)
    norm_num [open_box, SphereWall.new, vec3.sub, dot, ShapeSphere.getCircumsphereDiameter,
      sphere_of_diameter]
    norm_num at hs
    rw [hs]
    norm_num

/-- C2: for a plane wall and a sphere of circumsphere radius `r = diameter / 2 ≥ 0`,
`test_confined<PlaneWall, ShapeSphere>` returns true if and only if the signed distance
`s = n·p + d` of the minimum image `p` of `position - box_origin` satisfies `s > r` strictly; a
sphere tangent to the plane (`s = r`) is rejected. -/
theorem test_confined_PlaneWall_ShapeSphere_iff {α : Type} [LinearOrderedField α]
    (wall : PlaneWall α) (shape : ShapeSphere α) (position box_origin : vec3 α)
    (box : BoxDim α) (hr : 0 ≤ shape.getCircumsphereDiameter / 2) :
    (test_confined_PlaneWall_ShapeSphere wall shape position box_origin box = true ↔
      dot wall.normal (box.minImage (position.sub box_origin)) + wall.d
        > shape.getCircumsphereDiameter / 2) ∧
    (dot wall.normal (box.minImage (position.sub box_origin)) + wall.d
        = shape.getCircumsphereDiameter / 2 →
      test_confined_PlaneWall_ShapeSphere wall shape position box_origin box = false) := by
  have key : test_confined_PlaneWall_ShapeSphere wall shape position box_origin box = true ↔
      dot wall.normal (box.minImage (position.sub box_origin)) + wall.d
        > shape.getCircumsphereDiameter / 2 := by
    simp only [test_confined_PlaneWall_ShapeSphere]
    split_ifs with hneg
    · constructor
      · intro h
        exact absurd h (by simp)
      · intro h
        exact absurd (lt_of_le_of_lt hr h) (not_lt.mpr (le_of_lt hneg))
    · rw [decide_eq_true_eq, sub_pos]
  refine ⟨key, fun heq => ?_⟩
  rw [← Bool.not_eq_true, key]
  exact not_lt.mpr (le_of_eq heq)

/-- C2, the scenario of the spec: plane through the origin with normal `(0, 0, 1)`, sphere of
diameter 2; at `(0, 0, 5)` the sphere is accepted, at `(0, 0, 0.5)` it is rejected. -/
theorem test_confined_PlaneWall_ShapeSphere_iff_witness :
    test_confined_PlaneWall_ShapeSphere (PlaneWall.new Real.sqrt ⟨0, 0, 1⟩ ⟨0, 0, 0⟩ true)
        (sphere_of_diameter 2) ⟨0, 0, 5⟩ ⟨0, 0, 0⟩ (open_box ℝ) = true ∧
      test_confined_PlaneWall_ShapeSphere (PlaneWall.new Real.sqrt ⟨0, 0, 1⟩ ⟨0, 0, 0⟩ true)
        (sphere_of_diameter 2) ⟨0, 0, 0.5⟩ ⟨0, 0, 0⟩ (open_box ℝ) = false := by
  have hr : (0 : ℝ) ≤ (sphere_of_diameter (2 : ℝ)).getCircumsphereDiameter / 2 := by
    norm_num [ShapeSphere.getCircumsphereDiameter, sphere_of_diameter]
  have h0 := test_confined_PlaneWall_ShapeSphere_iff
    (PlaneWall.new Real.sqrt ⟨0, 0, 1⟩ ⟨0, 0, 0⟩ true) (sphere_of_diameter 2)
    ⟨0, 0, 5⟩ ⟨0, 0, 0⟩ (open_box ℝ) hr
  have h1 := test_confined_PlaneWall_ShapeSphere_iff
    (PlaneWall.new Real.sqrt ⟨0, 0, 1⟩ ⟨0, 0, 0⟩ true) (sphere_of_diameter 2)
    ⟨0, 0, 0.5⟩ ⟨0, 0, 0⟩ (open_box ℝ) hr
  constructor
  · rw [h0.1]
    norm_num [open_box, PlaneWall.new, vec3.sub, vec3.sdiv, dot,
      ShapeSphere.getCircumsphereDiameter, sphere_of_diameter]
  · rw [← Bool.not_eq_true, h1.1]
    norm_num [open_box, PlaneWall.new, vec3.sub, vec3.sdiv, dot,
      ShapeSphere.getCircumsphereDiameter, sphere_of_diameter]

/-- C4: over the reals, for an outside-constraint sphere wall of radius `R ≥ 0` and a sphere of
circumsphere radius `r = diameter / 2` at minimum-imaged distance `d` from the wall centre,
`test_confined<SphereWall, ShapeSphere>` returns true if and only if `d - r > R`; when `d < r`
the effective distance is clamped to zero and the sphere is rejected. -/
theorem test_confined_SphereWall_ShapeSphere_outside_iff
    (wall : SphereWall ℝ) (shape : ShapeSphere ℝ) (position box_origin : vec3 ℝ)
    (box : BoxDim ℝ) (R : ℝ) (hR : 0 ≤ R) (hrsq : wall.rsq = R * R)
    (hout : wall.inside = false) :
    (test_confined_SphereWall_ShapeSphere Real.sqrt wall shape position box_origin box = true ↔
      Real.sqrt (dot (box.minImage ((position.sub box_origin).sub wall.origin))
          (box.minImage ((position.sub box_origin).sub wall.origin)))
        - shape.getCircumsphereDiameter / 2 > R) ∧
    (Real.sqrt (dot (box.minImage ((position.sub box_origin).sub wall.origin))
          (box.minImage ((position.sub box_origin).sub wall.origin)))
        < shape.getCircumsphereDiameter / 2 →
      test_confined_SphereWall_ShapeSphere Real.sqrt wall shape position box_origin box
        = false) := by
  have key : test_confined_SphereWall_ShapeSphere Real.sqrt wall shape position box_origin box
      = true ↔
      Real.sqrt (dot (box.minImage ((position.sub box_origin).sub wall.origin))
          (box.minImage ((position.sub box_origin).sub wall.origin)))
        - shape.getCircumsphereDiameter / 2 > R := by
    rw [test_confined_SphereWall_ShapeSphere_eq Real.sqrt wall shape position box_origin box _
      rfl, hout, hrsq]
    generalize Real.sqrt (dot (box.minImage ((position.sub box_origin).sub wall.origin))
          (box.minImage ((position.sub box_origin).sub wall.origin))) = d
    simp only [Bool.false_eq_true, if_false, decide_eq_true_eq, gt_iff_lt]
    split_ifs with hneg
    · constructor
      · intro h
        nlinarith
      · intro h
        linarith
    · exact mul_self_lt_mul_self_iff_of_nonneg hR (not_lt.mp hneg)
  refine ⟨key, fun hlt => ?_⟩
  rw [← Bool.not_eq_true, key]
  intro h
  linarith

/-- C4 at a concrete input: outside a wall of radius 1 at the origin, a sphere of diameter 2 at
`(3, 0, 0)` is accepted (`3 - 1 > 1`), and at `(0.5, 0, 0)`, closer than its own radius, it is
rejected. -/
theorem test_confined_SphereWall_ShapeSphere_outside_iff_witness :
    test_confined_SphereWall_ShapeSphere Real.sqrt
        (SphereWall.new 1 ⟨0, 0, 0⟩ false (empty_verts ℝ 1)) (sphere_of_diameter 2)
        ⟨3, 0, 0⟩ ⟨0, 0, 0⟩ (open_box ℝ) = true ∧
      test_confined_SphereWall_ShapeSphere Real.sqrt
        (SphereWall.new 1 ⟨0, 0, 0⟩ false (empty_verts ℝ 1)) (sphere_of_diameter 2)
        ⟨0.5, 0, 0⟩ ⟨0, 0, 0⟩ (open_box ℝ) = false := by
  have h0 := test_confined_SphereWall_ShapeSphere_outside_iff
    (SphereWall.new 1 ⟨0, 0, 0⟩ false (empty_verts ℝ 1)) (sphere_of_diameter 2)
    ⟨3, 0, 0⟩ ⟨0, 0, 0⟩ (open_box ℝ) 1 (by norm_num) rfl rfl
  have h1 := test_confined_SphereWall_ShapeSphere_outside_iff
    (SphereWall.new 1 ⟨0, 0, 0⟩ false (empty_verts ℝ 1)) (sphere_of_diameter 2)
    ⟨0.5, 0, 0⟩ ⟨0, 0, 0⟩ (open_box ℝ) 1 (by norm_num) rfl rfl
  have hs3 : Real.sqrt (3 * 3) = 3 := Real.sqrt_mul_self (by norm_num)
  have hs5 : Real.sqrt (0.5 * 0.5) = 0.5 := Real.sqrt_mul_self (by norm_num)
  constructor
  · rw [h0.1]
    simp only [open_box, SphereWall.new, vec3.sub, dot, ShapeSphere.getCircumsphereDiameter,
      sphere_of_diameter, id, sub_zero, mul_zero, add_zero, hs3]
    norm_num
  · apply h1.2
    simp only [open_box, SphereWall.new, vec3.sub, dot, ShapeSphere.getCircumsphereDiameter,
      sphere_of_diameter, id, sub_zero, mul_zero, add_zero, hs5]
    norm_num

/-- C5, as the spec states it, fails: outside a sphere wall of radius 1 at the origin, a sphere
of diameter 2 at `(2, 0, 0)` has effective distance `max_dist = 2 - 1 = 1`, so that
`wall.rsq = max_dist²` exactly, and `test_confined` returns false. -/
theorem test_confined_outside_equality_counterexample :
    (SphereWall.new (1 : ℝ) ⟨0, 0, 0⟩ false (empty_verts ℝ 1)).inside = false ∧
    (SphereWall.new (1 : ℝ) ⟨0, 0, 0⟩ false (empty_verts ℝ 1)).rsq =
      (if Real.sqrt (dot ((open_box ℝ).minImage
            (((⟨2, 0, 0⟩ : vec3 ℝ).sub ⟨0, 0, 0⟩).sub ⟨0, 0, 0⟩))
          ((open_box ℝ).minImage (((⟨2, 0, 0⟩ : vec3 ℝ).sub ⟨0, 0, 0⟩).sub ⟨0, 0, 0⟩)))
          - (sphere_of_diameter (2 : ℝ)).getCircumsphereDiameter / 2 < 0 then 0
        else Real.sqrt (dot ((open_box ℝ).minImage
            (((⟨2, 0, 0⟩ : vec3 ℝ).sub ⟨0, 0, 0⟩).sub ⟨0, 0, 0⟩))
          ((open_box ℝ).minImage (((⟨2, 0, 0⟩ : vec3 ℝ).sub ⟨0, 0, 0⟩).sub ⟨0, 0, 0⟩)))
          - (sphere_of_diameter (2 : ℝ)).getCircumsphereDiameter / 2) ^ 2 ∧
    test_confined_SphereWall_ShapeSphere Real.sqrt
      (SphereWall.new 1 ⟨0, 0, 0⟩ false (empty_verts ℝ 1)) (sphere_of_diameter 2)
      ⟨2, 0, 0⟩ ⟨0, 0, 0⟩ (open_box ℝ) = false := by
  have hs : Real.sqrt (2 * 2) = 2 := Real.sqrt_mul_self (by norm_num)
  refine ⟨rfl, ?_, ?_⟩
  · simp only [open_box, SphereWall.new, vec3.sub, dot, ShapeSphere.getCircumsphereDiameter,
      sphere_of_diameter, id, sub_zero, mul_zero, add_zero, hs]
    norm_num
  · rw [test_confined_SphereWall_ShapeSphere_eq Real.sqrt _ _ _ _ _ 2
      (by simp only [open_box, SphereWall.new, vec3.sub, dot, id, sub_zero, mul_zero, add_zero,
        hs])]
    simp only [SphereWall.new, ShapeSphere.getCircumsphereDiameter, sphere_of_diameter]
    norm_num

/-- C5, amended: for an outside-constraint sphere wall or cylinder wall and a sphere, when the
squared radius of the wall equals the squared effective distance (`wall.rsq = max_dist²`, with
`max_dist` the distance from the wall centre or axis less the circumsphere radius, clamped at
zero), the equality is treated as a violation: `test_confined` returns false. -/
theorem test_confined_outside_equality_rejected
    (position box_origin : vec3 ℝ) (box : BoxDim ℝ) (shape : ShapeSphere ℝ) :
    (∀ wall : SphereWall ℝ, wall.inside = false →
      wall.rsq =
        (if Real.sqrt (dot (box.minImage ((position.sub box_origin).sub wall.origin))
            (box.minImage ((position.sub box_origin).sub wall.origin)))
            - shape.getCircumsphereDiameter / 2 < 0 then 0
          else Real.sqrt (dot (box.minImage ((position.sub box_origin).sub wall.origin))
            (box.minImage ((position.sub box_origin).sub wall.origin)))
            - shape.getCircumsphereDiameter / 2) ^ 2 →
      test_confined_SphereWall_ShapeSphere Real.sqrt wall shape position box_origin box
        = false) ∧
    (∀ wall : CylinderWall ℝ, wall.inside = false →
      wall.rsq =
        (if Real.sqrt (dot
            (cross (box.minImage ((position.sub box_origin).sub wall.origin)) wall.orientation)
            (cross (box.minImage ((position.sub box_origin).sub wall.origin)) wall.orientation))
            - shape.getCircumsphereDiameter / 2 < 0 then 0
          else Real.sqrt (dot
            (cross (box.minImage ((position.sub box_origin).sub wall.origin)) wall.orientation)
            (cross (box.minImage ((position.sub box_origin).sub wall.origin)) wall.orientation))
            - shape.getCircumsphereDiameter / 2) ^ 2 →
      test_confined_CylinderWall_ShapeSphere Real.sqrt wall shape position box_origin box
        = false) := by
  constructor
  · intro wall hout heq
    rw [test_confined_SphereWall_ShapeSphere_eq Real.sqrt wall shape position box_origin box _
      rfl, hout, heq]
    simp only [Bool.false_eq_true, if_false, decide_eq_false_iff_not, not_lt]
    exact le_of_eq (sq _).symm
  · intro wall hout heq
    rw [test_confined_CylinderWall_ShapeSphere_eq Real.sqrt wall shape position box_origin box _
      rfl, hout, heq]
    simp only [Bool.false_eq_true, if_false, decide_eq_false_iff_not, not_lt]
    exact le_of_eq (sq _).symm

/-- C5, amended, at a concrete input: outside a cylinder wall of radius 1 along the `z` axis, a
sphere of diameter 2 at `(2, 0, 7)` has effective distance 1 and is rejected. -/
theorem test_confined_outside_equality_rejected_witness :
    test_confined_CylinderWall_ShapeSphere Real.sqrt
      (CylinderWall.new Real.sqrt 1 ⟨0, 0, 0⟩ ⟨0, 0, 1⟩ false (empty_verts ℝ 2))
      (sphere_of_diameter 2) ⟨2, 0, 7⟩ ⟨0, 0, 0⟩ (open_box ℝ) = false := by
  have hs : Real.sqrt (2 * 2) = 2 := Real.sqrt_mul_self (by norm_num)
  refine (test_confined_outside_equality_rejected ⟨2, 0, 7⟩ ⟨0, 0, 0⟩ (open_box ℝ)
    (sphere_of_diameter 2)).2
    (CylinderWall.new Real.sqrt 1 ⟨0, 0, 0⟩ ⟨0, 0, 1⟩ false (empty_verts ℝ 2)) rfl ?_
  simp only [open_box, CylinderWall.new, vec3.sub, vec3.sdiv, dot, cross,
    ShapeSphere.getCircumsphereDiameter, sphere_of_diameter, id]
  norm_num
  rw [show (4 : ℝ) = 2 * 2 by norm_num, hs]
  norm_num

/-- C6: over the reals, for an inside-constraint cylinder wall with unit axis `n` and radius
`R ≥ 0` and a sphere of circumsphere radius `r = diameter / 2 ≥ 0`,
`test_confined<CylinderWall, ShapeSphere>` returns true if and only if `rho + r < R`, where
`rho = sqrt(|p|² - (p·n)²)` is the distance from the axis of the minimum image `p` of
`position - box_origin - wall.origin`; the `|p × n|` of the code equals `rho`. -/
theorem test_confined_CylinderWall_ShapeSphere_inside_iff
    (wall : CylinderWall ℝ) (shape : ShapeSphere ℝ) (position box_origin : vec3 ℝ)
    (box : BoxDim ℝ) (R : ℝ) (hR : 0 ≤ R) (hrsq : wall.rsq = R * R)
    (hin : wall.inside = true) (hn : dot wall.orientation wall.orientation = 1)
    (hr : 0 ≤ shape.getCircumsphereDiameter / 2) :
    (test_confined_CylinderWall_ShapeSphere Real.sqrt wall shape position box_origin box = true ↔
      Real.sqrt (dot (box.minImage ((position.sub box_origin).sub wall.origin))
            (box.minImage ((position.sub box_origin).sub wall.origin))
          - (dot (box.minImage ((position.sub box_origin).sub wall.origin)) wall.orientation) ^ 2)
        + shape.getCircumsphereDiameter / 2 < R) ∧
    Real.sqrt (dot
        (cross (box.minImage ((position.sub box_origin).sub wall.origin)) wall.orientation)
        (cross (box.minImage ((position.sub box_origin).sub wall.origin)) wall.orientation))
      = Real.sqrt (dot (box.minImage ((position.sub box_origin).sub wall.origin))
            (box.minImage ((position.sub box_origin).sub wall.origin))
          - (dot (box.minImage ((position.sub box_origin).sub wall.origin))
              wall.orientation) ^ 2) := by
  have hrho : Real.sqrt (dot
        (cross (box.minImage ((position.sub box_origin).sub wall.origin)) wall.orientation)
        (cross (box.minImage ((position.sub box_origin).sub wall.origin)) wall.orientation))
      = Real.sqrt (dot (box.minImage ((position.sub box_origin).sub wall.origin))
            (box.minImage ((position.sub box_origin).sub wall.origin))
          - (dot (box.minImage ((position.sub box_origin).sub wall.origin))
              wall.orientation) ^ 2) := by
    rw [dot_cross_self, hn, mul_one, sq]
  refine ⟨?_, hrho⟩
  rw [test_confined_CylinderWall_ShapeSphere_eq Real.sqrt wall shape position box_origin box _
    hrho.symm, hin, hrsq]
  simp only [if_true, decide_eq_true_eq, gt_iff_lt]
  exact mul_self_lt_mul_self_iff_of_nonneg (add_nonneg (Real.sqrt_nonneg _) hr) hR

/-- C6 at a concrete input: inside a cylinder wall of radius 5 along the `z` axis, a sphere of
diameter 2 at `(3, 0, 9)` is accepted (`3 + 1 < 5`). -/
theorem test_confined_CylinderWall_ShapeSphere_inside_iff_witness :
    test_confined_CylinderWall_ShapeSphere Real.sqrt
      (CylinderWall.new Real.sqrt 5 ⟨0, 0, 0⟩ ⟨0, 0, 1⟩ true (empty_verts ℝ 2))
      (sphere_of_diameter 2) ⟨3, 0, 9⟩ ⟨0, 0, 0⟩ (open_box ℝ) = true := by
  have hs : Real.sqrt (3 * 3) = 3 := Real.sqrt_mul_self (by norm_num)
  rw [(test_confined_CylinderWall_ShapeSphere_inside_iff
    (CylinderWall.new Real.sqrt 5 ⟨0, 0, 0⟩ ⟨0, 0, 1⟩ true (empty_verts ℝ 2))
    (sphere_of_diameter 2) ⟨3, 0, 9⟩ ⟨0, 0, 0⟩ (open_box ℝ) 5 (by norm_num) rfl rfl
    (by norm_num [CylinderWall.new, vec3.sdiv, dot])
    (by norm_num [ShapeSphere.getCircumsphereDiameter, sphere_of_diameter])).1]
  simp only [open_box, CylinderWall.new, vec3.sub, vec3.sdiv, dot,
    ShapeSphere.getCircumsphereDiameter, sphere_of_diameter, id]
  norm_num
  rw [show (9 : ℝ) = 3 * 3 by norm_num, hs]
  norm_num

/-- C3: over the reals, for an inside-constraint sphere wall and a convex polyhedron with a unit
quaternion orientation whose body-frame vertices all have norm at most `diameter / 2`, if the
circumsphere lies within the wall (`wall.rsq > (d + diameter / 2)²`, the fast path), then
`test_confined` returns true and this equals the result of the exact per-vertex check: every
rotated and translated vertex satisfies `wall.rsq > |rotate(q, v) + shifted_pos|²`. -/
theorem test_confined_SphereWall_ShapeConvexPolyhedron_fast_path {max_verts : Nat}
    (test_overlap : vec3 ℝ → ShapeSpheropolyhedron ℝ max_verts →
      ShapeSpheropolyhedron ℝ max_verts → Nat → Bool × Nat)
    (hcap : 1 ≤ max_verts) (wall : SphereWall ℝ) (shape : ShapeConvexPolyhedron ℝ max_verts)
    (position box_origin : vec3 ℝ) (box : BoxDim ℝ)
    (hin : wall.inside = true)
    (hq : shape.orientation.s * shape.orientation.s
      + dot shape.orientation.v shape.orientation.v = 1)
    (hverts : ∀ v (hv : v < shape.verts.N),
      Real.sqrt (dot (shape.verts.vertex v hv) (shape.verts.vertex v hv))
        ≤ shape.getCircumsphereDiameter / 2)
    (hfast : wall.rsq >
      (Real.sqrt (dot (box.minImage ((position.sub box_origin).sub wall.origin))
          (box.minImage ((position.sub box_origin).sub wall.origin)))
        + shape.getCircumsphereDiameter / 2) ^ 2) :
    test_confined_SphereWall_ShapeConvexPolyhedron Real.sqrt test_overlap hcap wall shape
        position box_origin box = true ∧
      test_confined_SphereWall_ShapeConvexPolyhedron Real.sqrt test_overlap hcap wall shape
        position box_origin box
        = exact_vertex_check_SphereWall wall shape
          (box.minImage ((position.sub box_origin).sub wall.origin)) ∧
      ∀ v (hv : v < shape.verts.N),
        wall.rsq > dot
          ((rotate shape.orientation (shape.verts.vertex v hv)).add
            (box.minImage ((position.sub box_origin).sub wall.origin)))
          ((rotate shape.orientation (shape.verts.vertex v hv)).add
            (box.minImage ((position.sub box_origin).sub wall.origin))) := by
  have hall : ∀ v (hv : v < shape.verts.N),
      wall.rsq > dot
        ((rotate shape.orientation (shape.verts.vertex v hv)).add
          (box.minImage ((position.sub box_origin).sub wall.origin)))
        ((rotate shape.orientation (shape.verts.vertex v hv)).add
          (box.minImage ((position.sub box_origin).sub wall.origin))) := by
    intro v hv
    have htri := dot_add_self_le (rotate shape.orientation (shape.verts.vertex v hv))
      (box.minImage ((position.sub box_origin).sub wall.origin))
    have hrot : dot (rotate shape.orientation (shape.verts.vertex v hv))
        (rotate shape.orientation (shape.verts.vertex v hv))
        = dot (shape.verts.vertex v hv) (shape.verts.vertex v hv) := by
      rw [dot_rotate_self, hq]
      ring
    rw [hrot] at htri
    have hv1 := hverts v hv
    have hn0 := Real.sqrt_nonneg (dot (shape.verts.vertex v hv) (shape.verts.vertex v hv))
    have hd0 := Real.sqrt_nonneg (dot (box.minImage ((position.sub box_origin).sub wall.origin))
      (box.minImage ((position.sub box_origin).sub wall.origin)))
    generalize Real.sqrt (dot (shape.verts.vertex v hv) (shape.verts.vertex v hv)) = nv
      at htri hv1 hn0
    generalize Real.sqrt (dot (box.minImage ((position.sub box_origin).sub wall.origin))
      (box.minImage ((position.sub box_origin).sub wall.origin))) = d at htri hd0 hfast
    nlinarith
  have htrue : test_confined_SphereWall_ShapeConvexPolyhedron Real.sqrt test_overlap hcap wall
      shape position box_origin box = true := by
    have hnot : ¬ wall.rsq ≤
        (Real.sqrt (dot (box.minImage ((position.sub box_origin).sub wall.origin))
            (box.minImage ((position.sub box_origin).sub wall.origin)))
          + shape.getCircumsphereDiameter / 2)
        * (Real.sqrt (dot (box.minImage ((position.sub box_origin).sub wall.origin))
            (box.minImage ((position.sub box_origin).sub wall.origin)))
          + shape.getCircumsphereDiameter / 2) := by
      rw [← sq]
      exact not_le.mpr hfast
    simp only [dot, vec3.sub] at hnot
    simp [test_confined_SphereWall_ShapeConvexPolyhedron, hin, vec3.sub, hnot]
  refine ⟨htrue, ?_, hall⟩
  rw [htrue, exact_vertex_check_SphereWall]
  symm
  rw [decide_eq_true_eq]
  intro v
  exact hall v.val v.isLt

/-- C3 at a concrete input: inside a wall of radius 5 at the origin, the polyhedron with the
vertices `(±1, 0, 0)` and diameter 2 at `(3, 0, 0)` is on the fast path (`(3 + 1)² < 25`), and
`test_confined` returns true. -/
theorem test_confined_SphereWall_ShapeConvexPolyhedron_fast_path_witness :
    test_confined_SphereWall_ShapeConvexPolyhedron Real.sqrt no_overlap (by decide)
      (SphereWall.new 5 ⟨0, 0, 0⟩ true (empty_verts ℝ 1)) (segment_polyhedron ℝ)
      ⟨3, 0, 0⟩ ⟨0, 0, 0⟩ (open_box ℝ) = true := by
  have hs : Real.sqrt (3 * 3) = 3 := Real.sqrt_mul_self (by norm_num)
  refine (test_confined_SphereWall_ShapeConvexPolyhedron_fast_path no_overlap (by decide)
    (SphereWall.new 5 ⟨0, 0, 0⟩ true (empty_verts ℝ 1)) (segment_polyhedron ℝ)
    ⟨3, 0, 0⟩ ⟨0, 0, 0⟩ (open_box ℝ) rfl ?_ ?_ ?_).1
  · norm_num [segment_polyhedron, quat.default, dot]
  · intro v hv
    have hv2 : v < 2 := hv
    interval_cases v <;>
      norm_num [segment_polyhedron, poly3d_verts.vertex, dot,
        ShapeConvexPolyhedron.getCircumsphereDiameter]
  · simp only [open_box, SphereWall.new, vec3.sub, dot, segment_polyhedron,
      ShapeConvexPolyhedron.getCircumsphereDiameter, id, sub_zero, mul_zero, add_zero, hs]
    norm_num

/-- C7: for a plane wall and a convex polyhedron, `test_confined` returns true if and only if
the signed distance `s = n·p + d` of the centre is strictly positive and either
`s > diameter / 2` or every vertex, rotated by the orientation of the shape and translated by
`p`, has a strictly positive signed distance `n·(rotate(q, v) + p) + d > 0`. -/
theorem test_confined_PlaneWall_ShapeConvexPolyhedron_iff {α : Type} [LinearOrderedField α]
    {max_verts : Nat} (wall : PlaneWall α) (shape : ShapeConvexPolyhedron α max_verts)
    (position box_origin : vec3 α) (box : BoxDim α) :
    test_confined_PlaneWall_ShapeConvexPolyhedron wall shape position box_origin box = true ↔
      0 < dot wall.normal (box.minImage (position.sub box_origin)) + wall.d ∧
      (dot wall.normal (box.minImage (position.sub box_origin)) + wall.d
          > shape.getCircumsphereDiameter / 2 ∨
        ∀ v (hv : v < shape.verts.N),
          dot wall.normal ((rotate shape.orientation (shape.verts.vertex v hv)).add
            (box.minImage (position.sub box_origin))) + wall.d > 0) := by
  simp only [test_confined_PlaneWall_ShapeConvexPolyhedron]
  by_cases hs : 0 < dot wall.normal (box.minImage (position.sub box_origin)) + wall.d
  · by_cases hle : dot wall.normal (box.minImage (position.sub box_origin)) + wall.d
        ≤ shape.getCircumsphereDiameter / 2
    · simp only [hs, hle, decide_True, Bool.and_self, if_true, for_verts_eq_true_iff, true_and,
        decide_eq_true_eq, Nat.zero_le, forall_true_left, gt_iff_lt]
      constructor
      · intro h
        exact Or.inr h
      · rintro (h | h)
        · exact absurd hle (not_le.mpr h)
        · exact h
    · simp only [hs, hle, decide_True, decide_False, Bool.and_false, Bool.false_eq_true,
        if_false, true_and, true_iff]
      exact Or.inl (not_le.mp hle)
  · simp [hs]

/-- C8: the `inside` flag of a plane wall does not influence confinement: two plane walls with
the same normal, origin and `d` but different `inside` give the same result of `test_confined`
for every sphere and every convex polyhedron, at every position, box origin and box. -/
theorem test_confined_PlaneWall_inside_irrelevant {α : Type} [LinearOrderedField α]
    (wall1 wall2 : PlaneWall α) (hnormal : wall1.normal = wall2.normal)
    (_horigin : wall1.origin = wall2.origin) (hd : wall1.d = wall2.d)
    (_hinside : wall1.inside ≠ wall2.inside) (position box_origin : vec3 α) (box : BoxDim α) :
    (∀ shape : ShapeSphere α,
      test_confined_PlaneWall_ShapeSphere wall1 shape position box_origin box
        = test_confined_PlaneWall_ShapeSphere wall2 shape position box_origin box) ∧
    (∀ (max_verts : Nat) (shape : ShapeConvexPolyhedron α max_verts),
      test_confined_PlaneWall_ShapeConvexPolyhedron wall1 shape position box_origin box
        = test_confined_PlaneWall_ShapeConvexPolyhedron wall2 shape position box_origin box) := by
  constructor
  · intro shape
    simp only [test_confined_PlaneWall_ShapeSphere, hnormal, hd]
  · intro max_verts shape
    simp only [test_confined_PlaneWall_ShapeConvexPolyhedron, hnormal, hd]

/-- C8 at a concrete input: the plane through the origin with normal `(0, 0, 1)`, once with
`inside = true` and once with `inside = false`, and the polyhedron with vertices `(±1, 0, 0)` at
`(0, 0, 0.5)`. -/
theorem test_confined_PlaneWall_inside_irrelevant_witness :
    test_confined_PlaneWall_ShapeConvexPolyhedron
        (⟨⟨0, 0, 1⟩, ⟨0, 0, 0⟩, true, 0⟩ : PlaneWall ℚ) (segment_polyhedron ℚ)
        ⟨0, 0, 0.5⟩ ⟨0, 0, 0⟩ (open_box ℚ)
      = test_confined_PlaneWall_ShapeConvexPolyhedron
        (⟨⟨0, 0, 1⟩, ⟨0, 0, 0⟩, false, 0⟩ : PlaneWall ℚ) (segment_polyhedron ℚ)
        ⟨0, 0, 0.5⟩ ⟨0, 0, 0⟩ (open_box ℚ) :=
  (test_confined_PlaneWall_inside_irrelevant
    (⟨⟨0, 0, 1⟩, ⟨0, 0, 0⟩, true, 0⟩ : PlaneWall ℚ) ⟨⟨0, 0, 1⟩, ⟨0, 0, 0⟩, false, 0⟩
    rfl rfl rfl (by decide) ⟨0, 0, 0.5⟩ ⟨0, 0, 0⟩ (open_box ℚ)).2 2 (segment_polyhedron ℚ)

/-- C9: the generic `test_confined<WallShape, ParticleShape>` returns false for every wall,
shape, position, box origin and box. -/
theorem test_confined_generic_eq_false {α : Type} [LinearOrderedField α]
    {WallShape ParticleShape : Type} (wall : WallShape) (shape : ParticleShape)
    (position box_origin : vec3 α) (box : BoxDim α) :
    test_confined wall shape position box_origin box = false :=
  rfl

/-- C10: `ExternalFieldWall::boltzmann` returns exactly 0 or 1; it returns 1 if and only if
`test_confined` holds for the new shape at the new position against every sphere wall, every
cylinder wall (after its vertices have been set for that shape) and every plane wall of the
field; with no walls at all it returns 1. This holds for every shape type, whatever overloads
of `test_confined` it resolves. -/
theorem boltzmann_eq_one_iff {α : Type} [LinearOrderedField α] {Shape : Type}
    (ops : ShapeOverloads α Shape) (self : ExternalFieldWall α) (index : Nat)
    (position_old : vec3 α) (shape_old : Shape) (position_new : vec3 α) (shape_new : Shape) :
    ((self.boltzmann ops index position_old shape_old position_new shape_new).1 = 0 ∨
      (self.boltzmann ops index position_old shape_old position_new shape_new).1 = 1) ∧
    ((self.boltzmann ops index position_old shape_old position_new shape_new).1 = 1 ↔
      (∀ wall ∈ self.m_Spheres, ops.test_confined_sphere wall shape_new position_new
        self.m_pdata.origin self.m_pdata.globalBox = true) ∧
      (∀ wall ∈ self.m_Cylinders,
        ops.test_confined_cylinder (set_cylinder_wall_verts ops wall shape_new) shape_new
          position_new self.m_pdata.origin self.m_pdata.globalBox = true) ∧
      (∀ wall ∈ self.m_Planes, ops.test_confined_plane wall shape_new position_new
        self.m_pdata.origin self.m_pdata.globalBox = true)) ∧
    (self.m_Spheres = [] → self.m_Cylinders = [] → self.m_Planes = [] →
      (self.boltzmann ops index position_old shape_old position_new shape_new).1 = 1) := by
  have hiff : (self.boltzmann ops index position_old shape_old position_new shape_new).1 = 1 ↔
      (∀ wall ∈ self.m_Spheres, ops.test_confined_sphere wall shape_new position_new
        self.m_pdata.origin self.m_pdata.globalBox = true) ∧
      (∀ wall ∈ self.m_Cylinders,
        ops.test_confined_cylinder (set_cylinder_wall_verts ops wall shape_new) shape_new
          position_new self.m_pdata.origin self.m_pdata.globalBox = true) ∧
      (∀ wall ∈ self.m_Planes, ops.test_confined_plane wall shape_new position_new
        self.m_pdata.origin self.m_pdata.globalBox = true) := by
    rw [boltzmann_fst, ← boltzmann_spheres_eq_true_iff, ← boltzmann_cylinders_eq_true_iff,
      ← boltzmann_planes_eq_true_iff]
    split_ifs with h
    · simp [h]
    · simp [h]
  refine ⟨?_, hiff, ?_⟩
  · rw [boltzmann_fst]
    split_ifs
    · exact Or.inr rfl
    · exact Or.inl rfl
  · intro hs hc hp
    rw [hiff, hs, hc, hp]
    simp

/-- C10 at a concrete input: in the field with a sphere wall and a cylinder wall of radius 5
and the plane wall `z > 0`, a sphere of diameter 2 has weight 1 at `(0, 0, 2)` and weight 0 at
`(0, 0, 0.5)`, where the plane wall rejects it. -/
theorem boltzmann_eq_one_iff_witness :
    ((example_field ℝ Real.sqrt).boltzmann (ShapeSphere.overloads Real.sqrt) 0 ⟨0, 0, 0⟩
        (sphere_of_diameter 2) ⟨0, 0, 2⟩ (sphere_of_diameter 2)).1 = 1 ∧
      ((example_field ℝ Real.sqrt).boltzmann (ShapeSphere.overloads Real.sqrt) 0 ⟨0, 0, 0⟩
        (sphere_of_diameter 2) ⟨0, 0, 0.5⟩ (sphere_of_diameter 2)).1 = 0 := by
  have hs : Real.sqrt (2 * 2) = 2 := Real.sqrt_mul_self (by norm_num)
  have h2 := boltzmann_eq_one_iff (ShapeSphere.overloads Real.sqrt) (example_field ℝ Real.sqrt)
    0 ⟨0, 0, 0⟩ (sphere_of_diameter 2) ⟨0, 0, 2⟩ (sphere_of_diameter 2)
  have h5 := boltzmann_eq_one_iff (ShapeSphere.overloads Real.sqrt) (example_field ℝ Real.sqrt)
    0 ⟨0, 0, 0⟩ (sphere_of_diameter 2) ⟨0, 0, 0.5⟩ (sphere_of_diameter 2)
  constructor
  · rw [h2.2.1]
    refine ⟨?_, ?_, ?_⟩
    · intro wall hwall
      simp only [example_field, List.mem_singleton] at hwall
      subst hwall
      simp only [ShapeSphere.overloads, example_field]
      rw [test_confined_SphereWall_ShapeSphere_eq Real.sqrt _ _ _ _ _ 2
        (by simp only [open_box, SphereWall.new, vec3.sub, dot, id, sub_zero, mul_zero,
          zero_add, hs])]
      simp only [SphereWall.new, ShapeSphere.getCircumsphereDiameter, sphere_of_diameter]
      norm_num
    · intro wall hwall
      simp only [example_field, List.mem_singleton] at hwall
      subst hwall
      simp only [ShapeSphere.overloads, example_field]
      rw [test_confined_CylinderWall_ShapeSphere_eq Real.sqrt _ _ _ _ _ 0
        (by simp [open_box, CylinderWall.new, set_cylinder_wall_verts, vec3.sub, vec3.sdiv,
          dot, cross])]
      simp only [CylinderWall.new, set_cylinder_wall_verts,
        ShapeSphere.getCircumsphereDiameter, sphere_of_diameter]
      norm_num
    · intro wall hwall
      simp only [example_field, List.mem_singleton] at hwall
      subst hwall
      norm_num [ShapeSphere.overloads, example_field, test_confined_PlaneWall_ShapeSphere,
        open_box, PlaneWall.new, vec3.sub, vec3.sdiv, dot,
        ShapeSphere.getCircumsphereDiameter, sphere_of_diameter]
  · rcases h5.1 with h0 | h1
    · exact h0
    · exfalso
      have hplane := (h5.2.1.mp h1).2.2 (PlaneWall.new Real.sqrt ⟨0, 0, 1⟩ ⟨0, 0, 0⟩ true)
        (by simp [example_field])
      norm_num [ShapeSphere.overloads, example_field, test_confined_PlaneWall_ShapeSphere,
        open_box, PlaneWall.new, vec3.sub, vec3.sdiv, dot,
        ShapeSphere.getCircumsphereDiameter, sphere_of_diameter] at hplane

/-! ## Acceptance, determinism and overlap counts -/

/-- The weight `boltzmann` returns is 1 exactly when every wall confines the new shape at the
new position. -/
theorem boltzmann_fst_eq_one_iff {α : Type} [LinearOrderedField α] {Shape : Type}
    (ops : ShapeOverloads α Shape) (self : ExternalFieldWall α) (index : Nat)
    (position_old : vec3 α) (shape_old : Shape) (position_new : vec3 α) (shape_new : Shape) :
    (self.boltzmann ops index position_old shape_old position_new shape_new).1 = 1 ↔
      (∀ wall ∈ self.m_Spheres, ops.test_confined_sphere wall shape_new position_new
        self.m_pdata.origin self.m_pdata.globalBox = true) ∧
      (∀ wall ∈ self.m_Cylinders,
        ops.test_confined_cylinder (set_cylinder_wall_verts ops wall shape_new) shape_new
          position_new self.m_pdata.origin self.m_pdata.globalBox = true) ∧
      (∀ wall ∈ self.m_Planes, ops.test_confined_plane wall shape_new position_new
        self.m_pdata.origin self.m_pdata.globalBox = true) := by
  rw [boltzmann_fst, ← boltzmann_spheres_eq_true_iff, ← boltzmann_cylinders_eq_true_iff,
    ← boltzmann_planes_eq_true_iff]
  split_ifs with h
  · simp [h]
  · simp [h]

/-- The weight `boltzmann` returns is 0 or 1. -/
theorem boltzmann_fst_eq_zero_or_one {α : Type} [LinearOrderedField α] {Shape : Type}
    (ops : ShapeOverloads α Shape) (self : ExternalFieldWall α) (index : Nat)
    (position_old : vec3 α) (shape_old : Shape) (position_new : vec3 α) (shape_new : Shape) :
    (self.boltzmann ops index position_old shape_old position_new shape_new).1 = 0 ∨
      (self.boltzmann ops index position_old shape_old position_new shape_new).1 = 1 := by
  rw [boltzmann_fst]
  split_ifs
  · exact Or.inr rfl
  · exact Or.inl rfl

/-- Setting the vertices makes two cylinder walls with the same parameters equal. -/
theorem set_cylinder_wall_verts_congr {α : Type} [LinearOrderedField α] {Shape : Type}
    (ops : ShapeOverloads α Shape) (wall1 wall2 : CylinderWall α)
    (h : wall1.same_parameters wall2) (shape : Shape) :
    set_cylinder_wall_verts ops wall1 shape = set_cylinder_wall_verts ops wall2 shape := by
  obtain ⟨rsq1, inside1, origin1, orientation1, verts1⟩ := wall1
  obtain ⟨rsq2, inside2, origin2, orientation2, verts2⟩ := wall2
  obtain ⟨x1, y1, z1, N1, diameter1, sweep1, ignore1, hN1⟩ := verts1
  obtain ⟨x2, y2, z2, N2, diameter2, sweep2, ignore2, hN2⟩ := verts2
  obtain ⟨h1, h2, h3, h4, h5, h6, h7⟩ := h
  simp only at h1 h2 h3 h4 h5 h6 h7
  subst h1 h2 h3 h4 h5 h6 h7
  simp only [set_cylinder_wall_verts, CylinderWall.mk.injEq, poly3d_verts.mk.injEq, true_and,
    and_true]
  refine ⟨?_, ?_, ?_⟩ <;>
    · funext i
      fin_cases i <;> simp [Function.update]

/-- Setting the vertices keeps the parameters of a cylinder wall. -/
theorem set_cylinder_wall_verts_same_parameters {α : Type} [LinearOrderedField α]
    {Shape : Type} (ops : ShapeOverloads α Shape) (wall : CylinderWall α) (shape : Shape) :
    (set_cylinder_wall_verts ops wall shape).same_parameters wall :=
  ⟨rfl, rfl, rfl, rfl, rfl, rfl, rfl⟩

/-- Having the same parameters is transitive. -/
theorem cylinder_wall_same_parameters_trans {α : Type} {wall1 wall2 wall3 : CylinderWall α}
    (h12 : wall1.same_parameters wall2) (h23 : wall2.same_parameters wall3) :
    wall1.same_parameters wall3 :=
  ⟨h12.1.trans h23.1, h12.2.1.trans h23.2.1, h12.2.2.1.trans h23.2.2.1,
    h12.2.2.2.1.trans h23.2.2.2.1, h12.2.2.2.2.1.trans h23.2.2.2.2.1,
    h12.2.2.2.2.2.1.trans h23.2.2.2.2.2.1, h12.2.2.2.2.2.2.trans h23.2.2.2.2.2.2⟩

/-- The loop over the cylinder walls gives the same result on walls with the same
parameters. -/
theorem boltzmann_cylinders_congr {α : Type} [LinearOrderedField α] {Shape : Type}
    (ops : ShapeOverloads α Shape) (shape_new : Shape) (position_new origin : vec3 α)
    (box : BoxDim α) (walls1 walls2 : List (CylinderWall α))
    (h : List.Forall₂ CylinderWall.same_parameters walls1 walls2) :
    (boltzmann_cylinders ops shape_new position_new origin box walls1).1
      = (boltzmann_cylinders ops shape_new position_new origin box walls2).1 := by
  induction h with
  | nil => rfl
  | cons hw _ ih =>
    simp only [boltzmann_cylinders, set_cylinder_wall_verts_congr ops _ _ hw shape_new]
    split_ifs
    · rfl
    · exact ih

/-- The loop over the cylinder walls leaves walls with the same parameters. -/
theorem boltzmann_cylinders_same_parameters {α : Type} [LinearOrderedField α] {Shape : Type}
    (ops : ShapeOverloads α Shape) (shape_new : Shape) (position_new origin : vec3 α)
    (box : BoxDim α) (walls : List (CylinderWall α)) :
    List.Forall₂ CylinderWall.same_parameters
      (boltzmann_cylinders ops shape_new position_new origin box walls).2 walls := by
  induction walls with
  | nil => exact List.Forall₂.nil
  | cons wall rest ih =>
    simp only [boltzmann_cylinders]
    split_ifs
    · exact List.Forall₂.cons (set_cylinder_wall_verts_same_parameters ops wall shape_new)
        (List.forall₂_same.mpr (fun w _ => ⟨rfl, rfl, rfl, rfl, rfl, rfl, rfl⟩))
    · exact List.Forall₂.cons (set_cylinder_wall_verts_same_parameters ops wall shape_new) ih

/-- The weight `boltzmann` returns is the same on two fields with the same parameters,
whatever the particle index, the old position and the old shape. -/
theorem boltzmann_fst_congr {α : Type} [LinearOrderedField α] {Shape : Type}
    (ops : ShapeOverloads α Shape) (field1 field2 : ExternalFieldWall α)
    (h : field1.same_parameters field2) (index1 index2 : Nat)
    (position_old1 position_old2 : vec3 α) (shape_old1 shape_old2 : Shape)
    (position_new : vec3 α) (shape_new : Shape) :
    (field1.boltzmann ops index1 position_old1 shape_old1 position_new shape_new).1
      = (field2.boltzmann ops index2 position_old2 shape_old2 position_new shape_new).1 := by
  obtain ⟨hbox, horigin, hspheres, hplanes, hcyl⟩ := h
  rw [boltzmann_fst, boltzmann_fst, hbox, horigin, hspheres, hplanes,
    boltzmann_cylinders_congr ops shape_new position_new _ _ _ _ hcyl]

/-- The field `boltzmann` leaves has the parameters of the field it was called on. -/
theorem boltzmann_snd_same_parameters {α : Type} [LinearOrderedField α] {Shape : Type}
    (ops : ShapeOverloads α Shape) (self : ExternalFieldWall α) (index : Nat)
    (position_old : vec3 α) (shape_old : Shape) (position_new : vec3 α) (shape_new : Shape) :
    (self.boltzmann ops index position_old shape_old position_new shape_new).2.same_parameters
      self := by
  have hrefl : List.Forall₂ CylinderWall.same_parameters self.m_Cylinders self.m_Cylinders :=
    List.forall₂_same.mpr (fun w _ => ⟨rfl, rfl, rfl, rfl, rfl, rfl, rfl⟩)
  have hcyl := boltzmann_cylinders_same_parameters ops shape_new position_new
    self.m_pdata.origin self.m_pdata.globalBox self.m_Cylinders
  simp only [ExternalFieldWall.boltzmann]
  split_ifs
  · exact ⟨rfl, rfl, rfl, rfl, hrefl⟩
  · exact ⟨rfl, rfl, rfl, rfl, hcyl⟩
  · exact ⟨rfl, rfl, rfl, rfl, hcyl⟩
  · exact ⟨rfl, rfl, rfl, rfl, hcyl⟩

/-- Having the same parameters is transitive for lists of cylinder walls. -/
theorem forall₂_same_parameters_trans {α : Type} :
    ∀ {walls1 walls2 walls3 : List (CylinderWall α)},
      List.Forall₂ CylinderWall.same_parameters walls1 walls2 →
      List.Forall₂ CylinderWall.same_parameters walls2 walls3 →
      List.Forall₂ CylinderWall.same_parameters walls1 walls3
  | [], [], [], _, _ => List.Forall₂.nil
  | _ :: _, _ :: _, _ :: _, List.Forall₂.cons h12 t12, List.Forall₂.cons h23 t23 =>
    List.Forall₂.cons (cylinder_wall_same_parameters_trans h12 h23)
      (forall₂_same_parameters_trans t12 t23)

/-- Having the same parameters is transitive for fields. -/
theorem field_same_parameters_trans {α : Type}
    {field1 field2 field3 : ExternalFieldWall α}
    (h12 : field1.same_parameters field2) (h23 : field2.same_parameters field3) :
    field1.same_parameters field3 :=
  ⟨h12.1.trans h23.1, h12.2.1.trans h23.2.1, h12.2.2.1.trans h23.2.2.1,
    h12.2.2.2.1.trans h23.2.2.2.1,
    forall₂_same_parameters_trans h12.2.2.2.2 h23.2.2.2.2⟩

/-- C11: for a tolerance `0 < SMALL ≤ 1`, `ExternalFieldWall::accept` returns true if and only
if `boltzmann` returns 1 for the same arguments, that is if and only if the new shape at the new
position is confined by every wall of the field. -/
theorem accept_eq_true_iff {α : Type} [LinearOrderedField α] {Shape Saru : Type}
    (SMALL : α) (hpos : 0 < SMALL) (hle : SMALL ≤ 1)
    (ops : ShapeOverloads α Shape) (self : ExternalFieldWall α) (index : Nat)
    (position_old : vec3 α) (shape_old : Shape) (position_new : vec3 α) (shape_new : Shape)
    (rng : Saru) :
    ((self.accept SMALL ops index position_old shape_old position_new shape_new rng).1 = true ↔
      (self.boltzmann ops index position_old shape_old position_new shape_new).1 = 1) ∧
    ((self.accept SMALL ops index position_old shape_old position_new shape_new rng).1 = true ↔
      (∀ wall ∈ self.m_Spheres, ops.test_confined_sphere wall shape_new position_new
        self.m_pdata.origin self.m_pdata.globalBox = true) ∧
      (∀ wall ∈ self.m_Cylinders,
        ops.test_confined_cylinder (set_cylinder_wall_verts ops wall shape_new) shape_new
          position_new self.m_pdata.origin self.m_pdata.globalBox = true) ∧
      (∀ wall ∈ self.m_Planes, ops.test_confined_plane wall shape_new position_new
        self.m_pdata.origin self.m_pdata.globalBox = true)) := by
  have key : (self.accept SMALL ops index position_old shape_old position_new shape_new rng).1
      = true ↔
      (self.boltzmann ops index position_old shape_old position_new shape_new).1 = 1 := by
    simp only [ExternalFieldWall.accept, decide_eq_true_eq]
    rcases boltzmann_fst_eq_zero_or_one ops self index position_old shape_old position_new
      shape_new with h | h
    · rw [h]
      simp only [zero_sub, abs_neg, abs_one, zero_ne_one, iff_false, not_lt]
      exact hle
    · rw [h]
      simp only [sub_self, abs_zero, iff_true]
      exact hpos
  exact ⟨key, key.trans (boltzmann_fst_eq_one_iff ops self index position_old shape_old
    position_new shape_new)⟩

/-- C11 at a concrete input: with the tolerance 0.001, in the field with the plane wall
`z > 0`, the move of a sphere of diameter 2 to `(0, 0, 5)` is accepted. -/
theorem accept_eq_true_iff_witness :
    ((plane_field ℝ []).accept 0.001 (ShapeSphere.overloads Real.sqrt) 0 ⟨0, 0, 0⟩
      (sphere_of_diameter 2) ⟨0, 0, 5⟩ (sphere_of_diameter 2) ()).1 = true := by
  rw [(accept_eq_true_iff (0.001 : ℝ) (by norm_num) (by norm_num)
    (ShapeSphere.overloads Real.sqrt) (plane_field ℝ []) 0 ⟨0, 0, 0⟩ (sphere_of_diameter 2)
    ⟨0, 0, 5⟩ (sphere_of_diameter 2) ()).2]
  refine ⟨by simp [plane_field], by simp [plane_field], ?_⟩
  intro wall hwall
  simp only [plane_field, List.mem_singleton] at hwall
  subst hwall
  norm_num [ShapeSphere.overloads, plane_field, test_confined_PlaneWall_ShapeSphere,
    open_box, vec3.sub, dot, ShapeSphere.getCircumsphereDiameter, sphere_of_diameter]

/-- C12: `accept` and `boltzmann` are functions of the new shape, the new position, the box, the
origin and the parameters of the walls only: on two fields with the same parameters, which may
differ in the contents of the vertex buffers of their cylinder walls (coordinates and
diameter), and with different particle indices, old positions, old shapes and random number
generators, they return the same result. -/
theorem accept_boltzmann_deterministic {α : Type} [LinearOrderedField α] {Shape Saru : Type}
    (SMALL : α) (ops : ShapeOverloads α Shape) (field1 field2 : ExternalFieldWall α)
    (h : field1.same_parameters field2) (index1 index2 : Nat)
    (position_old1 position_old2 : vec3 α) (shape_old1 shape_old2 : Shape)
    (rng1 rng2 : Saru) (position_new : vec3 α) (shape_new : Shape) :
    (field1.boltzmann ops index1 position_old1 shape_old1 position_new shape_new).1
      = (field2.boltzmann ops index2 position_old2 shape_old2 position_new shape_new).1 ∧
    (field1.accept SMALL ops index1 position_old1 shape_old1 position_new shape_new rng1).1
      = (field2.accept SMALL ops index2 position_old2 shape_old2 position_new shape_new rng2).1
    := by
  have hb := boltzmann_fst_congr ops field1 field2 h index1 index2 position_old1 position_old2
    shape_old1 shape_old2 position_new shape_new
  refine ⟨hb, ?_⟩
  simp only [ExternalFieldWall.accept, hb]

/-- C12 at a concrete input: the field `example_field` and the same field with stale vertex
buffers in its cylinder wall, asked with different indices, old positions and old shapes about
a sphere of diameter 2 at `(0, 0, 2)`, return the same weight. -/
theorem accept_boltzmann_deterministic_witness :
    ((example_field ℝ Real.sqrt).boltzmann (ShapeSphere.overloads Real.sqrt) 0 ⟨0, 0, 0⟩
        (sphere_of_diameter 2) ⟨0, 0, 2⟩ (sphere_of_diameter 2)).1
      = ((example_field_stale ℝ Real.sqrt).boltzmann (ShapeSphere.overloads Real.sqrt) 5
        ⟨1, 1, 1⟩ (sphere_of_diameter 3) ⟨0, 0, 2⟩ (sphere_of_diameter 2)).1 :=
  (accept_boltzmann_deterministic (0.001 : ℝ) (ShapeSphere.overloads Real.sqrt)
    (example_field ℝ Real.sqrt) (example_field_stale ℝ Real.sqrt)
    ⟨rfl, rfl, rfl, rfl,
      List.Forall₂.cons ⟨rfl, rfl, rfl, rfl, rfl, rfl, rfl⟩ List.Forall₂.nil⟩
    0 5 ⟨0, 0, 0⟩ ⟨1, 1, 1⟩ (sphere_of_diameter 2) (sphere_of_diameter 3) () ()
    ⟨0, 0, 2⟩ (sphere_of_diameter 2)).1

/-- The amount `(unsigned int) (1 - int(w))` that `countOverlaps` adds for the weight 0. -/
theorem int_to_unsigned_of_weight_zero {α : Type} [LinearOrderedField α] [FloorRing α] :
    int_to_unsigned (1 - scalar_to_int (0 : α)) = 1 := by
  simp [int_to_unsigned, scalar_to_int]

/-- The amount `(unsigned int) (1 - int(w))` that `countOverlaps` adds for the weight 1. -/
theorem int_to_unsigned_of_weight_one {α : Type} [LinearOrderedField α] [FloorRing α] :
    int_to_unsigned (1 - scalar_to_int (1 : α)) = 0 := by
  simp [int_to_unsigned, scalar_to_int]

/-- The amount that `countOverlaps` adds for a particle is 1 if the particle violates
confinement in the field `self`, and 0 if not, also when the weight is taken in a field `cur`
with the same parameters. -/
theorem countOverlaps_increment {α : Type} [LinearOrderedField α] [FloorRing α] {Shape : Type}
    (ops : ShapeOverloads α Shape) (shape_of : quat α → Nat → Shape)
    (self cur : ExternalFieldWall α) (hcur : cur.same_parameters self) (i : Nat)
    (particle : Particle α) :
    int_to_unsigned (1 - scalar_to_int (cur.boltzmann ops i particle.position
        (shape_of particle.orientation particle.typ) particle.position
        (shape_of particle.orientation particle.typ)).1)
      = if self.violates ops shape_of 0 particle = true then 1 else 0 := by
  have hb := boltzmann_fst_congr ops cur self hcur i 0 particle.position particle.position
    (shape_of particle.orientation particle.typ) (shape_of particle.orientation particle.typ)
    particle.position (shape_of particle.orientation particle.typ)
  rw [hb, ExternalFieldWall.violates]
  rcases boltzmann_fst_eq_zero_or_one ops self 0 particle.position
    (shape_of particle.orientation particle.typ) particle.position
    (shape_of particle.orientation particle.typ) with h | h
  · rw [h, int_to_unsigned_of_weight_zero]
    simp
  · rw [h, int_to_unsigned_of_weight_one]
    simp

/-- Without early exit, the loop of `countOverlaps` adds the number of violating particles, as
long as the count stays below `2 ^ 32`. -/
theorem countOverlaps_loop_false {α : Type} [LinearOrderedField α] [FloorRing α] {Shape : Type}
    (ops : ShapeOverloads α Shape) (shape_of : quat α → Nat → Shape)
    (self : ExternalFieldWall α) (particles : List (Particle α)) :
    ∀ (i : Nat) (cur : ExternalFieldWall α) (numOverlaps : Nat),
      cur.same_parameters self → numOverlaps + particles.length < 2 ^ 32 →
      (countOverlaps_loop ops shape_of false particles i cur numOverlaps).1
        = numOverlaps + particles.countP (fun particle => self.violates ops shape_of 0 particle)
    := by
  induction particles with
  | nil =>
    intro i cur numOverlaps _ _
    simp [countOverlaps_loop]
  | cons particle rest ih =>
    intro i cur numOverlaps hcur hlt
    simp only [List.length_cons] at hlt
    simp only [countOverlaps_loop, Bool.false_and, Bool.false_eq_true, if_false]
    rw [countOverlaps_increment ops shape_of self cur hcur i particle]
    have hnext := field_same_parameters_trans
      (boltzmann_snd_same_parameters ops cur i particle.position
        (shape_of particle.orientation particle.typ) particle.position
        (shape_of particle.orientation particle.typ)) hcur
    rw [List.countP_cons]
    by_cases hv : self.violates ops shape_of 0 particle = true
    · simp only [hv, if_true]
      rw [Nat.mod_eq_of_lt (by omega), ih (i + 1) _ (numOverlaps + 1) hnext (by omega)]
      omega
    · simp only [hv, if_false, Bool.false_eq_true, Nat.add_zero]
      rw [Nat.mod_eq_of_lt (by omega), ih (i + 1) _ numOverlaps hnext (by omega)]

/-- With early exit, the loop of `countOverlaps` entered with the count 0 returns 1 if some
particle violates confinement and 0 if none does. -/
theorem countOverlaps_loop_true {α : Type} [LinearOrderedField α] [FloorRing α] {Shape : Type}
    (ops : ShapeOverloads α Shape) (shape_of : quat α → Nat → Shape)
    (self : ExternalFieldWall α) (particles : List (Particle α)) :
    ∀ (i : Nat) (cur : ExternalFieldWall α), cur.same_parameters self →
      (countOverlaps_loop ops shape_of true particles i cur 0).1
        = min 1 (particles.countP (fun particle => self.violates ops shape_of 0 particle)) := by
  induction particles with
  | nil =>
    intro i cur _
    simp [countOverlaps_loop]
  | cons particle rest ih =>
    intro i cur hcur
    simp only [countOverlaps_loop, Bool.true_and, Nat.zero_add]
    rw [countOverlaps_increment ops shape_of self cur hcur i particle]
    have hnext := field_same_parameters_trans
      (boltzmann_snd_same_parameters ops cur i particle.position
        (shape_of particle.orientation particle.typ) particle.position
        (shape_of particle.orientation particle.typ)) hcur
    rw [List.countP_cons]
    by_cases hv : self.violates ops shape_of 0 particle = true
    · simp only [hv, if_true]
      have h1 : (1 : Nat) % 2 ^ 32 = 1 := by norm_num
      simp only [h1, gt_iff_lt, Nat.lt_one_iff, Nat.zero_lt_one, decide_True, if_true]
      omega
    · simp only [hv, if_false, Bool.false_eq_true, Nat.add_zero]
      have h0 : (0 : Nat) % 2 ^ 32 = 0 := by norm_num
      simp only [h0, gt_iff_lt, lt_self_iff_false, decide_False, Bool.false_eq_true, if_false]
      exact ih (i + 1) _ hnext

/-- Counting over the enumerated particles is counting over the particles, as the particle
index is not read. -/
theorem countP_enum_violates {α : Type} [LinearOrderedField α] {Shape : Type}
    (ops : ShapeOverloads α Shape) (shape_of : quat α → Nat → Shape)
    (self : ExternalFieldWall α) (particles : List (Particle α)) :
    particles.enum.countP (fun ip => self.violates ops shape_of ip.1 ip.2)
      = particles.countP (fun particle => self.violates ops shape_of 0 particle) := by
  have hfun : (fun ip : Nat × Particle α => self.violates ops shape_of ip.1 ip.2)
      = (fun particle => self.violates ops shape_of 0 particle) ∘ Prod.snd := rfl
  rw [hfun, ← List.countP_map, List.enum_map_snd]

/-- C13: in a single partition with fewer than `2 ^ 32` local particles (their number is an
`unsigned int`), `countOverlaps(timestep, false)` returns the number of local particles `i` for
which `boltzmann` of the particle's own current position and shape is 0, and
`countOverlaps(timestep, true)` returns the minimum of 1 and that number. -/
theorem countOverlaps_eq {α : Type} [LinearOrderedField α] [FloorRing α] {Shape : Type}
    (ops : ShapeOverloads α Shape) (shape_of : quat α → Nat → Shape)
    (self : ExternalFieldWall α) (timestep : Nat)
    (hN : self.m_pdata.particles.length < 2 ^ 32) :
    (self.countOverlaps ops shape_of timestep false).1
      = self.m_pdata.particles.enum.countP (fun ip => self.violates ops shape_of ip.1 ip.2) ∧
    (self.countOverlaps ops shape_of timestep true).1
      = min 1
        (self.m_pdata.particles.enum.countP (fun ip => self.violates ops shape_of ip.1 ip.2))
    := by
  have hrefl : self.same_parameters self :=
    ⟨rfl, rfl, rfl, rfl, List.forall₂_same.mpr (fun w _ => ⟨rfl, rfl, rfl, rfl, rfl, rfl, rfl⟩)⟩
  rw [countP_enum_violates]
  constructor
  · rw [ExternalFieldWall.countOverlaps,
      countOverlaps_loop_false ops shape_of self _ 0 self 0 hrefl (by omega)]
    omega
  · rw [ExternalFieldWall.countOverlaps, countOverlaps_loop_true ops shape_of self _ 0 self hrefl]

/-- In the field with the plane wall `z > 0`, a sphere of diameter 2 at height `z` violates
confinement exactly when `z ≤ 1`. -/
theorem plane_field_violates_iff (particles : List (Particle ℝ)) (i : Nat) (x y z : ℝ) :
    (plane_field ℝ particles).violates (ShapeSphere.overloads Real.sqrt)
        spheres_of_diameter_two i (particle_at ⟨x, y, z⟩) = true ↔ z ≤ 1 := by
  rw [ExternalFieldWall.violates, decide_eq_true_eq]
  have h01 := boltzmann_fst_eq_zero_or_one (ShapeSphere.overloads Real.sqrt)
    (plane_field ℝ particles) i (particle_at ⟨x, y, z⟩).position
    (spheres_of_diameter_two (particle_at (⟨x, y, z⟩ : vec3 ℝ)).orientation
      (particle_at (⟨x, y, z⟩ : vec3 ℝ)).typ)
    (particle_at ⟨x, y, z⟩).position
    (spheres_of_diameter_two (particle_at (⟨x, y, z⟩ : vec3 ℝ)).orientation
      (particle_at (⟨x, y, z⟩ : vec3 ℝ)).typ)
  have h1 := boltzmann_fst_eq_one_iff (ShapeSphere.overloads Real.sqrt)
    (plane_field ℝ particles) i (particle_at ⟨x, y, z⟩).position
    (spheres_of_diameter_two (particle_at (⟨x, y, z⟩ : vec3 ℝ)).orientation
      (particle_at (⟨x, y, z⟩ : vec3 ℝ)).typ)
    (particle_at ⟨x, y, z⟩).position
    (spheres_of_diameter_two (particle_at (⟨x, y, z⟩ : vec3 ℝ)).orientation
      (particle_at (⟨x, y, z⟩ : vec3 ℝ)).typ)
  have hplane : (∀ wall ∈ (plane_field ℝ particles).m_Planes,
      (ShapeSphere.overloads Real.sqrt).test_confined_plane wall
        (spheres_of_diameter_two (particle_at (⟨x, y, z⟩ : vec3 ℝ)).orientation
          (particle_at (⟨x, y, z⟩ : vec3 ℝ)).typ)
        (particle_at ⟨x, y, z⟩).position (plane_field ℝ particles).m_pdata.origin
        (plane_field ℝ particles).m_pdata.globalBox = true) ↔ 1 < z := by
    simp only [plane_field, List.mem_singleton, forall_eq, ShapeSphere.overloads,
      test_confined_PlaneWall_ShapeSphere, open_box, vec3.sub, dot, particle_at,
      spheres_of_diameter_two, ShapeSphere.getCircumsphereDiameter, id]
    norm_num
    intro hz
    linarith
  have hrest : (∀ wall ∈ (plane_field ℝ particles).m_Spheres,
      (ShapeSphere.overloads Real.sqrt).test_confined_sphere wall
        (spheres_of_diameter_two (particle_at (⟨x, y, z⟩ : vec3 ℝ)).orientation
          (particle_at (⟨x, y, z⟩ : vec3 ℝ)).typ)
        (particle_at ⟨x, y, z⟩).position (plane_field ℝ particles).m_pdata.origin
        (plane_field ℝ particles).m_pdata.globalBox = true) ∧
      (∀ wall ∈ (plane_field ℝ particles).m_Cylinders,
        (ShapeSphere.overloads Real.sqrt).test_confined_cylinder
          (set_cylinder_wall_verts (ShapeSphere.overloads Real.sqrt) wall
            (spheres_of_diameter_two (particle_at (⟨x, y, z⟩ : vec3 ℝ)).orientation
              (particle_at (⟨x, y, z⟩ : vec3 ℝ)).typ))
          (spheres_of_diameter_two (particle_at (⟨x, y, z⟩ : vec3 ℝ)).orientation
            (particle_at (⟨x, y, z⟩ : vec3 ℝ)).typ)
          (particle_at ⟨x, y, z⟩).position (plane_field ℝ particles).m_pdata.origin
          (plane_field ℝ particles).m_pdata.globalBox = true) := by
    constructor <;> intro wall hwall <;> simp [plane_field] at hwall
  constructor
  · intro h0
    by_contra hz
    have := h1.mpr ⟨hrest.1, hrest.2, hplane.mpr (not_le.mp hz)⟩
    rw [h0] at this
    exact zero_ne_one this
  · intro hz
    rcases h01 with h | h
    · exact h
    · exact absurd (hplane.mp (h1.mp h).2.2) (not_lt.mpr hz)

/-- C13, the scenario of the spec, in the field with the plane wall `z > 0` and spheres of
diameter 2: with one violating particle of two the count is 1; with two violating particles the
count is 1 with early exit, not 2, and 2 without. -/
theorem countOverlaps_eq_witness :
    ((plane_field ℝ [particle_at ⟨0, 0, 5⟩, particle_at ⟨0, 0, 0.5⟩]).countOverlaps
        (ShapeSphere.overloads Real.sqrt) spheres_of_diameter_two 0 false).1 = 1 ∧
      ((plane_field ℝ [particle_at ⟨0, 0, 0.5⟩, particle_at ⟨0, 0, 0.2⟩]).countOverlaps
        (ShapeSphere.overloads Real.sqrt) spheres_of_diameter_two 0 true).1 = 1 ∧
      ((plane_field ℝ [particle_at ⟨0, 0, 0.5⟩, particle_at ⟨0, 0, 0.2⟩]).countOverlaps
        (ShapeSphere.overloads Real.sqrt) spheres_of_diameter_two 0 false).1 = 2 := by
  have hA := countOverlaps_eq (ShapeSphere.overloads Real.sqrt) spheres_of_diameter_two
    (plane_field ℝ [particle_at ⟨0, 0, 5⟩, particle_at ⟨0, 0, 0.5⟩]) 0
    (by simp [plane_field])
  have hB := countOverlaps_eq (ShapeSphere.overloads Real.sqrt) spheres_of_diameter_two
    (plane_field ℝ [particle_at ⟨0, 0, 0.5⟩, particle_at ⟨0, 0, 0.2⟩]) 0
    (by simp [plane_field])
  have h5 : ¬ ((5 : ℝ) ≤ 1) := by norm_num
  have h05 : (0.5 : ℝ) ≤ 1 := by norm_num
  have h02 : (0.2 : ℝ) ≤ 1 := by norm_num
  refine ⟨?_, ?_, ?_⟩
  · rw [hA.1]
    have hpart : (plane_field ℝ [particle_at ⟨0, 0, 5⟩, particle_at ⟨0, 0, 0.5⟩]).m_pdata.particles
        = [particle_at ⟨0, 0, 5⟩, particle_at ⟨0, 0, 0.5⟩] := rfl
    rw [hpart]
    simp only [List.enum, List.enumFrom, List.countP_cons, List.countP_nil,
      plane_field_violates_iff, h5, h05, if_true, if_false]
  · rw [hB.2]
    have hpart :
        (plane_field ℝ [particle_at ⟨0, 0, 0.5⟩, particle_at ⟨0, 0, 0.2⟩]).m_pdata.particles
        = [particle_at ⟨0, 0, 0.5⟩, particle_at ⟨0, 0, 0.2⟩] := rfl
    rw [hpart]
    simp only [List.enum, List.enumFrom, List.countP_cons, List.countP_nil,
      plane_field_violates_iff, h05, h02, if_true]
    decide
  · rw [hB.1]
    have hpart :
        (plane_field ℝ [particle_at ⟨0, 0, 0.5⟩, particle_at ⟨0, 0, 0.2⟩]).m_pdata.particles
        = [particle_at ⟨0, 0, 0.5⟩, particle_at ⟨0, 0, 0.2⟩] := rfl
    rw [hpart]
    simp only [List.enum, List.enumFrom, List.countP_cons, List.countP_nil,
      plane_field_violates_iff, h05, h02, if_true]

/-! ## Rescaling -/

/-- Scaling a sphere wall by 1 leaves it as it is. -/
theorem sphere_wall_scale_one {α : Type} [LinearOrderedField α] (wall : SphereWall α) :
    wall.scale 1 = wall := by
  obtain ⟨rsq, inside, origin, verts⟩ := wall
  obtain ⟨x, y, z⟩ := origin
  simp [SphereWall.scale, vec3.smul]

/-- Scaling a cylinder wall by 1 leaves it as it is. -/
theorem cylinder_wall_scale_one {α : Type} [LinearOrderedField α] (wall : CylinderWall α) :
    wall.scale 1 = wall := by
  obtain ⟨rsq, inside, origin, orientation, verts⟩ := wall
  obtain ⟨x, y, z⟩ := origin
  simp [CylinderWall.scale, vec3.smul]

/-- Scaling a plane wall by 1 leaves it as it is. -/
theorem plane_wall_scale_one {α : Type} [LinearOrderedField α] (wall : PlaneWall α) :
    wall.scale 1 = wall := by
  obtain ⟨normal, origin, inside, d⟩ := wall
  obtain ⟨x, y, z⟩ := origin
  simp [PlaneWall.scale, vec3.smul]

/-- C14: when the volume of the global box equals the volume of the tracked box (both
positive), `scaleWalls` leaves every sphere, cylinder and plane wall, in every field of the
wall, and the volume accumulator `m_Volume` unchanged. -/
theorem scaleWalls_same_volume (getVolume : BoxDim ℝ → ℝ) (self : ExternalFieldWall ℝ)
    (heq : getVolume self.m_pdata.globalBox = getVolume self.m_box)
    (hpos : 0 < getVolume self.m_box) :
    (self.scaleWalls Real.rpow getVolume).m_Spheres = self.m_Spheres ∧
      (self.scaleWalls Real.rpow getVolume).m_Cylinders = self.m_Cylinders ∧
      (self.scaleWalls Real.rpow getVolume).m_Planes = self.m_Planes ∧
      (self.scaleWalls Real.rpow getVolume).m_Volume = self.m_Volume := by
  have hratio : getVolume self.m_pdata.globalBox / getVolume self.m_box = 1 := by
    rw [heq]
    exact div_self (ne_of_gt hpos)
  have hone : Real.rpow 1 (1 / 3) = 1 := Real.one_rpow _
  simp only [ExternalFieldWall.scaleWalls, hratio, hone, mul_one, sphere_wall_scale_one,
    cylinder_wall_scale_one, plane_wall_scale_one, List.map_id', and_self]

/-- C14 at a concrete input: for the field `example_field`, whose global box and tracked box
both have volume 1, `scaleWalls` changes no wall and not the volume. -/
theorem scaleWalls_same_volume_witness :
    ((example_field ℝ Real.sqrt).scaleWalls Real.rpow edge_product).m_Spheres
        = (example_field ℝ Real.sqrt).m_Spheres ∧
      ((example_field ℝ Real.sqrt).scaleWalls Real.rpow edge_product).m_Cylinders
        = (example_field ℝ Real.sqrt).m_Cylinders ∧
      ((example_field ℝ Real.sqrt).scaleWalls Real.rpow edge_product).m_Planes
        = (example_field ℝ Real.sqrt).m_Planes ∧
      ((example_field ℝ Real.sqrt).scaleWalls Real.rpow edge_product).m_Volume
        = (example_field ℝ Real.sqrt).m_Volume :=
  scaleWalls_same_volume edge_product (example_field ℝ Real.sqrt) rfl
    (by norm_num [edge_product, example_field, open_box])

/-- C15: with `alpha = pow(newVolume / oldVolume, 1/3)`, `scaleWalls` multiplies `m_Volume` by
`newVolume / oldVolume`, multiplies the `rsq` of every sphere and cylinder wall by `alpha²` and
its origin by `alpha`, multiplies the origin and `d` of every plane wall by `alpha`, leaves every
inside flag, cylinder orientation, plane normal and the number of walls of each kind unchanged,
and sets the tracked box to the global box. -/
theorem scaleWalls_spec {α : Type} [LinearOrderedField α] (pow : α → α → α)
    (getVolume : BoxDim α → α) (self : ExternalFieldWall α) (alpha : α)
    (halpha : alpha = pow (getVolume self.m_pdata.globalBox / getVolume self.m_box) (1 / 3)) :
    (self.scaleWalls pow getVolume).m_Volume
        = self.m_Volume * (getVolume self.m_pdata.globalBox / getVolume self.m_box) ∧
      (self.scaleWalls pow getVolume).m_box = self.m_pdata.globalBox ∧
      (self.scaleWalls pow getVolume).m_Spheres.length = self.m_Spheres.length ∧
      (self.scaleWalls pow getVolume).m_Cylinders.length = self.m_Cylinders.length ∧
      (self.scaleWalls pow getVolume).m_Planes.length = self.m_Planes.length ∧
      (∀ (i : Nat) (wall : SphereWall α), self.m_Spheres[i]? = some wall →
        ∃ scaled : SphereWall α, (self.scaleWalls pow getVolume).m_Spheres[i]? = some scaled ∧
          scaled.rsq = wall.rsq * alpha ^ 2 ∧ scaled.origin = vec3.smul alpha wall.origin ∧
          scaled.inside = wall.inside) ∧
      (∀ (i : Nat) (wall : CylinderWall α), self.m_Cylinders[i]? = some wall →
        ∃ scaled : CylinderWall α, (self.scaleWalls pow getVolume).m_Cylinders[i]? = some scaled ∧
          scaled.rsq = wall.rsq * alpha ^ 2 ∧ scaled.origin = vec3.smul alpha wall.origin ∧
          scaled.inside = wall.inside ∧ scaled.orientation = wall.orientation) ∧
      (∀ (i : Nat) (wall : PlaneWall α), self.m_Planes[i]? = some wall →
        ∃ scaled : PlaneWall α, (self.scaleWalls pow getVolume).m_Planes[i]? = some scaled ∧
          scaled.origin = vec3.smul alpha wall.origin ∧ scaled.d = wall.d * alpha ∧
          scaled.inside = wall.inside ∧ scaled.normal = wall.normal) := by
  subst halpha
  refine ⟨rfl, rfl, ?_, ?_, ?_, ?_, ?_, ?_⟩
  · simp [ExternalFieldWall.scaleWalls]
  · simp [ExternalFieldWall.scaleWalls]
  · simp [ExternalFieldWall.scaleWalls]
  · intro i wall hwall
    refine ⟨wall.scale _, ?_, ?_, rfl, rfl⟩
    · simp [ExternalFieldWall.scaleWalls, List.getElem?_map, hwall]
    · simp [SphereWall.scale, sq]
  · intro i wall hwall
    refine ⟨wall.scale _, ?_, ?_, rfl, rfl, rfl⟩
    · simp [ExternalFieldWall.scaleWalls, List.getElem?_map, hwall]
    · simp [CylinderWall.scale, sq]
  · intro i wall hwall
    refine ⟨wall.scale _, ?_, rfl, rfl, rfl, rfl⟩
    simp [ExternalFieldWall.scaleWalls, List.getElem?_map, hwall]

/-- C15 at a concrete input: the field `example_field_stale` tracks a box of volume 8 in a
global box of volume 1; `scaleWalls` multiplies its volume accumulator 3 by `1 / 8`. -/
theorem scaleWalls_spec_witness :
    ((example_field_stale ℝ Real.sqrt).scaleWalls Real.rpow edge_product).m_Volume
      = 3 * (1 / 8) :=
  (scaleWalls_spec Real.rpow edge_product (example_field_stale ℝ Real.sqrt)
    (Real.rpow (edge_product (example_field_stale ℝ Real.sqrt).m_pdata.globalBox
      / edge_product (example_field_stale ℝ Real.sqrt).m_box) (1 / 3)) rfl).1.trans
    (by norm_num [example_field_stale, edge_product, open_box])

/-! ## Wall management -/

/-- C16: for a field holding `n` sphere walls and a sphere wall `w`, after `AddSphereWall(w)`
the count is `n + 1`, `GetSphereWall(n)` succeeds and returns `w` (equal in `rsq`, `inside`,
`origin` and vertex data), `GetSphereWallParameters(n)` returns `(w.rsq, w.origin, w.inside)`,
and the walls at indices below `n` are unchanged. -/
theorem AddSphereWall_GetSphereWall {α : Type} [LinearOrderedField α]
    (self : ExternalFieldWall α) (w : SphereWall α) :
    (self.AddSphereWall w).m_Spheres.length = self.m_Spheres.length + 1 ∧
      (self.AddSphereWall w).GetSphereWall self.m_Spheres.length = Except.ok w ∧
      (self.AddSphereWall w).GetSphereWallParameters self.m_Spheres.length
        = Except.ok (w.rsq, w.origin, w.inside) ∧
      ∀ j, j < self.m_Spheres.length →
        (self.AddSphereWall w).GetSphereWall j = self.GetSphereWall j := by
  have hget : (self.AddSphereWall w).GetSphereWall self.m_Spheres.length = Except.ok w := by
    simp [ExternalFieldWall.GetSphereWall, ExternalFieldWall.AddSphereWall]
  refine ⟨?_, hget, ?_, ?_⟩
  · simp [ExternalFieldWall.AddSphereWall]
  · simp only [ExternalFieldWall.GetSphereWallParameters, hget]
  · intro j hj
    have hj1 : ¬ j ≥ (self.m_Spheres ++ [w]).length := by
      simp only [List.length_append, List.length_singleton]
      omega
    have hj2 : ¬ j ≥ self.m_Spheres.length := by omega
    simp only [ExternalFieldWall.GetSphereWall, ExternalFieldWall.AddSphereWall, hj1, hj2,
      dite_false, List.get_eq_getElem, Except.ok.injEq]
    exact List.getElem_append_left hj

/-- C17, the code at the failing input: the field reached from the empty field by
`SetSphereWalls` with one wall holds one sphere wall and, as `SetSphereWalls` leaves the labels
alone, no label; the index 0 is below the number of sphere walls, and `RemoveSphereWall(0)`,
which erases from both vectors without a test, erases at the end of the empty label vector:
its behaviour is undefined. -/
theorem RemoveSphereWall_without_label_undefined :
    ((empty_field ℚ).SetSphereWalls
        [SphereWall.new 5 ⟨0, 0, 0⟩ true (empty_verts ℚ 1)]).m_Spheres.length = 1 ∧
      ((empty_field ℚ).SetSphereWalls
        [SphereWall.new 5 ⟨0, 0, 0⟩ true (empty_verts ℚ 1)]).m_SphereLogQuantities.length
        = 0 ∧
      ((empty_field ℚ).SetSphereWalls
        [SphereWall.new 5 ⟨0, 0, 0⟩ true (empty_verts ℚ 1)]).RemoveSphereWall 0
        = CallResult.undefined := by
  refine ⟨rfl, rfl, ?_⟩
  simp [ExternalFieldWall.RemoveSphereWall, ExternalFieldWall.SetSphereWalls, empty_field]

/-- In a field whose labels are in lockstep with its walls, `RemoveSphereWall(idx)` with
`idx` below the number `n` of sphere walls returns and leaves `n - 1` sphere walls, keeps the
walls at indices `j < idx`, makes the wall at every index `j` with `idx ≤ j < n - 1` the wall
formerly at index `j + 1`, and leaves the cylinder and plane wall lists unchanged. -/
theorem RemoveSphereWall_of_lockstep {α : Type} [LinearOrderedField α]
    (self : ExternalFieldWall α) (idx : Nat) (hidx : idx < self.m_Spheres.length)
    (hlock : self.lockstep) :
    ∃ after, self.RemoveSphereWall idx = CallResult.returned after ∧
      after.m_Spheres.length = self.m_Spheres.length - 1 ∧
      (∀ j, j < idx → after.m_Spheres[j]? = self.m_Spheres[j]?) ∧
      (∀ j, idx ≤ j → j < self.m_Spheres.length - 1 →
        after.m_Spheres[j]? = self.m_Spheres[j + 1]?) ∧
      after.m_Cylinders = self.m_Cylinders ∧ after.m_Planes = self.m_Planes := by
  have hlabel : idx < self.m_SphereLogQuantities.length := by
    rw [hlock.1]
    exact hidx
  refine ⟨{ self with
    m_Spheres := self.m_Spheres.eraseIdx idx
    m_SphereLogQuantities := self.m_SphereLogQuantities.eraseIdx idx }, ?_, ?_, ?_, ?_,
    rfl, rfl⟩
  · simp [ExternalFieldWall.RemoveSphereWall, hidx, hlabel]
  · exact List.length_eraseIdx_of_lt hidx
  · intro j hj
    simp only [List.getElem?_eraseIdx, hj, if_true]
  · intro j hj _
    have hnot : ¬ j < idx := by omega
    simp only [List.getElem?_eraseIdx, hnot, if_false]

/-- C18: for each wall kind, `Get*Wall(index)` and `Set*WallParameter(index, wall)` fail with
an error if and only if `index` is at least the number of walls of that kind; a failing `Set`
leaves the field unchanged, and a succeeding `Set` puts `wall` at `index` and leaves all other
walls, of this and of the other kinds, and the wall counts unchanged. -/
theorem Get_Set_wall_bounds {α : Type} [LinearOrderedField α] (self : ExternalFieldWall α)
    (index : Nat) :
    (((∃ what, self.GetSphereWall index = Except.error what) ↔
        index ≥ self.m_Spheres.length) ∧
      ((∃ what, self.GetCylinderWall index = Except.error what) ↔
        index ≥ self.m_Cylinders.length) ∧
      ((∃ what, self.GetPlaneWall index = Except.error what) ↔
        index ≥ self.m_Planes.length)) ∧
    (∀ wall : SphereWall α,
      (index ≥ self.m_Spheres.length →
        self.SetSphereWallParameter index wall
          = CallResult.thrown "Out of bounds of sphere walls." self) ∧
      (index < self.m_Spheres.length →
        ∃ after, self.SetSphereWallParameter index wall = CallResult.returned after ∧
          after.m_Spheres[index]? = some wall ∧
          (∀ j, j ≠ index → after.m_Spheres[j]? = self.m_Spheres[j]?) ∧
          after.m_Spheres.length = self.m_Spheres.length ∧
          after.m_Cylinders = self.m_Cylinders ∧ after.m_Planes = self.m_Planes)) ∧
    (∀ wall : CylinderWall α,
      (index ≥ self.m_Cylinders.length →
        self.SetCylinderWallParameter index wall
          = CallResult.thrown "Out of bounds of cylinder walls." self) ∧
      (index < self.m_Cylinders.length →
        ∃ after, self.SetCylinderWallParameter index wall = CallResult.returned after ∧
          after.m_Cylinders[index]? = some wall ∧
          (∀ j, j ≠ index → after.m_Cylinders[j]? = self.m_Cylinders[j]?) ∧
          after.m_Cylinders.length = self.m_Cylinders.length ∧
          after.m_Spheres = self.m_Spheres ∧ after.m_Planes = self.m_Planes)) ∧
    (∀ wall : PlaneWall α,
      (index ≥ self.m_Planes.length →
        self.SetPlaneWallParameter index wall
          = CallResult.thrown "Out of bounds of plane walls." self) ∧
      (index < self.m_Planes.length →
        ∃ after, self.SetPlaneWallParameter index wall = CallResult.returned after ∧
          after.m_Planes[index]? = some wall ∧
          (∀ j, j ≠ index → after.m_Planes[j]? = self.m_Planes[j]?) ∧
          after.m_Planes.length = self.m_Planes.length ∧
          after.m_Spheres = self.m_Spheres ∧ after.m_Cylinders = self.m_Cylinders)) := by
  refine ⟨⟨?_, ?_, ?_⟩, ?_, ?_, ?_⟩
  · simp only [ExternalFieldWall.GetSphereWall]
    split_ifs with h
    · simp [h]
    · simp [h]
  · simp only [ExternalFieldWall.GetCylinderWall]
    split_ifs with h
    · simp [h]
    · simp [h]
  · simp only [ExternalFieldWall.GetPlaneWall]
    split_ifs with h
    · simp [h]
    · simp [h]
  · intro wall
    constructor
    · intro h
      simp [ExternalFieldWall.SetSphereWallParameter, h]
    · intro h
      refine ⟨{ self with m_Spheres := self.m_Spheres.set index wall }, ?_, ?_, ?_, ?_,
        rfl, rfl⟩
      · simp [ExternalFieldWall.SetSphereWallParameter, h]
      · simp [List.getElem?_set, h]
      · intro j hj
        simp [List.getElem?_set, Ne.symm hj]
      · simp
  · intro wall
    constructor
    · intro h
      simp [ExternalFieldWall.SetCylinderWallParameter, h]
    · intro h
      refine ⟨{ self with m_Cylinders := self.m_Cylinders.set index wall }, ?_, ?_, ?_, ?_,
        rfl, rfl⟩
      · simp [ExternalFieldWall.SetCylinderWallParameter, h]
      · simp [List.getElem?_set, h]
      · intro j hj
        simp [List.getElem?_set, Ne.symm hj]
      · simp
  · intro wall
    constructor
    · intro h
      simp [ExternalFieldWall.SetPlaneWallParameter, h]
    · intro h
      refine ⟨{ self with m_Planes := self.m_Planes.set index wall }, ?_, ?_, ?_, ?_,
        rfl, rfl⟩
      · simp [ExternalFieldWall.SetPlaneWallParameter, h]
      · simp [List.getElem?_set, h]
      · intro j hj
        simp [List.getElem?_set, Ne.symm hj]
      · simp

/-- C18 at a concrete input: in the field `example_field`, with one sphere wall,
`SetSphereWallParameter(1, wall)` throws and leaves the field as it is. -/
theorem Get_Set_wall_bounds_witness :
    (example_field ℝ Real.sqrt).SetSphereWallParameter 1
        (SphereWall.new 7 ⟨0, 0, 0⟩ true (empty_verts ℝ 1))
      = CallResult.thrown "Out of bounds of sphere walls." (example_field ℝ Real.sqrt) :=
  ((Get_Set_wall_bounds (example_field ℝ Real.sqrt) 1).2.1
    (SphereWall.new 7 ⟨0, 0, 0⟩ true (empty_verts ℝ 1))).1 (by simp [example_field])

/-- C19, the code at the failing input: in the field `example_field`, with one wall of each
kind and one label for the sphere wall and for the cylinder wall, `Remove*Wall(1)` erases at a
position past the end: nothing is thrown, the behaviour is undefined. -/
theorem Remove_wall_past_end_undefined :
    (example_field ℝ Real.sqrt).RemoveSphereWall 1 = CallResult.undefined ∧
      (example_field ℝ Real.sqrt).RemoveCylinderWall 1 = CallResult.undefined ∧
      (example_field ℝ Real.sqrt).RemovePlaneWall 1 = CallResult.undefined := by
  refine ⟨?_, ?_, ?_⟩
  · simp [ExternalFieldWall.RemoveSphereWall, example_field]
  · simp [ExternalFieldWall.RemoveCylinderWall, example_field]
  · simp [ExternalFieldWall.RemovePlaneWall, example_field]

/-! ## Log quantities -/

/-- The value of a decimal digit character. -/
theorem digitChar_toNat_sub (k : Nat) (hk : k < 10) : (Nat.digitChar k).toNat - 48 = k := by
  interval_cases k <;> rfl

/-- Reading back the digits that `Nat.toDigitsCore` puts in front of `ds`. -/
theorem foldl_toDigitsCore (fuel : Nat) : ∀ (n : Nat) (ds : List Char), n < fuel →
    List.foldl (fun acc (c : Char) => 10 * acc + (c.toNat - 48)) 0
        (Nat.toDigitsCore 10 fuel n ds)
      = List.foldl (fun acc (c : Char) => 10 * acc + (c.toNat - 48)) n ds := by
  induction fuel with
  | zero =>
    intro n ds h
    omega
  | succ fuel ih =>
    intro n ds h
    simp only [Nat.toDigitsCore]
    split_ifs with h0
    · simp only [List.foldl_cons, Nat.mul_zero, Nat.zero_add]
      rw [digitChar_toNat_sub _ (Nat.mod_lt _ (by norm_num))]
      congr 1
      omega
    · rw [ih (n / 10) _ (by omega)]
      simp only [List.foldl_cons]
      rw [digitChar_toNat_sub _ (Nat.mod_lt _ (by norm_num))]
      congr 1
      omega

/-- Different numbers are printed differently. -/
theorem toString_nat_injective (a b : Nat) (h : toString a = toString b) : a = b := by
  have ha := foldl_toDigitsCore (a + 1) a [] (by omega)
  have hb := foldl_toDigitsCore (b + 1) b [] (by omega)
  have hd : (toString a).data = (toString b).data := by rw [h]
  have hda : (toString a).data = Nat.toDigitsCore 10 (a + 1) a [] := rfl
  have hdb : (toString b).data = Nat.toDigitsCore 10 (b + 1) b [] := rfl
  rw [hda, hdb] at hd
  rw [hd] at ha
  simp only [List.foldl_nil] at ha hb
  omega

/-- A common beginning of two strings can be cancelled. -/
theorem string_append_left_cancel (p s t : String) (h : p ++ s = p ++ t) : s = t := by
  have hd : (p ++ s).data = (p ++ t).data := by rw [h]
  rw [String.data_append, String.data_append] at hd
  exact String.ext (List.append_cancel_left hd)

/-- The characters of the beginning of the sphere wall names. -/
theorem sph_name_data : ("hpmc_wall_sph_rsq-" : String).data
    = ['h', 'p', 'm', 'c', '_', 'w', 'a', 'l', 'l', '_', 's', 'p', 'h', '_', 'r', 's', 'q', '-'] :=
  rfl

/-- The characters of the beginning of the cylinder wall names. -/
theorem cyl_name_data : ("hpmc_wall_cyl_rsq-" : String).data
    = ['h', 'p', 'm', 'c', '_', 'w', 'a', 'l', 'l', '_', 'c', 'y', 'l', '_', 'r', 's', 'q', '-'] :=
  rfl

/-- The characters of the name of the volume. -/
theorem volume_name_data : ("hpmc_wall_volume" : String).data
    = ['h', 'p', 'm', 'c', '_', 'w', 'a', 'l', 'l', '_', 'v', 'o', 'l', 'u', 'm', 'e'] :=
  rfl

/-- The names of two sphere walls are different. -/
theorem getSphWallParamName_injective (i j : Nat)
    (h : getSphWallParamName i = getSphWallParamName j) : i = j :=
  toString_nat_injective i j (string_append_left_cancel _ _ _ h)

/-- The names of two cylinder walls are different. -/
theorem getCylWallParamName_injective (i j : Nat)
    (h : getCylWallParamName i = getCylWallParamName j) : i = j :=
  toString_nat_injective i j (string_append_left_cancel _ _ _ h)

/-- No sphere wall has the name of a cylinder wall. -/
theorem getSphWallParamName_ne_getCylWallParamName (i j : Nat) :
    getSphWallParamName i ≠ getCylWallParamName j := by
  intro h
  have hd : (getSphWallParamName i).data = (getCylWallParamName j).data := by rw [h]
  rw [getSphWallParamName, getCylWallParamName, String.data_append, String.data_append,
    sph_name_data, cyl_name_data] at hd
  simp at hd

/-- No sphere wall has the name of the volume. -/
theorem getSphWallParamName_ne_volume (i : Nat) :
    getSphWallParamName i ≠ "hpmc_wall_volume" := by
  intro h
  have hd : (getSphWallParamName i).data = ("hpmc_wall_volume" : String).data := by rw [h]
  rw [getSphWallParamName, String.data_append, sph_name_data, volume_name_data] at hd
  simp at hd

/-- No cylinder wall has the name of the volume. -/
theorem getCylWallParamName_ne_volume (i : Nat) :
    getCylWallParamName i ≠ "hpmc_wall_volume" := by
  intro h
  have hd : (getCylWallParamName i).data = ("hpmc_wall_volume" : String).data := by rw [h]
  rw [getCylWallParamName, String.data_append, cyl_name_data, volume_name_data] at hd
  simp at hd

/-- The loop over the sphere walls finds the wall whose name is asked for. -/
theorem getLogValue_spheres_name {α : Type} (walls : List (SphereWall α)) :
    ∀ (i0 k : Nat) (wall : SphereWall α), walls[k]? = some wall →
      getLogValue_spheres (getSphWallParamName (i0 + k)) walls i0 = some wall.rsq := by
  induction walls with
  | nil =>
    intro i0 k wall h
    simp at h
  | cons w rest ih =>
    intro i0 k wall h
    cases k with
    | zero =>
      simp only [List.getElem?_cons_zero, Option.some.injEq] at h
      subst h
      simp [getLogValue_spheres]
    | succ k =>
      simp only [List.getElem?_cons_succ] at h
      have hne : getSphWallParamName (i0 + (k + 1)) ≠ getSphWallParamName i0 := by
        intro hcon
        have := getSphWallParamName_injective _ _ hcon
        omega
      simp only [getLogValue_spheres, hne, if_false]
      have hidx : i0 + (k + 1) = (i0 + 1) + k := by omega
      rw [hidx]
      exact ih (i0 + 1) k wall h

/-- The loop over the sphere walls finds nothing for a name that no wall has. -/
theorem getLogValue_spheres_none {α : Type} (quantity : String) (walls : List (SphereWall α)) :
    ∀ (i0 : Nat), (∀ k, k < walls.length → quantity ≠ getSphWallParamName (i0 + k)) →
      getLogValue_spheres quantity walls i0 = none := by
  induction walls with
  | nil =>
    intro i0 _
    rfl
  | cons w rest ih =>
    intro i0 h
    have h0 := h 0 (by simp)
    simp only [Nat.add_zero] at h0
    simp only [getLogValue_spheres, h0, if_false]
    apply ih (i0 + 1)
    intro k hk
    have := h (k + 1) (by simpa using hk)
    have hidx : i0 + (k + 1) = (i0 + 1) + k := by omega
    rwa [hidx] at this

/-- The loop over the cylinder walls finds the wall whose name is asked for. -/
theorem getLogValue_cylinders_name {α : Type} (walls : List (CylinderWall α)) :
    ∀ (i0 k : Nat) (wall : CylinderWall α), walls[k]? = some wall →
      getLogValue_cylinders (getCylWallParamName (i0 + k)) walls i0 = some wall.rsq := by
  induction walls with
  | nil =>
    intro i0 k wall h
    simp at h
  | cons w rest ih =>
    intro i0 k wall h
    cases k with
    | zero =>
      simp only [List.getElem?_cons_zero, Option.some.injEq] at h
      subst h
      simp [getLogValue_cylinders]
    | succ k =>
      simp only [List.getElem?_cons_succ] at h
      have hne : getCylWallParamName (i0 + (k + 1)) ≠ getCylWallParamName i0 := by
        intro hcon
        have := getCylWallParamName_injective _ _ hcon
        omega
      simp only [getLogValue_cylinders, hne, if_false]
      have hidx : i0 + (k + 1) = (i0 + 1) + k := by omega
      rw [hidx]
      exact ih (i0 + 1) k wall h

/-- The loop over the cylinder walls finds nothing for a name that no wall has. -/
theorem getLogValue_cylinders_none {α : Type} (quantity : String)
    (walls : List (CylinderWall α)) :
    ∀ (i0 : Nat), (∀ k, k < walls.length → quantity ≠ getCylWallParamName (i0 + k)) →
      getLogValue_cylinders quantity walls i0 = none := by
  induction walls with
  | nil =>
    intro i0 _
    rfl
  | cons w rest ih =>
    intro i0 h
    have h0 := h 0 (by simp)
    simp only [Nat.add_zero] at h0
    simp only [getLogValue_cylinders, h0, if_false]
    apply ih (i0 + 1)
    intro k hk
    have := h (k + 1) (by simpa using hk)
    have hidx : i0 + (k + 1) = (i0 + 1) + k := by omega
    rwa [hidx] at this

/-- C20: `getLogValue(q, t)` returns the `rsq` of sphere wall `i` when `q` is
`hpmc_wall_sph_rsq-<i>` with `i` below the number of sphere walls, the `rsq` of cylinder wall `i`
when `q` is `hpmc_wall_cyl_rsq-<i>` with `i` below the number of cylinder walls, and `m_Volume`
(after `setVolume(v)` the value `v`) when `q` is `hpmc_wall_volume`; for every other string it
fails with an error. The three families of names do not collide: different walls have
different names, and no name belongs to two families. -/
theorem getLogValue_spec {α : Type} [LinearOrderedField α] (self : ExternalFieldWall α)
    (timestep : Nat) :
    (∀ (i : Nat) (wall : SphereWall α), self.m_Spheres[i]? = some wall →
      self.getLogValue ("hpmc_wall_sph_rsq-" ++ toString i) timestep = Except.ok wall.rsq) ∧
    (∀ (i : Nat) (wall : CylinderWall α), self.m_Cylinders[i]? = some wall →
      self.getLogValue ("hpmc_wall_cyl_rsq-" ++ toString i) timestep = Except.ok wall.rsq) ∧
    self.getLogValue "hpmc_wall_volume" timestep = Except.ok self.m_Volume ∧
    (∀ volume : α,
      (self.setVolume volume).getLogValue "hpmc_wall_volume" timestep = Except.ok volume) ∧
    (∀ quantity : String,
      (∀ i, i < self.m_Spheres.length → quantity ≠ "hpmc_wall_sph_rsq-" ++ toString i) →
      (∀ i, i < self.m_Cylinders.length → quantity ≠ "hpmc_wall_cyl_rsq-" ++ toString i) →
      quantity ≠ "hpmc_wall_volume" →
      self.getLogValue quantity timestep = Except.error "Error getting log value") ∧
    (∀ i j : Nat, "hpmc_wall_sph_rsq-" ++ toString i = "hpmc_wall_sph_rsq-" ++ toString j →
      i = j) ∧
    (∀ i j : Nat, "hpmc_wall_cyl_rsq-" ++ toString i = "hpmc_wall_cyl_rsq-" ++ toString j →
      i = j) ∧
    (∀ i j : Nat, "hpmc_wall_sph_rsq-" ++ toString i ≠ "hpmc_wall_cyl_rsq-" ++ toString j) ∧
    (∀ i : Nat, "hpmc_wall_sph_rsq-" ++ toString i ≠ "hpmc_wall_volume") ∧
    (∀ i : Nat, "hpmc_wall_cyl_rsq-" ++ toString i ≠ "hpmc_wall_volume") := by
  have hvol : ∀ field : ExternalFieldWall α,
      field.getLogValue "hpmc_wall_volume" timestep = Except.ok field.m_Volume := by
    intro field
    have hs : getLogValue_spheres "hpmc_wall_volume" field.m_Spheres 0 = none :=
      getLogValue_spheres_none _ _ 0 (fun k _ => (getSphWallParamName_ne_volume (0 + k)).symm)
    have hc : getLogValue_cylinders "hpmc_wall_volume" field.m_Cylinders 0 = none :=
      getLogValue_cylinders_none _ _ 0 (fun k _ => (getCylWallParamName_ne_volume (0 + k)).symm)
    simp only [ExternalFieldWall.getLogValue, hs, hc, if_true]
  refine ⟨?_, ?_, hvol self, ?_, ?_, getSphWallParamName_injective,
    getCylWallParamName_injective, getSphWallParamName_ne_getCylWallParamName,
    getSphWallParamName_ne_volume, getCylWallParamName_ne_volume⟩
  · intro i wall hwall
    have hs := getLogValue_spheres_name self.m_Spheres 0 i wall hwall
    rw [Nat.zero_add] at hs
    simp only [ExternalFieldWall.getLogValue]
    rw [show "hpmc_wall_sph_rsq-" ++ toString i = getSphWallParamName i from rfl, hs]
  · intro i wall hwall
    have hs : getLogValue_spheres (getCylWallParamName i) self.m_Spheres 0 = none :=
      getLogValue_spheres_none _ _ 0
        (fun k _ => (getSphWallParamName_ne_getCylWallParamName (0 + k) i).symm)
    have hc := getLogValue_cylinders_name self.m_Cylinders 0 i wall hwall
    rw [Nat.zero_add] at hc
    simp only [ExternalFieldWall.getLogValue]
    rw [show "hpmc_wall_cyl_rsq-" ++ toString i = getCylWallParamName i from rfl, hs, hc]
  · intro volume
    exact hvol (self.setVolume volume)
  · intro quantity hsph hcyl hv
    have hs : getLogValue_spheres quantity self.m_Spheres 0 = none :=
      getLogValue_spheres_none _ _ 0 (fun k hk => by
        rw [Nat.zero_add]
        exact hsph k hk)
    have hc : getLogValue_cylinders quantity self.m_Cylinders 0 = none :=
      getLogValue_cylinders_none _ _ 0 (fun k hk => by
        rw [Nat.zero_add]
        exact hcyl k hk)
    simp only [ExternalFieldWall.getLogValue, hs, hc, hv, if_false]

/-- C20 at a concrete input: in the field `example_field`, the name `hpmc_wall_sph_rsq-0` gives
the squared radius 25 of its sphere wall, and the name `hpmc_wall_sph_rsq-1` is an error. -/
theorem getLogValue_spec_witness :
    (example_field ℝ Real.sqrt).getLogValue "hpmc_wall_sph_rsq-0" 0 = Except.ok 25 ∧
      (example_field ℝ Real.sqrt).getLogValue "hpmc_wall_sph_rsq-1" 0
        = Except.error "Error getting log value" := by
  have h := getLogValue_spec (example_field ℝ Real.sqrt) 0
  constructor
  · have h0 := h.1 0 (SphereWall.new 5 ⟨0, 0, 0⟩ true (empty_verts ℝ 1)) rfl
    have hname : "hpmc_wall_sph_rsq-" ++ toString 0 = "hpmc_wall_sph_rsq-0" := by decide
    rw [hname] at h0
    rw [h0]
    norm_num [SphereWall.new]
  · have hname : "hpmc_wall_sph_rsq-1" = "hpmc_wall_sph_rsq-" ++ toString 1 := by decide
    apply h.2.2.2.2.1
    · intro i hi
      have hi0 : i = 0 := by
        simp only [example_field, List.length_singleton, Nat.lt_one_iff] at hi
        exact hi
      subst hi0
      rw [hname]
      intro hcon
      exact absurd (h.2.2.2.2.2.1 1 0 hcon) (by decide)
    · intro i _
      rw [hname]
      exact h.2.2.2.2.2.2.2.1 1 i
    · rw [hname]
      exact h.2.2.2.2.2.2.2.2.1 1

/-! ## Labels and walls -/

/-- C21, the code at the failing input: from the empty field, `AddSphereWall` twice and then
`RemoveSphereWall(0)` leave one sphere wall and the label `hpmc_wall_sph_rsq-1`, which
`getProvidedLogQuantities` lists and for which `getLogValue` throws. -/
theorem getProvidedLogQuantities_not_provided :
    ∃ after,
      (((empty_field ℚ).AddSphereWall
            (SphereWall.new 5 ⟨0, 0, 0⟩ true (empty_verts ℚ 1))).AddSphereWall
          (SphereWall.new 7 ⟨0, 0, 0⟩ true (empty_verts ℚ 1))).RemoveSphereWall 0
        = CallResult.returned after ∧
      after.m_Spheres.length = 1 ∧
      "hpmc_wall_sph_rsq-1" ∈ after.getProvidedLogQuantities ∧
      after.getLogValue "hpmc_wall_sph_rsq-1" 0 = Except.error "Error getting log value" := by
  have hname0 : getSphWallParamName 0 = "hpmc_wall_sph_rsq-0" := by decide
  have hname1 : getSphWallParamName 1 = "hpmc_wall_sph_rsq-1" := by decide
  have hne : ("hpmc_wall_sph_rsq-1" : String) ≠ "hpmc_wall_sph_rsq-0" := by decide
  have hnv : ("hpmc_wall_sph_rsq-1" : String) ≠ "hpmc_wall_volume" := by decide
  refine ⟨{ empty_field ℚ with
    m_Spheres := [SphereWall.new 7 ⟨0, 0, 0⟩ true (empty_verts ℚ 1)]
    m_SphereLogQuantities := ["hpmc_wall_sph_rsq-1"] }, ?_, rfl, ?_, ?_⟩
  · simp [ExternalFieldWall.RemoveSphereWall, ExternalFieldWall.AddSphereWall, empty_field,
      hname0, hname1]
  · simp [ExternalFieldWall.getProvidedLogQuantities]
  · simp [ExternalFieldWall.getLogValue, getLogValue_spheres, getLogValue_cylinders, empty_field,
      hname0, hne, hnv]

/-- C22, the code at the failing input: the empty field is in lockstep, and after
`SetSphereWalls` with one wall, or `SetCylinderWalls` with one wall, it is not: the wall list
has one entry and the label list none. -/
theorem SetSphereWalls_breaks_lockstep :
    (empty_field ℝ).lockstep ∧
      ¬ ((empty_field ℝ).SetSphereWalls
        [SphereWall.new 5 ⟨0, 0, 0⟩ true (empty_verts ℝ 1)]).lockstep ∧
      ¬ ((empty_field ℝ).SetCylinderWalls
        [CylinderWall.new Real.sqrt 5 ⟨0, 0, 0⟩ ⟨0, 0, 1⟩ true (empty_verts ℝ 2)]).lockstep := by
  refine ⟨⟨rfl, rfl⟩, ?_, ?_⟩
  · simp [ExternalFieldWall.lockstep, ExternalFieldWall.SetSphereWalls, empty_field]
  · simp [ExternalFieldWall.lockstep, ExternalFieldWall.SetCylinderWalls, empty_field]

/-- The other mutators keep the lockstep: `AddSphereWall`, `AddCylinderWall`, `AddPlaneWall`,
`RemoveSphereWall` and `RemoveCylinderWall` when they return, and the three
`Set*WallParameter`. -/
theorem lockstep_of_add_remove_set {α : Type} [LinearOrderedField α]
    (self : ExternalFieldWall α) (h : self.lockstep) :
    (∀ wall, (self.AddSphereWall wall).lockstep) ∧
    (∀ wall, (self.AddCylinderWall wall).lockstep) ∧
    (∀ wall, (self.AddPlaneWall wall).lockstep) ∧
    (∀ index after, self.RemoveSphereWall index = CallResult.returned after → after.lockstep) ∧
    (∀ index after, self.RemoveCylinderWall index = CallResult.returned after →
      after.lockstep) ∧
    (∀ index wall after, self.SetSphereWallParameter index wall = CallResult.returned after →
      after.lockstep) ∧
    (∀ index wall after, self.SetCylinderWallParameter index wall = CallResult.returned after →
      after.lockstep) ∧
    (∀ index wall after, self.SetPlaneWallParameter index wall = CallResult.returned after →
      after.lockstep) := by
  obtain ⟨hs, hc⟩ := h
  refine ⟨?_, ?_, ?_, ?_, ?_, ?_, ?_, ?_⟩
  · intro wall
    exact ⟨by simp [ExternalFieldWall.AddSphereWall, hs], hc⟩
  · intro wall
    exact ⟨hs, by simp [ExternalFieldWall.AddCylinderWall, hc]⟩
  · intro wall
    exact ⟨hs, hc⟩
  · intro index after hret
    simp only [ExternalFieldWall.RemoveSphereWall] at hret
    split_ifs at hret with hidx
    simp only [CallResult.returned.injEq] at hret
    subst hret
    refine ⟨?_, hc⟩
    simp only [List.length_eraseIdx_of_lt hidx.1, List.length_eraseIdx_of_lt hidx.2, hs]
  · intro index after hret
    simp only [ExternalFieldWall.RemoveCylinderWall] at hret
    split_ifs at hret with hidx
    simp only [CallResult.returned.injEq] at hret
    subst hret
    refine ⟨hs, ?_⟩
    simp only [List.length_eraseIdx_of_lt hidx.1, List.length_eraseIdx_of_lt hidx.2, hc]
  · intro index wall after hret
    simp only [ExternalFieldWall.SetSphereWallParameter] at hret
    split_ifs at hret
    simp only [CallResult.returned.injEq] at hret
    subst hret
    exact ⟨by simp [hs], hc⟩
  · intro index wall after hret
    simp only [ExternalFieldWall.SetCylinderWallParameter] at hret
    split_ifs at hret
    simp only [CallResult.returned.injEq] at hret
    subst hret
    exact ⟨hs, by simp [hc]⟩
  · intro index wall after hret
    simp only [ExternalFieldWall.SetPlaneWallParameter] at hret
    split_ifs at hret
    simp only [CallResult.returned.injEq] at hret
    subst hret
    exact ⟨hs, hc⟩

/-! ## Constructors and vertex records -/

/-- A vector that is not zero has a positive squared norm. -/
theorem dot_self_pos_of_ne_zero {α : Type} [LinearOrderedField α] (a : vec3 α)
    (h : a ≠ ⟨0, 0, 0⟩) : 0 < dot a a := by
  rcases lt_or_eq_of_le (dot_self_nonneg a) with hlt | heq
  · exact hlt
  · exfalso
    apply h
    obtain ⟨x, y, z⟩ := a
    simp only [dot] at heq
    have hx : x = 0 := by nlinarith [mul_self_nonneg x, mul_self_nonneg y, mul_self_nonneg z]
    have hy : y = 0 := by nlinarith [mul_self_nonneg x, mul_self_nonneg y, mul_self_nonneg z]
    have hz : z = 0 := by nlinarith [mul_self_nonneg x, mul_self_nonneg y, mul_self_nonneg z]
    rw [hx, hy, hz]

/-- A vector that is not zero, divided by its norm, has squared norm 1. -/
theorem dot_sdiv_sqrt_self (a : vec3 ℝ) (h : a ≠ ⟨0, 0, 0⟩) :
    dot (a.sdiv (Real.sqrt (dot a a))) (a.sdiv (Real.sqrt (dot a a))) = 1 := by
  have hpos := dot_self_pos_of_ne_zero a h
  have hL : 0 < Real.sqrt (dot a a) := Real.sqrt_pos.mpr hpos
  have hLL : Real.sqrt (dot a a) * Real.sqrt (dot a a) = dot a a :=
    Real.mul_self_sqrt (le_of_lt hpos)
  generalize Real.sqrt (dot a a) = L at hL hLL
  simp only [dot, vec3.sdiv] at hLL ⊢
  field_simp
  linarith

/-- C23: for a normal vector `nvec` that is not zero and a point `pt`, the constructed plane
wall has a normal of unit length parallel to `nvec`, the origin `pt` and an offset `d` with
`normal·pt + d = 0`; `PlaneWall::scale(alpha)` keeps the normal, and keeps
`normal·origin + d = 0`, for every `alpha` and every plane wall for which it holds. -/
theorem PlaneWall_invariant (nvec pt : vec3 ℝ) (ins : Bool) (hnvec : nvec ≠ ⟨0, 0, 0⟩) :
    dot (PlaneWall.new Real.sqrt nvec pt ins).normal (PlaneWall.new Real.sqrt nvec pt ins).normal
        = 1 ∧
      (∃ c : ℝ, 0 < c ∧ (PlaneWall.new Real.sqrt nvec pt ins).normal = vec3.smul c nvec) ∧
      (PlaneWall.new Real.sqrt nvec pt ins).origin = pt ∧
      dot (PlaneWall.new Real.sqrt nvec pt ins).normal pt
        + (PlaneWall.new Real.sqrt nvec pt ins).d = 0 ∧
      (∀ (wall : PlaneWall ℝ) (alpha : ℝ),
        (wall.scale alpha).normal = wall.normal ∧
        (dot wall.normal wall.origin + wall.d = 0 →
          dot (wall.scale alpha).normal (wall.scale alpha).origin + (wall.scale alpha).d
            = 0)) := by
  have hpos := dot_self_pos_of_ne_zero nvec hnvec
  have hL : 0 < Real.sqrt (dot nvec nvec) := Real.sqrt_pos.mpr hpos
  refine ⟨dot_sdiv_sqrt_self nvec hnvec, ⟨1 / Real.sqrt (dot nvec nvec), by positivity, ?_⟩,
    rfl, ?_, ?_⟩
  · simp only [PlaneWall.new, vec3.sdiv, vec3.smul, vec3.mk.injEq]
    refine ⟨?_, ?_, ?_⟩ <;> ring
  · simp only [PlaneWall.new]
    ring
  · intro wall alpha
    refine ⟨rfl, fun h => ?_⟩
    simp only [PlaneWall.scale, dot, vec3.smul] at h ⊢
    linear_combination alpha * h

/-- C23 at a concrete input: the plane wall built from the normal vector `(0, 0, 2)` and the
point `(0, 0, 3)` has a unit normal. -/
theorem PlaneWall_invariant_witness :
    dot (PlaneWall.new Real.sqrt ⟨0, 0, 2⟩ ⟨0, 0, 3⟩ true).normal
      (PlaneWall.new Real.sqrt ⟨0, 0, 2⟩ ⟨0, 0, 3⟩ true).normal = 1 :=
  (PlaneWall_invariant ⟨0, 0, 2⟩ ⟨0, 0, 3⟩ true (by simp)).1

/-- C24: for every radius `r`, origin, axis vector `orient` that is not zero and flag `ins`, the
constructed cylinder wall stores `rsq = r * r`, the origin, `inside = ins`, an orientation of
unit length equal to `orient / |orient|`, and a vertex record with `N = 2`, `sweep_radius = r`
and `ignore = 0`. -/
theorem CylinderWall_new_spec (r : ℝ) (orig orient : vec3 ℝ) (ins : Bool)
    (verts0 : poly3d_verts ℝ 2) (horient : orient ≠ ⟨0, 0, 0⟩) :
    (CylinderWall.new Real.sqrt r orig orient ins verts0).rsq = r * r ∧
      (CylinderWall.new Real.sqrt r orig orient ins verts0).origin = orig ∧
      (CylinderWall.new Real.sqrt r orig orient ins verts0).inside = ins ∧
      (CylinderWall.new Real.sqrt r orig orient ins verts0).orientation
        = orient.sdiv (Real.sqrt (dot orient orient)) ∧
      dot (CylinderWall.new Real.sqrt r orig orient ins verts0).orientation
        (CylinderWall.new Real.sqrt r orig orient ins verts0).orientation = 1 ∧
      (CylinderWall.new Real.sqrt r orig orient ins verts0).verts.N = 2 ∧
      (CylinderWall.new Real.sqrt r orig orient ins verts0).verts.sweep_radius = r ∧
      (CylinderWall.new Real.sqrt r orig orient ins verts0).verts.ignore = 0 :=
  ⟨rfl, rfl, rfl, rfl, dot_sdiv_sqrt_self orient horient, rfl, rfl, rfl⟩

/-- C24 at a concrete input: the cylinder wall built from the axis vector `(0, 0, 2)` has an
orientation of unit length. -/
theorem CylinderWall_new_spec_witness :
    dot (CylinderWall.new Real.sqrt 5 ⟨0, 0, 0⟩ ⟨0, 0, 2⟩ true (empty_verts ℝ 2)).orientation
      (CylinderWall.new Real.sqrt 5 ⟨0, 0, 0⟩ ⟨0, 0, 2⟩ true (empty_verts ℝ 2)).orientation
      = 1 :=
  (CylinderWall_new_spec 5 ⟨0, 0, 0⟩ ⟨0, 0, 2⟩ true (empty_verts ℝ 2) (by simp)).2.2.2.2.1

/-- C27: after `set_cylinder_wall_verts(wall, shape)` with `D` the circumsphere diameter of the
shape, vertex 1 of the wall is `D * orientation` and vertex 0 is `-D * orientation`, so the two
are antipodal; with a unit orientation each lies at squared distance `D²`, that is at distance
`|D|` (which is `D` for `D ≥ 0`), from the origin; the diameter of the record is
`2 * (D + sweep_radius)`; and `N`, `sweep_radius`, `rsq`, `origin`, `orientation` and `inside`
are unchanged. -/
theorem set_cylinder_wall_verts_spec {Shape : Type} (ops : ShapeOverloads ℝ Shape)
    (wall : CylinderWall ℝ) (shape : Shape) :
    (⟨(set_cylinder_wall_verts ops wall shape).verts.x 1,
        (set_cylinder_wall_verts ops wall shape).verts.y 1,
        (set_cylinder_wall_verts ops wall shape).verts.z 1⟩ : vec3 ℝ)
      = vec3.smul (ops.getCircumsphereDiameter shape) wall.orientation ∧
    (⟨(set_cylinder_wall_verts ops wall shape).verts.x 0,
        (set_cylinder_wall_verts ops wall shape).verts.y 0,
        (set_cylinder_wall_verts ops wall shape).verts.z 0⟩ : vec3 ℝ)
      = (vec3.smul (ops.getCircumsphereDiameter shape) wall.orientation).neg ∧
    (dot wall.orientation wall.orientation = 1 →
      dot (vec3.smul (ops.getCircumsphereDiameter shape) wall.orientation)
          (vec3.smul (ops.getCircumsphereDiameter shape) wall.orientation)
        = ops.getCircumsphereDiameter shape * ops.getCircumsphereDiameter shape ∧
      dot (vec3.smul (ops.getCircumsphereDiameter shape) wall.orientation).neg
          (vec3.smul (ops.getCircumsphereDiameter shape) wall.orientation).neg
        = ops.getCircumsphereDiameter shape * ops.getCircumsphereDiameter shape ∧
      Real.sqrt (dot (vec3.smul (ops.getCircumsphereDiameter shape) wall.orientation)
          (vec3.smul (ops.getCircumsphereDiameter shape) wall.orientation))
        = |ops.getCircumsphereDiameter shape| ∧
      (0 ≤ ops.getCircumsphereDiameter shape →
        Real.sqrt (dot (vec3.smul (ops.getCircumsphereDiameter shape) wall.orientation)
            (vec3.smul (ops.getCircumsphereDiameter shape) wall.orientation))
          = ops.getCircumsphereDiameter shape)) ∧
    (set_cylinder_wall_verts ops wall shape).verts.diameter
      = 2 * (ops.getCircumsphereDiameter shape + wall.verts.sweep_radius) ∧
    (set_cylinder_wall_verts ops wall shape).verts.N = wall.verts.N ∧
    (set_cylinder_wall_verts ops wall shape).verts.sweep_radius = wall.verts.sweep_radius ∧
    (set_cylinder_wall_verts ops wall shape).rsq = wall.rsq ∧
    (set_cylinder_wall_verts ops wall shape).origin = wall.origin ∧
    (set_cylinder_wall_verts ops wall shape).orientation = wall.orientation ∧
    (set_cylinder_wall_verts ops wall shape).inside = wall.inside := by
  refine ⟨?_, ?_, ?_, rfl, rfl, rfl, rfl, rfl, rfl, rfl⟩
  · simp [set_cylinder_wall_verts, vec3.smul]
  · simp [set_cylinder_wall_verts, vec3.smul, vec3.neg]
  · intro hn
    have hsq : dot (vec3.smul (ops.getCircumsphereDiameter shape) wall.orientation)
        (vec3.smul (ops.getCircumsphereDiameter shape) wall.orientation)
        = ops.getCircumsphereDiameter shape * ops.getCircumsphereDiameter shape := by
      simp only [dot, vec3.smul] at hn ⊢
      linear_combination
        (ops.getCircumsphereDiameter shape * ops.getCircumsphereDiameter shape) * hn
    have hneg : dot (vec3.smul (ops.getCircumsphereDiameter shape) wall.orientation).neg
        (vec3.smul (ops.getCircumsphereDiameter shape) wall.orientation).neg
        = ops.getCircumsphereDiameter shape * ops.getCircumsphereDiameter shape := by
      rw [← hsq]
      simp only [dot, vec3.neg]
      ring
    refine ⟨hsq, hneg, ?_, ?_⟩
    · rw [hsq]
      exact Real.sqrt_mul_self_eq_abs _
    · intro hD
      rw [hsq]
      exact Real.sqrt_mul_self hD

/-- C27 at a concrete input: for the cylinder wall along the `z` axis and a sphere of diameter
2, the vertices are set to `(0, 0, 2)` and `(0, 0, -2)` and lie at distance 2 from the
origin. -/
theorem set_cylinder_wall_verts_spec_witness :
    Real.sqrt (dot
        (vec3.smul ((ShapeSphere.overloads Real.sqrt).getCircumsphereDiameter
          (sphere_of_diameter 2))
          (CylinderWall.new Real.sqrt 5 ⟨0, 0, 0⟩ ⟨0, 0, 1⟩ true (empty_verts ℝ 2)).orientation)
        (vec3.smul ((ShapeSphere.overloads Real.sqrt).getCircumsphereDiameter
          (sphere_of_diameter 2))
          (CylinderWall.new Real.sqrt 5 ⟨0, 0, 0⟩ ⟨0, 0, 1⟩ true (empty_verts ℝ 2)).orientation))
      = (ShapeSphere.overloads Real.sqrt).getCircumsphereDiameter (sphere_of_diameter 2) :=
  ((set_cylinder_wall_verts_spec (ShapeSphere.overloads Real.sqrt)
    (CylinderWall.new Real.sqrt 5 ⟨0, 0, 0⟩ ⟨0, 0, 1⟩ true (empty_verts ℝ 2))
    (sphere_of_diameter 2)).2.2.1
    (by norm_num [CylinderWall.new, vec3.sdiv, dot])).2.2.2
    (by norm_num [ShapeSphere.overloads, ShapeSphere.getCircumsphereDiameter,
      sphere_of_diameter])

/-- C28: `cast_poly3d_verts<old_max, new_max>` with `old_verts.N ≤ old_max ≤ new_max` returns a
record with the same `N`, `diameter`, `sweep_radius` and `ignore`, whose vertex `i` is the old
vertex `i` for every `i < N` and `(0, 0, 0)` for every `N ≤ i < new_max`; every index at which
`old_verts` is read is below its capacity. -/
theorem cast_poly3d_verts_spec {α : Type} [Zero α] {old_max_verts new_max_verts : Nat}
    (h : old_max_verts ≤ new_max_verts) (old_verts : poly3d_verts α old_max_verts) :
    (cast_poly3d_verts h old_verts).N = old_verts.N ∧
      (cast_poly3d_verts h old_verts).diameter = old_verts.diameter ∧
      (cast_poly3d_verts h old_verts).sweep_radius = old_verts.sweep_radius ∧
      (cast_poly3d_verts h old_verts).ignore = old_verts.ignore ∧
      (∀ (i : Nat) (hi : i < old_verts.N),
        (cast_poly3d_verts h old_verts).vertex i hi = old_verts.vertex i hi) ∧
      (∀ i : Fin new_max_verts, old_verts.N ≤ i.val →
        (cast_poly3d_verts h old_verts).x i = 0 ∧ (cast_poly3d_verts h old_verts).y i = 0 ∧
          (cast_poly3d_verts h old_verts).z i = 0) ∧
      (∀ i : Fin new_max_verts, i.val < old_verts.N → i.val < old_max_verts) := by
  refine ⟨rfl, rfl, rfl, rfl, ?_, ?_, ?_⟩
  · intro i hi
    simp [cast_poly3d_verts, poly3d_verts.vertex, hi]
  · intro i hi
    have hnot : ¬ i.val < old_verts.N := Nat.not_lt.mpr hi
    simp [cast_poly3d_verts, hnot]
  · intro i hi
    exact lt_of_lt_of_le hi old_verts.N_le

/-- C28 at a concrete input: the record with the single vertex `(3, 4, 5)`, cast from capacity
1 to capacity 4, keeps the vertex at index 0 and has zeros at index 2. -/
theorem cast_poly3d_verts_spec_witness :
    (cast_poly3d_verts (by decide : 1 ≤ 4) (point_verts ℚ)).vertex 0 (by decide)
        = ⟨3, 4, 5⟩ ∧
      (cast_poly3d_verts (by decide : 1 ≤ 4) (point_verts ℚ)).x 2 = 0 :=
  ⟨(cast_poly3d_verts_spec (by decide : 1 ≤ 4) (point_verts ℚ)).2.2.2.2.1 0 (by decide),
    ((cast_poly3d_verts_spec (by decide : 1 ≤ 4) (point_verts ℚ)).2.2.2.2.2.1 2
      (by decide)).1⟩

/-! ## Symmetry of the cylinder axis and frame of `boltzmann` -/

/-- The squared norm of the cross product with the axis does not see the sign of the axis. -/
theorem dot_cross_neg {α : Type} [LinearOrderedField α] (p n : vec3 α) :
    dot (cross p n.neg) (cross p n.neg) = dot (cross p n) (cross p n) := by
  simp only [dot, cross, vec3.neg]
  ring

/-- C29: the sign of the axis of a cylinder wall has no meaning: replacing `orientation` by
its negation leaves the result of `test_confined` unchanged for every sphere, under an inside or
an outside constraint, and for every convex polyhedron under an inside constraint, at every
position. -/
theorem test_confined_CylinderWall_axis_sign {α : Type} [LinearOrderedField α] (sqrt : α → α)
    (wall : CylinderWall α) (position box_origin : vec3 α) (box : BoxDim α) :
    (∀ shape : ShapeSphere α,
      test_confined_CylinderWall_ShapeSphere sqrt
          { wall with orientation := wall.orientation.neg } shape position box_origin box
        = test_confined_CylinderWall_ShapeSphere sqrt wall shape position box_origin box) ∧
    (∀ (max_verts : Nat)
      (test_overlap : vec3 α → ShapeSpheropolyhedron α max_verts →
        ShapeSpheropolyhedron α max_verts → Nat → Bool × Nat)
      (hcap : 2 ≤ max_verts) (shape : ShapeConvexPolyhedron α max_verts),
      wall.inside = true →
      test_confined_CylinderWall_ShapeConvexPolyhedron sqrt test_overlap hcap
          { wall with orientation := wall.orientation.neg } shape position box_origin box
        = test_confined_CylinderWall_ShapeConvexPolyhedron sqrt test_overlap hcap wall shape
          position box_origin box) := by
  constructor
  · intro shape
    simp only [test_confined_CylinderWall_ShapeSphere, dot_cross_neg]
  · intro max_verts test_overlap hcap shape hin
    simp only [test_confined_CylinderWall_ShapeConvexPolyhedron, hin, dot_cross_neg, if_true]

/-- C29 at a concrete input: the polyhedron with vertices `(±1, 0, 0)` at `(3.5, 0, 0)` inside
the cylinder wall of radius 5 along `z`, and along `-z`. -/
theorem test_confined_CylinderWall_axis_sign_witness :
    test_confined_CylinderWall_ShapeConvexPolyhedron Real.sqrt no_overlap (le_refl 2)
        { CylinderWall.new Real.sqrt 5 ⟨0, 0, 0⟩ ⟨0, 0, 1⟩ true (empty_verts ℝ 2) with
          orientation :=
            (CylinderWall.new Real.sqrt 5 ⟨0, 0, 0⟩ ⟨0, 0, 1⟩ true
              (empty_verts ℝ 2)).orientation.neg }
        (segment_polyhedron ℝ) ⟨3.5, 0, 0⟩ ⟨0, 0, 0⟩ (open_box ℝ)
      = test_confined_CylinderWall_ShapeConvexPolyhedron Real.sqrt no_overlap (le_refl 2)
        (CylinderWall.new Real.sqrt 5 ⟨0, 0, 0⟩ ⟨0, 0, 1⟩ true (empty_verts ℝ 2))
        (segment_polyhedron ℝ) ⟨3.5, 0, 0⟩ ⟨0, 0, 0⟩ (open_box ℝ) :=
  (test_confined_CylinderWall_axis_sign Real.sqrt
    (CylinderWall.new Real.sqrt 5 ⟨0, 0, 0⟩ ⟨0, 0, 1⟩ true (empty_verts ℝ 2))
    ⟨3.5, 0, 0⟩ ⟨0, 0, 0⟩ (open_box ℝ)).2 2 no_overlap (le_refl 2) (segment_polyhedron ℝ) rfl

/-- The loop of `countOverlaps` leaves a field with the parameters of the field it started
with. -/
theorem countOverlaps_loop_same_parameters {α : Type} [LinearOrderedField α] [FloorRing α]
    {Shape : Type} (ops : ShapeOverloads α Shape) (shape_of : quat α → Nat → Shape)
    (early_exit : Bool) (self : ExternalFieldWall α) (particles : List (Particle α)) :
    ∀ (i : Nat) (cur : ExternalFieldWall α) (numOverlaps : Nat), cur.same_parameters self →
      (countOverlaps_loop ops shape_of early_exit particles i cur numOverlaps).2.same_parameters
        self := by
  induction particles with
  | nil =>
    intro i cur numOverlaps hcur
    exact hcur
  | cons particle rest ih =>
    intro i cur numOverlaps hcur
    have hnext := field_same_parameters_trans
      (boltzmann_snd_same_parameters ops cur i particle.position
        (shape_of particle.orientation particle.typ) particle.position
        (shape_of particle.orientation particle.typ)) hcur
    simp only [countOverlaps_loop]
    split_ifs
    · exact hnext
    · exact ih (i + 1) _ _ hnext

/-- C30: an evaluation of `boltzmann`, of `accept` or of `countOverlaps` changes no confinement
parameter of the field: the box and the origin, every sphere wall and every plane wall, the
number of cylinder walls and, of every cylinder wall, `rsq`, `inside`, `origin`, `orientation`
and the `N`, `sweep_radius` and `ignore` of its vertex record are the same before and after; only
the vertex coordinates and the diameter of the records of the cylinder walls may change. -/
theorem boltzmann_frame {α : Type} [LinearOrderedField α] [FloorRing α] {Shape Saru : Type}
    (ops : ShapeOverloads α Shape) (self : ExternalFieldWall α) (index : Nat)
    (position_old : vec3 α) (shape_old : Shape) (position_new : vec3 α) (shape_new : Shape)
    (SMALL : α) (rng : Saru) (shape_of : quat α → Nat → Shape) (timestep : Nat)
    (early_exit : Bool) :
    ((self.boltzmann ops index position_old shape_old position_new shape_new).2.same_parameters
        self ∧
      (self.boltzmann ops index position_old shape_old position_new shape_new).2.m_Cylinders.length
        = self.m_Cylinders.length) ∧
    ((self.accept SMALL ops index position_old shape_old position_new shape_new
        rng).2.same_parameters self ∧
      (self.accept SMALL ops index position_old shape_old position_new shape_new
        rng).2.m_Cylinders.length = self.m_Cylinders.length) ∧
    ((self.countOverlaps ops shape_of timestep early_exit).2.same_parameters self ∧
      (self.countOverlaps ops shape_of timestep early_exit).2.m_Cylinders.length
        = self.m_Cylinders.length) := by
  have hb := boltzmann_snd_same_parameters ops self index position_old shape_old position_new
    shape_new
  have hrefl : self.same_parameters self :=
    ⟨rfl, rfl, rfl, rfl, List.forall₂_same.mpr (fun w _ => ⟨rfl, rfl, rfl, rfl, rfl, rfl, rfl⟩)⟩
  have hc := countOverlaps_loop_same_parameters ops shape_of early_exit self
    self.m_pdata.particles 0 self 0 hrefl
  exact ⟨⟨hb, hb.2.2.2.2.length_eq⟩, ⟨hb, hb.2.2.2.2.length_eq⟩, ⟨hc, hc.2.2.2.2.length_eq⟩⟩

/-! ## Convex polyhedra against cylinder walls and outside sphere walls -/

/-- The polyhedron against cylinder wall test under an inside constraint, in terms of the
minimum image of the position. -/
theorem test_confined_CylinderWall_ShapeConvexPolyhedron_inside_eq {α : Type}
    [LinearOrderedField α] {max_verts : Nat} (sqrt : α → α)
    (test_overlap : vec3 α → ShapeSpheropolyhedron α max_verts →
      ShapeSpheropolyhedron α max_verts → Nat → Bool × Nat)
    (hcap : 2 ≤ max_verts) (wall : CylinderWall α) (shape : ShapeConvexPolyhedron α max_verts)
    (position box_origin : vec3 α) (box : BoxDim α) (hin : wall.inside = true) (p : vec3 α)
    (hp : p = box.minImage ((position.sub box_origin).sub wall.origin)) :
    test_confined_CylinderWall_ShapeConvexPolyhedron sqrt test_overlap hcap wall shape position
        box_origin box =
      if wall.rsq ≤ (sqrt (dot (cross p wall.orientation) (cross p wall.orientation))
            + shape.getCircumsphereDiameter / 2)
          * (sqrt (dot (cross p wall.orientation) (cross p wall.orientation))
            + shape.getCircumsphereDiameter / 2) then
        for_verts shape.verts.N (fun v hv =>
          decide (wall.rsq >
            sqrt (dot
                (cross ((rotate shape.orientation (shape.verts.vertex v hv)).add p)
                  wall.orientation)
                (cross ((rotate shape.orientation (shape.verts.vertex v hv)).add p)
                  wall.orientation))
              * sqrt (dot
                (cross ((rotate shape.orientation (shape.verts.vertex v hv)).add p)
                  wall.orientation)
                (cross ((rotate shape.orientation (shape.verts.vertex v hv)).add p)
                  wall.orientation)))) 0 true
      else true := by
  subst hp
  simp only [test_confined_CylinderWall_ShapeConvexPolyhedron, hin, if_true, decide_eq_true_eq,
    vec3.sub]

/-- The cross product is additive in its first argument. -/
theorem cross_add_left {α : Type} [LinearOrderedField α] (a b n : vec3 α) :
    cross (a.add b) n = (cross a n).add (cross b n) := by
  simp only [cross, vec3.add, vec3.mk.injEq]
  refine ⟨?_, ?_, ?_⟩ <;> ring

/-- The cross product with a unit vector does not have a larger norm. -/
theorem sqrt_dot_cross_le (a n : vec3 ℝ) (hn : dot n n = 1) :
    Real.sqrt (dot (cross a n) (cross a n)) ≤ Real.sqrt (dot a a) := by
  apply Real.sqrt_le_sqrt
  rw [dot_cross_self, hn, mul_one]
  nlinarith [mul_self_nonneg (dot a n)]

/-- On the fast path of the cylinder wall every vertex lies strictly inside the cylinder. -/
theorem vertex_inside_cylinder_of_fast_path (rsq d2 : ℝ) (q : quat ℝ) (v p n : vec3 ℝ)
    (hn : dot n n = 1) (hq : q.s * q.s + dot q.v q.v = 1)
    (hv : Real.sqrt (dot v v) ≤ d2)
    (hfast : ¬ rsq ≤ (Real.sqrt (dot (cross p n) (cross p n)) + d2)
      * (Real.sqrt (dot (cross p n) (cross p n)) + d2)) :
    rsq > dot (cross ((rotate q v).add p) n) (cross ((rotate q v).add p) n) := by
  have htri := dot_add_self_le (cross (rotate q v) n) (cross p n)
  have hle := sqrt_dot_cross_le (rotate q v) n hn
  have hrot : dot (rotate q v) (rotate q v) = dot v v := by
    rw [dot_rotate_self, hq]
    ring
  rw [hrot] at hle
  rw [← cross_add_left] at htri
  have hc0 := Real.sqrt_nonneg (dot (cross (rotate q v) n) (cross (rotate q v) n))
  have hr0 := Real.sqrt_nonneg (dot (cross p n) (cross p n))
  generalize Real.sqrt (dot (cross (rotate q v) n) (cross (rotate q v) n)) = c
    at htri hle hc0
  generalize Real.sqrt (dot (cross p n) (cross p n)) = rho at htri hr0 hfast
  generalize Real.sqrt (dot v v) = nv at hle hv
  generalize dot (cross ((rotate q v).add p) n) (cross ((rotate q v).add p) n) = V at htri ⊢
  have hfast' := not_le.mp hfast
  nlinarith

/-- C25: over the reals, for an inside-constraint cylinder wall with unit axis and a convex
polyhedron with a unit quaternion orientation whose body-frame vertices all have norm at most
`diameter / 2`, `test_confined` returns true if and only if every rotated and translated vertex
lies strictly inside the cylinder, `wall.rsq > |(rotate(q, v) + shifted_pos) × axis|²`; the
result is that of the exact per-vertex check, on the fast path as well. -/
theorem test_confined_CylinderWall_ShapeConvexPolyhedron_inside_iff {max_verts : Nat}
    (test_overlap : vec3 ℝ → ShapeSpheropolyhedron ℝ max_verts →
      ShapeSpheropolyhedron ℝ max_verts → Nat → Bool × Nat)
    (hcap : 2 ≤ max_verts) (wall : CylinderWall ℝ) (shape : ShapeConvexPolyhedron ℝ max_verts)
    (position box_origin : vec3 ℝ) (box : BoxDim ℝ)
    (hin : wall.inside = true) (hn : dot wall.orientation wall.orientation = 1)
    (hq : shape.orientation.s * shape.orientation.s
      + dot shape.orientation.v shape.orientation.v = 1)
    (hverts : ∀ v (hv : v < shape.verts.N),
      Real.sqrt (dot (shape.verts.vertex v hv) (shape.verts.vertex v hv))
        ≤ shape.getCircumsphereDiameter / 2) :
    (test_confined_CylinderWall_ShapeConvexPolyhedron Real.sqrt test_overlap hcap wall shape
        position box_origin box = true ↔
      ∀ v (hv : v < shape.verts.N),
        wall.rsq > dot
          (cross ((rotate shape.orientation (shape.verts.vertex v hv)).add
            (box.minImage ((position.sub box_origin).sub wall.origin))) wall.orientation)
          (cross ((rotate shape.orientation (shape.verts.vertex v hv)).add
            (box.minImage ((position.sub box_origin).sub wall.origin))) wall.orientation)) ∧
    test_confined_CylinderWall_ShapeConvexPolyhedron Real.sqrt test_overlap hcap wall shape
        position box_origin box
      = exact_vertex_check_CylinderWall wall shape
        (box.minImage ((position.sub box_origin).sub wall.origin)) := by
  have key : test_confined_CylinderWall_ShapeConvexPolyhedron Real.sqrt test_overlap hcap wall
      shape position box_origin box = true ↔
      ∀ v (hv : v < shape.verts.N),
        wall.rsq > dot
          (cross ((rotate shape.orientation (shape.verts.vertex v hv)).add
            (box.minImage ((position.sub box_origin).sub wall.origin))) wall.orientation)
          (cross ((rotate shape.orientation (shape.verts.vertex v hv)).add
            (box.minImage ((position.sub box_origin).sub wall.origin))) wall.orientation) := by
    rw [test_confined_CylinderWall_ShapeConvexPolyhedron_inside_eq Real.sqrt test_overlap hcap
      wall shape position box_origin box hin _ rfl]
    generalize box.minImage ((position.sub box_origin).sub wall.origin) = p
    split_ifs with hcheck
    · rw [for_verts_eq_true_iff]
      simp only [true_and, Nat.zero_le, forall_true_left, decide_eq_true_eq]
      constructor
      · intro h v hv
        have := h v hv
        rwa [Real.mul_self_sqrt (dot_self_nonneg _)] at this
      · intro h v hv
        rw [Real.mul_self_sqrt (dot_self_nonneg _)]
        exact h v hv
    · simp only [true_iff]
      intro v hv
      exact vertex_inside_cylinder_of_fast_path wall.rsq (shape.getCircumsphereDiameter / 2)
        shape.orientation (shape.verts.vertex v hv) p wall.orientation hn hq (hverts v hv)
        hcheck
  refine ⟨key, ?_⟩
  rw [Bool.eq_iff_iff, key, exact_vertex_check_CylinderWall, decide_eq_true_eq]
  constructor
  · intro h v
    exact h v.val v.isLt
  · intro h v hv
    exact h ⟨v, hv⟩

/-- C25 at a concrete input: for the polyhedron with vertices `(±1, 0, 0)` at `(3.5, 0, 0)`
inside the cylinder wall of radius 5 along `z`, `test_confined` gives the result of the exact
per-vertex check. -/
theorem test_confined_CylinderWall_ShapeConvexPolyhedron_inside_iff_witness :
    test_confined_CylinderWall_ShapeConvexPolyhedron Real.sqrt no_overlap (le_refl 2)
        (CylinderWall.new Real.sqrt 5 ⟨0, 0, 0⟩ ⟨0, 0, 1⟩ true (empty_verts ℝ 2))
        (segment_polyhedron ℝ) ⟨3.5, 0, 0⟩ ⟨0, 0, 0⟩ (open_box ℝ)
      = exact_vertex_check_CylinderWall
        (CylinderWall.new Real.sqrt 5 ⟨0, 0, 0⟩ ⟨0, 0, 1⟩ true (empty_verts ℝ 2))
        (segment_polyhedron ℝ)
        ((open_box ℝ).minImage
          (((⟨3.5, 0, 0⟩ : vec3 ℝ).sub ⟨0, 0, 0⟩).sub
            (CylinderWall.new Real.sqrt 5 ⟨0, 0, 0⟩ ⟨0, 0, 1⟩ true
              (empty_verts ℝ 2)).origin)) :=
  (test_confined_CylinderWall_ShapeConvexPolyhedron_inside_iff no_overlap (le_refl 2)
    (CylinderWall.new Real.sqrt 5 ⟨0, 0, 0⟩ ⟨0, 0, 1⟩ true (empty_verts ℝ 2))
    (segment_polyhedron ℝ) ⟨3.5, 0, 0⟩ ⟨0, 0, 0⟩ (open_box ℝ) rfl
    (by norm_num [CylinderWall.new, vec3.sdiv, dot])
    (by norm_num [segment_polyhedron, quat.default, dot])
    (by
      intro v hv
      have hv2 : v < 2 := hv
      interval_cases v <;>
        norm_num [segment_polyhedron, poly3d_verts.vertex, dot,
          ShapeConvexPolyhedron.getCircumsphereDiameter])).2

/-- The polyhedron against sphere wall test under an outside constraint, in terms of the
minimum image `p` of the position and its norm `d`. -/
theorem test_confined_SphereWall_ShapeConvexPolyhedron_outside_eq {α : Type}
    [LinearOrderedField α] {max_verts : Nat} (sqrt : α → α)
    (test_overlap : vec3 α → ShapeSpheropolyhedron α max_verts →
      ShapeSpheropolyhedron α max_verts → Nat → Bool × Nat)
    (hcap : 1 ≤ max_verts) (wall : SphereWall α) (shape : ShapeConvexPolyhedron α max_verts)
    (position box_origin : vec3 α) (box : BoxDim α) (hout : wall.inside = false) (p : vec3 α)
    (hp : p = box.minImage ((position.sub box_origin).sub wall.origin)) (d : α)
    (hd : d = sqrt (dot p p)) :
    test_confined_SphereWall_ShapeConvexPolyhedron sqrt test_overlap hcap wall shape position
        box_origin box =
      if wall.rsq ≥ (if d - shape.getCircumsphereDiameter / 2 < 0 then 0
            else d - shape.getCircumsphereDiameter / 2)
          * (if d - shape.getCircumsphereDiameter / 2 < 0 then 0
            else d - shape.getCircumsphereDiameter / 2) then
        !(test_overlap p ⟨quat.default, cast_poly3d_verts hcap wall.verts⟩
          ⟨shape.orientation, shape.verts⟩ 0).1
      else true := by
  subst hd hp
  simp only [test_confined_SphereWall_ShapeConvexPolyhedron, hout, Bool.not_false, if_true,
    Bool.false_eq_true, if_false, decide_eq_true_eq, vec3.sub, dot]

/-- C26: with `test_overlap` an arbitrary function: for an outside-constraint sphere wall and a
convex polyhedron, with `max_dist = max(0, d - diameter / 2)`, `test_confined` returns true,
whatever `test_overlap` is, when `wall.rsq < max_dist²`, and otherwise returns the negation of
the result of `test_overlap(shifted_pos, wall spheropolyhedron, particle spheropolyhedron)`,
whatever value `err` takes; for an inside-constraint wall the result does not depend on
`test_overlap`. -/
theorem test_confined_SphereWall_ShapeConvexPolyhedron_outside {α : Type}
    [LinearOrderedField α] {max_verts : Nat} (sqrt : α → α)
    (test_overlap : vec3 α → ShapeSpheropolyhedron α max_verts →
      ShapeSpheropolyhedron α max_verts → Nat → Bool × Nat)
    (hcap : 1 ≤ max_verts) (wall : SphereWall α) (shape : ShapeConvexPolyhedron α max_verts)
    (position box_origin : vec3 α) (box : BoxDim α) :
    (wall.inside = false →
      (wall.rsq < (max 0 (sqrt (dot (box.minImage ((position.sub box_origin).sub wall.origin))
            (box.minImage ((position.sub box_origin).sub wall.origin)))
          - shape.getCircumsphereDiameter / 2)) ^ 2 →
        test_confined_SphereWall_ShapeConvexPolyhedron sqrt test_overlap hcap wall shape
          position box_origin box = true) ∧
      (¬ wall.rsq < (max 0 (sqrt (dot (box.minImage ((position.sub box_origin).sub wall.origin))
            (box.minImage ((position.sub box_origin).sub wall.origin)))
          - shape.getCircumsphereDiameter / 2)) ^ 2 →
        test_confined_SphereWall_ShapeConvexPolyhedron sqrt test_overlap hcap wall shape
          position box_origin box
          = !(test_overlap (box.minImage ((position.sub box_origin).sub wall.origin))
            ⟨quat.default, cast_poly3d_verts hcap wall.verts⟩
            ⟨shape.orientation, shape.verts⟩ 0).1)) ∧
    (wall.inside = true →
      ∀ other_overlap : vec3 α → ShapeSpheropolyhedron α max_verts →
        ShapeSpheropolyhedron α max_verts → Nat → Bool × Nat,
        test_confined_SphereWall_ShapeConvexPolyhedron sqrt other_overlap hcap wall shape
          position box_origin box
        = test_confined_SphereWall_ShapeConvexPolyhedron sqrt test_overlap hcap wall shape
          position box_origin box) := by
  constructor
  · intro hout
    rw [test_confined_SphereWall_ShapeConvexPolyhedron_outside_eq sqrt test_overlap hcap wall
      shape position box_origin box hout _ rfl _ rfl]
    generalize sqrt (dot (box.minImage ((position.sub box_origin).sub wall.origin))
      (box.minImage ((position.sub box_origin).sub wall.origin)))
      - shape.getCircumsphereDiameter / 2 = m
    have hmax : (if m < 0 then 0 else m) = max 0 m := by
      split_ifs with h
      · exact (max_eq_left (le_of_lt h)).symm
      · exact (max_eq_right (not_lt.mp h)).symm
    rw [hmax, ← sq]
    constructor
    · intro hlt
      rw [if_neg (not_le.mpr hlt)]
    · intro hge
      rw [if_pos (not_lt.mp hge)]
  · intro hin other_overlap
    simp only [test_confined_SphereWall_ShapeConvexPolyhedron, hin, if_true, Bool.not_true,
      Bool.false_eq_true, if_false]

/-- C26 at a concrete input: outside the sphere wall of radius 1 at the origin, the polyhedron
with vertices `(±1, 0, 0)` at `(3, 0, 0)` has `max_dist = 2` and is accepted without a test of
overlap. -/
theorem test_confined_SphereWall_ShapeConvexPolyhedron_outside_witness :
    test_confined_SphereWall_ShapeConvexPolyhedron Real.sqrt no_overlap (by decide)
      (SphereWall.new 1 ⟨0, 0, 0⟩ false (empty_verts ℝ 1)) (segment_polyhedron ℝ)
      ⟨3, 0, 0⟩ ⟨0, 0, 0⟩ (open_box ℝ) = true := by
  have hs : Real.sqrt (3 * 3) = 3 := Real.sqrt_mul_self (by norm_num)
  refine ((test_confined_SphereWall_ShapeConvexPolyhedron_outside Real.sqrt no_overlap
    (by decide) (SphereWall.new 1 ⟨0, 0, 0⟩ false (empty_verts ℝ 1)) (segment_polyhedron ℝ)
    ⟨3, 0, 0⟩ ⟨0, 0, 0⟩ (open_box ℝ)).1 rfl).1 ?_
  simp only [open_box, SphereWall.new, vec3.sub, dot, segment_polyhedron,
    ShapeConvexPolyhedron.getCircumsphereDiameter, id, sub_zero, mul_zero, add_zero, hs]
  norm_num

/-! ## Invariants of the walls under rescaling -/

/-- C31: for a sphere wall and a cylinder wall built by the constructor with radius `r`,
`verts.sweep_radius² = rsq`, and for the sphere wall also
`verts.diameter = 2 * verts.sweep_radius`; `scale(alpha)` keeps these equalities, for every
`alpha` and every wall for which they hold. -/
theorem radius_record_invariant {α : Type} [LinearOrderedField α] (sqrt : α → α) :
    (∀ (r : α) (orig : vec3 α) (ins : Bool) (verts0 : poly3d_verts α 1),
      (SphereWall.new r orig ins verts0).verts.sweep_radius ^ 2
          = (SphereWall.new r orig ins verts0).rsq ∧
        (SphereWall.new r orig ins verts0).verts.diameter
          = 2 * (SphereWall.new r orig ins verts0).verts.sweep_radius) ∧
    (∀ (r : α) (orig orient : vec3 α) (ins : Bool) (verts0 : poly3d_verts α 2),
      (CylinderWall.new sqrt r orig orient ins verts0).verts.sweep_radius ^ 2
        = (CylinderWall.new sqrt r orig orient ins verts0).rsq) ∧
    (∀ (wall : SphereWall α) (alpha : α),
      (wall.verts.sweep_radius ^ 2 = wall.rsq →
        (wall.scale alpha).verts.sweep_radius ^ 2 = (wall.scale alpha).rsq) ∧
      (wall.verts.diameter = 2 * wall.verts.sweep_radius →
        (wall.scale alpha).verts.diameter = 2 * (wall.scale alpha).verts.sweep_radius)) ∧
    (∀ (wall : CylinderWall α) (alpha : α),
      wall.verts.sweep_radius ^ 2 = wall.rsq →
        (wall.scale alpha).verts.sweep_radius ^ 2 = (wall.scale alpha).rsq) := by
  refine ⟨?_, ?_, ?_, ?_⟩
  · intro r orig ins verts0
    constructor
    · simp only [SphereWall.new]
      ring
    · simp only [SphereWall.new]
      ring
  · intro r orig orient ins verts0
    simp only [CylinderWall.new]
    ring
  · intro wall alpha
    constructor
    · intro h
      simp only [SphereWall.scale]
      rw [← h]
      ring
    · intro h
      simp only [SphereWall.scale]
      rw [h]
      ring
  · intro wall alpha h
    simp only [CylinderWall.scale]
    rw [← h]
    ring

/-- C31 at a concrete input: the sphere wall of radius 5, scaled by 2 and then by 3, still has
`sweep_radius² = rsq`. -/
theorem radius_record_invariant_witness :
    (((SphereWall.new 5 ⟨0, 0, 0⟩ true (empty_verts ℚ 1)).scale 2).scale 3).verts.sweep_radius ^ 2
      = (((SphereWall.new 5 ⟨0, 0, 0⟩ true (empty_verts ℚ 1)).scale 2).scale 3).rsq :=
  ((radius_record_invariant (fun x : ℚ => x)).2.2.1
    ((SphereWall.new 5 ⟨0, 0, 0⟩ true (empty_verts ℚ 1)).scale 2) 3).1
    (((radius_record_invariant (fun x : ℚ => x)).2.2.1
      (SphereWall.new 5 ⟨0, 0, 0⟩ true (empty_verts ℚ 1)) 2).1
      ((radius_record_invariant (fun x : ℚ => x)).1 5 ⟨0, 0, 0⟩ true (empty_verts ℚ 1)).1)

/-! ## Symmetries of the sphere tests -/

/-- Moving a point along the axis does not change its cross product with the axis. -/
theorem cross_sub_add_smul {α : Type} [LinearOrderedField α] (p b o n : vec3 α) (t : α) :
    cross (((p.add (vec3.smul t n)).sub b).sub o) n = cross ((p.sub b).sub o) n := by
  simp only [cross, vec3.add, vec3.sub, vec3.smul, vec3.mk.injEq]
  refine ⟨?_, ?_, ?_⟩ <;> ring

/-- C34: a cylinder wall is infinite along its axis: in a box whose minimum image map is the
identity, for every cylinder wall with axis `n`, every sphere and every `t`, `test_confined` at
the position `p + t * n` returns the same result as at `p`. -/
theorem test_confined_CylinderWall_axis_shift {α : Type} [LinearOrderedField α] (sqrt : α → α)
    (wall : CylinderWall α) (shape : ShapeSphere α) (position box_origin : vec3 α)
    (box : BoxDim α) (hbox : ∀ v, box.minImage v = v) (t : α) :
    test_confined_CylinderWall_ShapeSphere sqrt wall shape
        (position.add (vec3.smul t wall.orientation)) box_origin box
      = test_confined_CylinderWall_ShapeSphere sqrt wall shape position box_origin box := by
  rw [test_confined_CylinderWall_ShapeSphere_eq sqrt wall shape
      (position.add (vec3.smul t wall.orientation)) box_origin box _ rfl,
    test_confined_CylinderWall_ShapeSphere_eq sqrt wall shape position box_origin box _ rfl,
    hbox, hbox, cross_sub_add_smul]

/-- C34 at a concrete input: inside the cylinder wall of radius 5 along `z`, a sphere of
diameter 2 at `(3, 0, 9) + 4 * (0, 0, 1)` and at `(3, 0, 9)`. -/
theorem test_confined_CylinderWall_axis_shift_witness :
    test_confined_CylinderWall_ShapeSphere Real.sqrt
        (CylinderWall.new Real.sqrt 5 ⟨0, 0, 0⟩ ⟨0, 0, 1⟩ true (empty_verts ℝ 2))
        (sphere_of_diameter 2)
        ((⟨3, 0, 9⟩ : vec3 ℝ).add (vec3.smul 4
          (CylinderWall.new Real.sqrt 5 ⟨0, 0, 0⟩ ⟨0, 0, 1⟩ true
            (empty_verts ℝ 2)).orientation))
        ⟨0, 0, 0⟩ (open_box ℝ)
      = test_confined_CylinderWall_ShapeSphere Real.sqrt
        (CylinderWall.new Real.sqrt 5 ⟨0, 0, 0⟩ ⟨0, 0, 1⟩ true (empty_verts ℝ 2))
        (sphere_of_diameter 2) ⟨3, 0, 9⟩ ⟨0, 0, 0⟩ (open_box ℝ) :=
  test_confined_CylinderWall_axis_shift Real.sqrt
    (CylinderWall.new Real.sqrt 5 ⟨0, 0, 0⟩ ⟨0, 0, 1⟩ true (empty_verts ℝ 2))
    (sphere_of_diameter 2) ⟨3, 0, 9⟩ ⟨0, 0, 0⟩ (open_box ℝ) (fun _ => rfl) 4

/-- An inside test and an outside test with the same squared radius, the same distance
`d ≥ 0` and the same radius `r ≥ 0` do not both pass. -/
theorem inside_outside_exclusive (rsq d r : ℝ) (hd : 0 ≤ d) (hr : 0 ≤ r)
    (hin : rsq > (d + r) * (d + r))
    (hout : rsq < (if d - r < 0 then 0 else d - r) * (if d - r < 0 then 0 else d - r)) :
    False := by
  split_ifs at hout with hneg
  · nlinarith [mul_self_nonneg (d + r)]
  · nlinarith [mul_nonneg hd hr]

/-- C35: over the reals, for a sphere of circumsphere radius `r = diameter / 2 ≥ 0` at any
position, an inside-constraint sphere wall and an outside-constraint sphere wall with the same
`rsq` and origin never both return true from `test_confined`, so that a field holding both has
weight 0 for every sphere; the same holds for cylinder walls with the same `rsq`, origin and
orientation. -/
theorem test_confined_inside_outside_exclusive (shape : ShapeSphere ℝ)
    (hr : 0 ≤ shape.getCircumsphereDiameter / 2) (position box_origin : vec3 ℝ)
    (box : BoxDim ℝ) :
    (∀ wall_in wall_out : SphereWall ℝ, wall_in.inside = true → wall_out.inside = false →
      wall_in.rsq = wall_out.rsq → wall_in.origin = wall_out.origin →
      ¬ (test_confined_SphereWall_ShapeSphere Real.sqrt wall_in shape position box_origin box
          = true ∧
        test_confined_SphereWall_ShapeSphere Real.sqrt wall_out shape position box_origin box
          = true)) ∧
    (∀ wall_in wall_out : CylinderWall ℝ, wall_in.inside = true → wall_out.inside = false →
      wall_in.rsq = wall_out.rsq → wall_in.origin = wall_out.origin →
      wall_in.orientation = wall_out.orientation →
      ¬ (test_confined_CylinderWall_ShapeSphere Real.sqrt wall_in shape position box_origin box
          = true ∧
        test_confined_CylinderWall_ShapeSphere Real.sqrt wall_out shape position box_origin box
          = true)) ∧
    (∀ (self : ExternalFieldWall ℝ) (wall_in wall_out : SphereWall ℝ),
      wall_in ∈ self.m_Spheres → wall_out ∈ self.m_Spheres →
      wall_in.inside = true → wall_out.inside = false →
      wall_in.rsq = wall_out.rsq → wall_in.origin = wall_out.origin →
      self.m_pdata.origin = box_origin → self.m_pdata.globalBox = box →
      ∀ (index : Nat) (position_old : vec3 ℝ) (shape_old : ShapeSphere ℝ),
        (self.boltzmann (ShapeSphere.overloads Real.sqrt) index position_old shape_old
          position shape).1 = 0) := by
  have hsphere : ∀ wall_in wall_out : SphereWall ℝ, wall_in.inside = true →
      wall_out.inside = false → wall_in.rsq = wall_out.rsq → wall_in.origin = wall_out.origin →
      ¬ (test_confined_SphereWall_ShapeSphere Real.sqrt wall_in shape position box_origin box
          = true ∧
        test_confined_SphereWall_ShapeSphere Real.sqrt wall_out shape position box_origin box
          = true) := by
    intro wall_in wall_out hin hout hrsq horigin
    rw [test_confined_SphereWall_ShapeSphere_eq Real.sqrt wall_in shape position box_origin box
        _ rfl,
      test_confined_SphereWall_ShapeSphere_eq Real.sqrt wall_out shape position box_origin box
        _ rfl, hin, hout, hrsq, horigin]
    simp only [if_true, Bool.false_eq_true, if_false, decide_eq_true_eq]
    rintro ⟨h1, h2⟩
    exact inside_outside_exclusive _ _ _ (Real.sqrt_nonneg _) hr h1 h2
  refine ⟨hsphere, ?_, ?_⟩
  · intro wall_in wall_out hin hout hrsq horigin horient
    rw [test_confined_CylinderWall_ShapeSphere_eq Real.sqrt wall_in shape position box_origin
        box _ rfl,
      test_confined_CylinderWall_ShapeSphere_eq Real.sqrt wall_out shape position box_origin
        box _ rfl, hin, hout, hrsq, horigin, horient]
    simp only [if_true, Bool.false_eq_true, if_false, decide_eq_true_eq]
    rintro ⟨h1, h2⟩
    exact inside_outside_exclusive _ _ _ (Real.sqrt_nonneg _) hr h1 h2
  · intro self wall_in wall_out hmin hmout hin hout hrsq horigin hfo hfb index position_old
      shape_old
    rcases boltzmann_fst_eq_zero_or_one (ShapeSphere.overloads Real.sqrt) self index
      position_old shape_old position shape with h0 | h1
    · exact h0
    · exfalso
      have hall := ((boltzmann_fst_eq_one_iff (ShapeSphere.overloads Real.sqrt) self index
        position_old shape_old position shape).mp h1).1
      rw [hfo, hfb] at hall
      exact hsphere wall_in wall_out hin hout hrsq horigin
        ⟨hall wall_in hmin, hall wall_out hmout⟩

/-- C35 at a concrete input: the field with an inside-constraint and an outside-constraint
sphere wall of radius 5 at the origin gives a sphere of diameter 2 at `(1, 2, 3)` the
weight 0. -/
theorem test_confined_inside_outside_exclusive_witness :
    ((inside_outside_field ℝ).boltzmann (ShapeSphere.overloads Real.sqrt) 0 ⟨0, 0, 0⟩
      (sphere_of_diameter 2) ⟨1, 2, 3⟩ (sphere_of_diameter 2)).1 = 0 :=
  (test_confined_inside_outside_exclusive (sphere_of_diameter 2)
    (by norm_num [ShapeSphere.getCircumsphereDiameter, sphere_of_diameter])
    ⟨1, 2, 3⟩ ⟨0, 0, 0⟩ (open_box ℝ)).2.2 (inside_outside_field ℝ)
    (SphereWall.new 5 ⟨0, 0, 0⟩ true (empty_verts ℝ 1))
    (SphereWall.new 5 ⟨0, 0, 0⟩ false (empty_verts ℝ 1))
    (by simp [inside_outside_field]) (by simp [inside_outside_field]) rfl rfl rfl rfl rfl rfl
    0 ⟨0, 0, 0⟩ (sphere_of_diameter 2)

/-! ## Rescaling twice -/

/-- Scaling a sphere wall by `a` and then by `b` is scaling it by `a * b`. -/
theorem sphere_wall_scale_scale {α : Type} [LinearOrderedField α] (wall : SphereWall α)
    (a b : α) : (wall.scale a).scale b = wall.scale (a * b) := by
  obtain ⟨rsq, inside, origin, verts⟩ := wall
  obtain ⟨x, y, z⟩ := origin
  simp only [SphereWall.scale, vec3.smul, SphereWall.mk.injEq, vec3.mk.injEq,
    poly3d_verts.mk.injEq, true_and, and_true]
  refine ⟨?_, ⟨?_, ?_, ?_⟩, ?_, ?_⟩ <;> ring

/-- Scaling a cylinder wall by `a` and then by `b` is scaling it by `a * b`. -/
theorem cylinder_wall_scale_scale {α : Type} [LinearOrderedField α] (wall : CylinderWall α)
    (a b : α) : (wall.scale a).scale b = wall.scale (a * b) := by
  obtain ⟨rsq, inside, origin, orientation, verts⟩ := wall
  obtain ⟨x, y, z⟩ := origin
  simp only [CylinderWall.scale, vec3.smul, CylinderWall.mk.injEq, vec3.mk.injEq,
    poly3d_verts.mk.injEq, true_and, and_true]
  refine ⟨?_, ⟨?_, ?_, ?_⟩, ?_⟩ <;> ring

/-- Scaling a plane wall by `a` and then by `b` is scaling it by `a * b`. -/
theorem plane_wall_scale_scale {α : Type} [LinearOrderedField α] (wall : PlaneWall α)
    (a b : α) : (wall.scale a).scale b = wall.scale (a * b) := by
  obtain ⟨normal, origin, inside, d⟩ := wall
  obtain ⟨x, y, z⟩ := origin
  simp only [PlaneWall.scale, vec3.smul, PlaneWall.mk.injEq, vec3.mk.injEq, true_and,
    and_true]
  refine ⟨⟨?_, ?_, ?_⟩, ?_⟩ <;> ring

/-- The scale factors of two box changes in a row multiply to the scale factor of the whole
change. -/
theorem rpow_ratio_mul (V0 V1 V2 : ℝ) (h0 : 0 < V0) (h1 : 0 < V1) (h2 : 0 < V2) :
    Real.rpow (V1 / V0) (1 / 3) * Real.rpow (V2 / V1) (1 / 3) = Real.rpow (V2 / V0) (1 / 3) := by
  have hmul : V1 / V0 * (V2 / V1) = V2 / V0 := by
    field_simp
    ring
  rw [← hmul]
  exact (Real.mul_rpow (le_of_lt (div_pos h1 h0)) (le_of_lt (div_pos h2 h1))).symm

/-- C33: for positive volumes, `scaleWalls` for the box change from the tracked box to `box1`
followed by `scaleWalls` for the change to `box2` leaves the same field, with the same wall
parameters and the same `m_Volume`, as `scaleWalls` once for the change to `box2`; for every
wall, `scale(a)` followed by `scale(b)` is `scale(a * b)`, and `scale(1)` is the identity. -/
theorem scaleWalls_path_independent (getVolume : BoxDim ℝ → ℝ) (self : ExternalFieldWall ℝ)
    (box1 box2 : BoxDim ℝ) (h0 : 0 < getVolume self.m_box) (h1 : 0 < getVolume box1)
    (h2 : 0 < getVolume box2) :
    (((self.setGlobalBox box1).scaleWalls Real.rpow getVolume).setGlobalBox box2).scaleWalls
        Real.rpow getVolume
      = (self.setGlobalBox box2).scaleWalls Real.rpow getVolume ∧
    (∀ (wall : SphereWall ℝ) (a b : ℝ),
      (wall.scale a).scale b = wall.scale (a * b) ∧ wall.scale 1 = wall) ∧
    (∀ (wall : CylinderWall ℝ) (a b : ℝ),
      (wall.scale a).scale b = wall.scale (a * b) ∧ wall.scale 1 = wall) ∧
    (∀ (wall : PlaneWall ℝ) (a b : ℝ),
      (wall.scale a).scale b = wall.scale (a * b) ∧ wall.scale 1 = wall) := by
  refine ⟨?_, fun wall a b => ⟨sphere_wall_scale_scale wall a b, sphere_wall_scale_one wall⟩,
    fun wall a b => ⟨cylinder_wall_scale_scale wall a b, cylinder_wall_scale_one wall⟩,
    fun wall a b => ⟨plane_wall_scale_scale wall a b, plane_wall_scale_one wall⟩⟩
  have halpha := rpow_ratio_mul (getVolume self.m_box) (getVolume box1) (getVolume box2) h0 h1 h2
  have hratio : getVolume box1 / getVolume self.m_box * (getVolume box2 / getVolume box1)
      = getVolume box2 / getVolume self.m_box := by
    field_simp
    ring
  simp only [ExternalFieldWall.scaleWalls, ExternalFieldWall.setGlobalBox, List.map_map,
    ExternalFieldWall.mk.injEq, true_and, and_true]
  refine ⟨?_, ?_, ?_, ?_⟩
  · apply List.map_congr_left
    intro wall _
    simp only [Function.comp_apply, sphere_wall_scale_scale, halpha]
  · apply List.map_congr_left
    intro wall _
    simp only [Function.comp_apply, cylinder_wall_scale_scale, halpha]
  · apply List.map_congr_left
    intro wall _
    simp only [Function.comp_apply, plane_wall_scale_scale, halpha]
  · rw [mul_assoc, hratio]

/-- C33 at a concrete input: the field `example_field`, tracking a box of volume 1, after the
box changes to edge length 2 and then to edge length 3, and after the change to edge length 3
at once. -/
theorem scaleWalls_path_independent_witness :
    ((((example_field ℝ Real.sqrt).setGlobalBox
          { open_box ℝ with L := ⟨2, 2, 2⟩ }).scaleWalls Real.rpow edge_product).setGlobalBox
        { open_box ℝ with L := ⟨3, 3, 3⟩ }).scaleWalls Real.rpow edge_product
      = ((example_field ℝ Real.sqrt).setGlobalBox
        { open_box ℝ with L := ⟨3, 3, 3⟩ }).scaleWalls Real.rpow edge_product :=
  (scaleWalls_path_independent edge_product (example_field ℝ Real.sqrt)
    { open_box ℝ with L := ⟨2, 2, 2⟩ } { open_box ℝ with L := ⟨3, 3, 3⟩ }
    (by norm_num [edge_product, example_field, open_box])
    (by norm_num [edge_product, open_box])
    (by norm_num [edge_product, open_box])).1

/-! ## Wall volume and box volume -/

/-- The cube of the cube root of a number that is not negative. -/
theorem rpow_third_pow_three (x : ℝ) (hx : 0 ≤ x) : (Real.rpow x (1 / 3)) ^ 3 = x := by
  have h := Real.rpow_inv_natCast_pow hx (show (3 : ℕ) ≠ 0 by norm_num)
  have h3 : (1 / 3 : ℝ) = (((3 : ℕ) : ℝ))⁻¹ := by norm_num
  rw [Real.rpow_eq_pow, h3]
  exact h

/-- The power `3/2` of a number that is negative is zero. -/
theorem rpow_three_halves_of_neg (x : ℝ) (hx : x < 0) : x ^ ((3 : ℝ) / 2) = 0 := by
  rw [Real.rpow_def_of_neg hx]
  have hcos : Real.cos ((3 : ℝ) / 2 * Real.pi) = 0 := by
    have h : (3 : ℝ) / 2 * Real.pi = Real.pi / 2 + Real.pi := by ring
    rw [h, Real.cos_add_pi, Real.cos_pi_div_two, neg_zero]
  rw [hcos, mul_zero]

/-- The power `3/2` of a squared radius scaled by `a²`, for `a > 0`. -/
theorem rpow_three_halves_scale (rsq a : ℝ) (ha : 0 < a) :
    (rsq * (a * a)) ^ ((3 : ℝ) / 2) = rsq ^ ((3 : ℝ) / 2) * a ^ 3 := by
  rcases lt_or_le rsq 0 with hneg | hnonneg
  · rw [rpow_three_halves_of_neg rsq hneg,
      rpow_three_halves_of_neg _ (mul_neg_of_neg_of_pos hneg (mul_pos ha ha)), zero_mul]
  · rw [Real.mul_rpow hnonneg (le_of_lt (mul_pos ha ha))]
    congr 1
    have h2 : a * a = a ^ (2 : ℝ) := by
      rw [Real.rpow_two]
      ring
    rw [h2, ← Real.rpow_mul (le_of_lt ha)]
    have h3 : (2 : ℝ) * (3 / 2) = ((3 : ℕ) : ℝ) := by norm_num
    rw [h3, Real.rpow_natCast]

/-- C32: for positive box volumes, after `scaleWalls` every sphere wall satisfies
`rsq_new³ = (newVolume / oldVolume)² * rsq_old³`, and every relation
`m_Volume = c * rsq^(3/2)` between the volume accumulator and the sphere wall that held before
`scaleWalls` holds afterwards. -/
theorem scaleWalls_volume_tracking (getVolume : BoxDim ℝ → ℝ) (self : ExternalFieldWall ℝ)
    (hnew : 0 < getVolume self.m_pdata.globalBox) (hold : 0 < getVolume self.m_box) :
    ∀ (i : Nat) (wall : SphereWall ℝ), self.m_Spheres[i]? = some wall →
      ∃ scaled : SphereWall ℝ,
        (self.scaleWalls Real.rpow getVolume).m_Spheres[i]? = some scaled ∧
        scaled.rsq ^ 3
          = (getVolume self.m_pdata.globalBox / getVolume self.m_box) ^ 2 * wall.rsq ^ 3 ∧
        ∀ c : ℝ, self.m_Volume = c * wall.rsq ^ ((3 : ℝ) / 2) →
          (self.scaleWalls Real.rpow getVolume).m_Volume = c * scaled.rsq ^ ((3 : ℝ) / 2) := by
  intro i wall hwall
  have hratio : 0 < getVolume self.m_pdata.globalBox / getVolume self.m_box :=
    div_pos hnew hold
  have hcube := rpow_third_pow_three _ (le_of_lt hratio)
  have hapos : 0 < Real.rpow (getVolume self.m_pdata.globalBox / getVolume self.m_box)
      (1 / 3) := Real.rpow_pos_of_pos hratio _
  refine ⟨wall.scale (Real.rpow (getVolume self.m_pdata.globalBox / getVolume self.m_box)
    (1 / 3)), ?_, ?_, ?_⟩
  · simp [ExternalFieldWall.scaleWalls, List.getElem?_map, hwall]
  · simp only [SphereWall.scale]
    generalize Real.rpow (getVolume self.m_pdata.globalBox / getVolume self.m_box) (1 / 3) = a
      at hcube
    rw [← hcube]
    ring
  · intro c hc
    simp only [ExternalFieldWall.scaleWalls, SphereWall.scale]
    rw [rpow_three_halves_scale _ _ hapos, hcube, hc]
    ring

/-- C32 at a concrete input: the field `example_field_stale` tracks a box of volume 8 in a
global box of volume 1; after `scaleWalls` its sphere wall, of squared radius 25 before, has a
squared radius whose cube is `(1 / 8)² * 25³`. -/
theorem scaleWalls_volume_tracking_witness :
    ∃ scaled : SphereWall ℝ,
      ((example_field_stale ℝ Real.sqrt).scaleWalls Real.rpow edge_product).m_Spheres[0]?
        = some scaled ∧
      scaled.rsq ^ 3 = (1 / 8) ^ 2 * 25 ^ 3 := by
  obtain ⟨scaled, hget, hcube, _⟩ := scaleWalls_volume_tracking edge_product
    (example_field_stale ℝ Real.sqrt)
    (by norm_num [edge_product, example_field_stale, open_box])
    (by norm_num [edge_product, example_field_stale, open_box])
    0 (SphereWall.new 5 ⟨0, 0, 0⟩ true (empty_verts ℝ 1)) rfl
  refine ⟨scaled, hget, ?_⟩
  rw [hcube]
  norm_num [edge_product, example_field_stale, open_box, SphereWall.new]

end hpmc
